import Mathlib

/-!
fio.staking: a shallow embedding of the staking contract.

The contract `contracts/fio.staking/fio.staking.cpp` keeps one global record of pool
counters and one row per staking account.  Its four actions are `incgrewards`,
`recorddaily`, `stakefio` and `unstakefio`.  This development embeds them as Lean
functions and proves properties of the embedding.

Conventions of the embedding:

* `uint64_t` values are natural numbers below `2 ^ 64`; arithmetic that can leave the
  range is wrapped with `wrap64`.  `int64_t` values are integers; a conversion to
  `uint64_t` is `toU64`.
* `double` values are IEEE-754 binary64 numbers (the chain executes them with a
  deterministic software implementation, round to nearest, ties to even).  A finite
  double is stored exactly as an integer count of units of `2 ^ (-1074)`; an operation
  whose result is not finite returns `none`.
* an action either aborts (`Except.error`), in which case the host rolls back every
  change, or returns its outcome (`Except.ok`).
-/

namespace FioStaking

/-! ## Machine integers -/

/-- Reduction of a natural number to the `uint64_t` range. -/
def wrap64 (n : Nat) : Nat := n % 2 ^ 64

/-- Reduction of a natural number to the `uint32_t` range. -/
def wrap32 (n : Nat) : Nat := n % 2 ^ 32

/-- Conversion `(uint64_t) i` of a signed integer. -/
def toU64 (i : Int) : Nat := (i % 2 ^ 64).toNat

/-- Conversion `(uint32_t) i` of a signed integer. -/
def toU32 (i : Int) : Nat := (i % 2 ^ 32).toNat

/-- Conversion `(int64_t) n` of an unsigned 64-bit value. -/
def toI64 (n : Nat) : Int :=
  if n % 2 ^ 64 < 2 ^ 63 then ((n % 2 ^ 64 : Nat) : Int) else ((n % 2 ^ 64 : Nat) : Int) - 2 ^ 64

/-! ## Binary64 arithmetic -/

/-- The power `2 ^ k`, computed in chunks of 256 binary digits. -/
def pow2 (k : Nat) : Nat := (2 ^ 256) ^ (k / 256) * 2 ^ (k % 256)

/-- The nearest integer to `p / q`, a tie going to the even neighbour. -/
def nearestEven (p q : Nat) : Nat :=
  let n := p / q
  let r := p % q
  if 2 * r < q then n
  else if q < 2 * r then n + 1
  else if n % 2 = 0 then n else n + 1

/-- One rung of the logarithm ladder: strip `j` binary digits when at least `j + 1` are there. -/
def log2Step (j : Nat) (st : Nat × Nat) : Nat × Nat :=
  if 2 ^ j ≤ st.1 then (st.1 / 2 ^ j, st.2 + j) else st

/-- The rungs of the ladder; they cover every argument below `2 ^ 4351`. -/
def log2Rungs : List Nat :=
  [256, 256, 256, 256, 256, 256, 256, 256, 256, 256, 256, 256, 256, 256, 256, 256,
   128, 64, 32, 16, 8, 4, 2, 1]

/-- Floor of the base-2 logarithm of `n` (and `0` at `0`). -/
def ilog2 (n : Nat) : Nat :=
  (List.foldl (fun st j => log2Step j st) (n, 0) log2Rungs).2

/-- The value `p / q` (in units of `2 ^ (-1074)`) rounded to a significand of 53 binary
digits, to nearest, ties to even.  Below `2 ^ 53` units the spacing is one unit, which
is the subnormal and lowest normal range. -/
def roundUnits (p q : Nat) : Nat :=
  let k := (ilog2 (p / q) + 1) - 53
  nearestEven p (q * pow2 k) * pow2 k

/-- A finite binary64 value, held as its exact multiple of `2 ^ (-1074)`. -/
structure Dbl where
  units : Int
  deriving DecidableEq, Repr

namespace Dbl

/-- The binary exponent of the unit: one unit is `2 ^ (-1074)`, the least positive double. -/
def scaleBits : Nat := 1074

/-- The number of units in `1.0`. -/
def K : Nat := pow2 scaleBits

/-- The binary exponent, in units, of the first magnitude that is no longer finite:
`2 ^ 1024` is `2 ^ 2098` units. -/
def overflowBits : Nat := 2098

/-- The first magnitude, in units, that is no longer finite (`2 ^ 1024`). -/
def overflowUnits : Nat := pow2 overflowBits

/-- Rounding of the exact magnitude `p / q` units with the given sign; `none` when the
divisor is zero or the rounded magnitude is not finite. -/
def round (neg : Bool) (p q : Nat) : Option Dbl :=
  if q = 0 then none
  else
    let u := roundUnits p q
    if overflowUnits ≤ u then none
    else some ⟨if neg then -(u : Int) else (u : Int)⟩

/-- Conversion `(double) i` of a 64-bit integer (never overflows). -/
def ofInt (i : Int) : Dbl :=
  ⟨if i < 0 then -((roundUnits (i.natAbs * K) 1 : Nat) : Int)
    else ((roundUnits (i.natAbs * K) 1 : Nat) : Int)⟩

/-- Conversion `(double) n` of an unsigned integer. -/
def ofNat (n : Nat) : Dbl := ofInt (n : Int)

/-- The sum `a + b`. -/
def add (a b : Dbl) : Option Dbl :=
  round (decide (a.units + b.units < 0)) (a.units + b.units).natAbs 1

/-- The difference `a - b`. -/
def sub (a b : Dbl) : Option Dbl :=
  round (decide (a.units - b.units < 0)) (a.units - b.units).natAbs 1

/-- The product `a * b`. -/
def mul (a b : Dbl) : Option Dbl :=
  round (xor (decide (a.units < 0)) (decide (b.units < 0))) (a.units.natAbs * b.units.natAbs) K

/-- The quotient `a / b`; a zero divisor has no finite result. -/
def div (a b : Dbl) : Option Dbl :=
  round (xor (decide (a.units < 0)) (decide (b.units < 0))) (a.units.natAbs * K) b.units.natAbs

/-- The integer part of the value, rounded toward zero. -/
def trunc (a : Dbl) : Int :=
  if a.units < 0 then -((a.units.natAbs / K : Nat) : Int) else ((a.units.natAbs / K : Nat) : Int)

/-- Conversion `int(a)` to a 32-bit `int`; undefined outside its range. -/
def toInt (a : Dbl) : Option Int :=
  if -(2 ^ 31) ≤ a.trunc ∧ a.trunc < 2 ^ 31 then some a.trunc else none

/-- Conversion `(uint64_t) a`; undefined outside its range. -/
def toUInt64 (a : Dbl) : Option Nat :=
  if 0 ≤ a.trunc ∧ a.trunc < 2 ^ 64 then some a.trunc.toNat else none

end Dbl

/-! ## Tables and records -/

/-- The singleton of pool counters (`global_staking_state`), every field a `uint64_t`. -/
structure global_staking_state where
  staked_token_pool : Nat
  combined_token_pool : Nat
  rewards_token_pool : Nat
  global_srp_count : Nat
  daily_staking_rewards : Nat
  staking_rewards_reserves_minted : Nat
  deriving DecidableEq, Repr

/-- One row of the account staking table (`account_staking_info`). -/
structure account_staking_info where
  id : Nat
  account : Nat
  total_srp : Nat
  total_staked_fio : Nat
  deriving DecidableEq, Repr

/-- One unlock period of a general lock: seconds after the lock's timestamp, and the
percent of the lock that unlocks then. -/
structure lockperiods where
  duration : Int
  percent : Dbl
  deriving DecidableEq, Repr

/-- A row of the system contract's general locks table, as far as `unstakefio` reads it. -/
structure locked_tokens_info where
  lock_amount : Int
  remaining_lock_amount : Int
  timestamp : Nat
  periods : List lockperiods
  deriving DecidableEq, Repr

/-- A row of the system contract's voters table, as far as `stakefio` reads it. -/
structure voter_info where
  proxy : Nat
  producers_size : Nat
  is_auto_proxy : Bool
  deriving DecidableEq, Repr

/-- A row of the address contract's names table, as far as the staking actions read it. -/
structure fioname where
  owner_account : Nat
  expiration : Nat
  bundleeligiblecountdown : Nat
  deriving DecidableEq, Repr

/-- A row of the fee contract's fee table. -/
structure fiofee where
  suf_amount : Nat
  type : Nat
  deriving DecidableEq, Repr

/-- Constants that the contract takes from headers outside this file. -/
structure Config where
  COMBINEDTOKENPOOLMINIMUM : Nat
  STAKEFIOTOKENSRAM : Nat
  UNSTAKEFIOTOKENSRAM : Nat
  MAX_TRX_SIZE : Nat
  STAKE_FIO_TOKENS_ENDPOINT : String
  UNSTAKE_FIO_TOKENS_ENDPOINT : String
  AddressContract : Nat
  TokenContract : Nat
  TREASURYACCOUNT : Nat
  STAKINGACCOUNT : Nat
  REQOBTACCOUNT : Nat
  SYSTEMACCOUNT : Nat
  FeeContract : Nat

/-- What an action reads from the host chain and from other contracts' tables. Names
are looked up by the address string (the contract hashes it first). -/
structure Chain where
  has_auth : Nat → Bool
  now : Nat
  voters : Nat → Option voter_info
  fionames : String → Option fioname
  fiofees : String → Option fiofee
  generallocks : Nat → Option locked_tokens_info
  computeusablebalance : Nat → Nat
  validateTPIDFormat : String → Bool
  validateFioNameFormat : String → Bool
  transaction_size : Nat

/-- The ways an action stops without effect. -/
inductive Abort where
  | missing_auth
  | fio_400 (field : String) (message : String)
  | fio_403
  | eosio_assert (message : String)
  | undefined (what : String)
  deriving DecidableEq, Repr

/-- Messages an action sends to other contracts, and calls of the shared fee helpers. -/
inductive Action where
  | decrcounter (fio_address : String) (step : Nat)
  | fio_fees (actor : Nat) (fee : Int) (endpoint : String)
  | process_rewards (tpid : String) (amount : Int) (actor : Nat)
  | updatepower (actor : Nat) (updateonly : Bool)
  | incram (actor : Nat) (amount : Nat)
  | paystake (actor : Nat) (amount : Nat)
  | updatetpid (tpid : String) (owner : Nat) (amount : Nat)
  | modgenlocked (owner : Nat) (periods : List lockperiods) (amount : Int) (remaining : Int)
  | addgenlocked (owner : Nat) (periods : List lockperiods) (canvote : Bool) (amount : Int)
  | send_response (fee_collected : Nat)
  deriving DecidableEq, Repr

/-- The check `fio_400_assert`. -/
def fio_400_assert (c : Bool) (field message : String) : Except Abort Unit :=
  if c then Except.ok () else Except.error (Abort.fio_400 field message)

/-- The check `fio_403_assert`. -/
def fio_403_assert (c : Bool) : Except Abort Unit :=
  if c then Except.ok () else Except.error Abort.fio_403

/-- The check `eosio_assert`. -/
def eosio_assert (c : Bool) (message : String) : Except Abort Unit :=
  if c then Except.ok () else Except.error (Abort.eosio_assert message)

/-- The check `require_auth`. -/
def require_auth (ch : Chain) (actor : Nat) : Except Abort Unit :=
  if ch.has_auth actor then Except.ok () else Except.error Abort.missing_auth

/-- A floating-point result that must be finite for the code to go on. -/
def finite (o : Option Dbl) : Except Abort Dbl :=
  match o with
  | some d => Except.ok d
  | none => Except.error (Abort.undefined "double result is not finite")

/-- Unsigned 64-bit division; a zero divisor traps. -/
def udiv64 (a b : Nat) : Except Abort Nat :=
  if b = 0 then Except.error (Abort.undefined "integer division by zero") else Except.ok (a / b)

/-- Unsigned 64-bit subtraction with wrap-around. -/
def sub64 (a b : Nat) : Nat := (a + 2 ^ 64 - b % 2 ^ 64) % 2 ^ 64

/-- Unsigned 32-bit subtraction with wrap-around. -/
def sub32 (a b : Nat) : Nat := (a + 2 ^ 32 - b % 2 ^ 32) % 2 ^ 32

/-- The row an index lookup by account finds. -/
def findByAccount (rows : List account_staking_info) (actor : Nat) : Option account_staking_info :=
  rows.find? (fun r => r.account == actor)

/-- Modification of the row an index lookup by account has found. -/
def modifyByAccount (actor : Nat) (f : account_staking_info → account_staking_info) :
    List account_staking_info → List account_staking_info
  | [] => []
  | r :: rs => if r.account == actor then f r :: rs else r :: modifyByAccount actor f rs

/-- The key `available_primary_key` hands out: one past the largest key in the table. -/
def available_primary_key (rows : List account_staking_info) : Nat :=
  match rows with
  | [] => 0
  | _ => (rows.map (fun r => r.id)).foldl max 0 + 1

/-! ## The reward counters: `incgrewards` and `recorddaily` -/

/-- The action `incgrewards`. -/
def incgrewards (cfg : Config) (ch : Chain) (gstaking : global_staking_state)
    (fioamountsufs : Int) : Except Abort global_staking_state := do
  eosio_assert (ch.has_auth cfg.AddressContract || ch.has_auth cfg.TokenContract ||
      ch.has_auth cfg.TREASURYACCOUNT || ch.has_auth cfg.STAKINGACCOUNT ||
      ch.has_auth cfg.REQOBTACCOUNT || ch.has_auth cfg.SYSTEMACCOUNT ||
      ch.has_auth cfg.FeeContract)
    "missing required authority of fio.address, fio.treasury, fio.fee, fio.token, fio.stakng, eosio or fio.reqobt"
  let g1 := { gstaking with
    rewards_token_pool := wrap64 (gstaking.rewards_token_pool + toU64 fioamountsufs) }
  let g2 := { g1 with
    daily_staking_rewards := wrap64 (g1.daily_staking_rewards + toU64 fioamountsufs) }
  let g3 := { g2 with
    combined_token_pool := wrap64 (g2.combined_token_pool + toU64 fioamountsufs) }
  pure g3

/-- The action `recorddaily`. -/
def recorddaily (cfg : Config) (ch : Chain) (gstaking : global_staking_state)
    (amounttomint : Int) : Except Abort global_staking_state := do
  eosio_assert (ch.has_auth cfg.TREASURYACCOUNT) "missing required authority of fio.treasury"
  let g1 :=
    if amounttomint > 0 then
      { gstaking with
        staking_rewards_reserves_minted :=
          wrap64 (gstaking.staking_rewards_reserves_minted + toU64 amounttomint)
        daily_staking_rewards := wrap64 (gstaking.daily_staking_rewards + toU64 amounttomint) }
    else gstaking
  let g2 := { g1 with
    combined_token_pool := wrap64 (g1.combined_token_pool + g1.daily_staking_rewards) }
  pure { g2 with daily_staking_rewards := 0 }

/-- A table lookup that must succeed for the action to go on. -/
def lookup {α : Type} (o : Option α) (e : Abort) : Except Abort α :=
  match o with
  | some a => Except.ok a
  | none => Except.error e

/-! ## `stakefio` -/

/-- What a successful `stakefio` leaves behind: the new pool counters, the new account
table, the messages sent, and the values its local variables held. -/
structure StakeOutcome where
  gstaking : global_staking_state
  accountstaking : List account_staking_info
  actions : List Action
  paid_fee_amount : Nat
  rateofexchange : Nat
  srptoaward : Nat
  deriving DecidableEq, Repr

/-- The action `stakefio`. -/
def stakefio (cfg : Config) (ch : Chain) (gstaking : global_staking_state)
    (accountstaking : List account_staking_info)
    (fio_address : String) (amount max_fee : Int) (tpid : String) (actor : Nat) :
    Except Abort StakeOutcome := do
  require_auth ch actor
  -- the actor must have voted or proxied
  let voter ← lookup (ch.voters actor)
    (Abort.fio_400 "actor" "Account has not voted and has not proxied.")
  fio_400_assert (voter.proxy != 0 || decide (voter.producers_size > 0) || voter.is_auto_proxy)
    "actor" "Account has not voted and has not proxied."
  fio_400_assert (decide (amount > 0)) "amount" "Invalid amount value"
  fio_400_assert (decide (max_fee ≥ 0)) "amount" "Invalid fee value"
  fio_400_assert (ch.validateTPIDFormat tpid) "tpid" "TPID must be empty or valid FIO address"
  -- the fio address, when one is given
  fio_400_assert (fio_address == "" || ch.validateFioNameFormat fio_address)
    "fio_address" "Invalid FIO Address format"
  let bundleeligiblecountdown ←
    (if fio_address ≠ "" then (do
      let fioname_iter ← lookup (ch.fionames fio_address)
        (Abort.fio_400 "fio_address" "FIO Address not registered")
      fio_403_assert (fioname_iter.owner_account == actor)
      fio_400_assert (decide (ch.now ≤ fioname_iter.expiration))
        "fio_address" "FIO Address expired. Renew first."
      pure fioname_iter.bundleeligiblecountdown)
    else pure 0)
  let stakeablebalance := ch.computeusablebalance actor
  -- bundle eligible fee logic
  let fee_iter ← lookup (ch.fiofees cfg.STAKE_FIO_TOKENS_ENDPOINT)
    (Abort.fio_400 "endpoint_name" "FIO fee not found for endpoint")
  let fee_amount : Int := toI64 fee_iter.suf_amount
  fio_400_assert (fee_iter.type == 1)
    "fee_type" "unexpected fee type for endpoint stake_fio_tokens, expected 0"
  let fee ←
    (if bundleeligiblecountdown > 0 then
      pure ((0 : Nat), [Action.decrcounter fio_address 1])
    else (do
      fio_400_assert (decide (max_fee ≥ toI64 fee_iter.suf_amount))
        "max_fee" "Fee exceeds supplied maximum."
      pure (fee_iter.suf_amount,
        [Action.fio_fees actor fee_amount cfg.STAKE_FIO_TOKENS_ENDPOINT,
         Action.process_rewards tpid fee_amount actor] ++
        (if fee_amount > 0 then [Action.updatepower actor true] else []))))
  let paid_fee_amount := fee.1
  fio_400_assert (decide (stakeablebalance ≥ wrap64 (paid_fee_amount + toU64 amount)))
    "max_fee" "Insufficient balance."
  -- RAM bump
  let ram := if cfg.STAKEFIOTOKENSRAM > 0 then [Action.incram actor cfg.STAKEFIOTOKENSRAM] else []
  -- compute rate of exchange and SRPs
  let rateofexchange ←
    (if gstaking.combined_token_pool ≥ cfg.COMBINEDTOKENPOOLMINIMUM then
      udiv64 gstaking.combined_token_pool gstaking.global_srp_count
    else pure 1)
  let srptoaward ← udiv64 (toU64 amount) rateofexchange
  -- update global staking state
  let g1 := { gstaking with
    combined_token_pool := wrap64 (gstaking.combined_token_pool + toU64 amount) }
  let g2 := { g1 with global_srp_count := wrap64 (g1.global_srp_count + srptoaward) }
  let g3 := { g2 with staked_token_pool := wrap64 (g2.staked_token_pool + toU64 amount) }
  -- update account staking info
  let rows ←
    (match findByAccount accountstaking actor with
    | some astakeiter => (do
      eosio_assert (astakeiter.account == actor) "incacctstake owner lookup error."
      pure (modifyByAccount actor (fun a => { a with
        total_staked_fio := wrap64 (a.total_staked_fio + toU64 amount)
        total_srp := wrap64 (a.total_srp + srptoaward) }) accountstaking))
    | none =>
      pure (accountstaking ++ [{
        id := available_primary_key accountstaking
        account := actor
        total_staked_fio := toU64 amount
        total_srp := srptoaward }]))
  fio_400_assert (decide (ch.transaction_size ≤ cfg.MAX_TRX_SIZE))
    "transaction_size" "Transaction is too large"
  pure {
    gstaking := g3
    accountstaking := rows
    actions := fee.2 ++ ram ++ [Action.send_response paid_fee_amount]
    paid_fee_amount := paid_fee_amount
    rateofexchange := rateofexchange
    srptoaward := srptoaward }

/-! ## `unstakefio`: the merge into an existing general lock -/

/-- The truncation at three decimal places, `double(int(x * 1000.0)) / 1000.0`. -/
def truncate3 (x : Dbl) : Except Abort Dbl := do
  let y ← finite (Dbl.mul x (Dbl.ofNat 1000))
  let i ← lookup (Dbl.toInt y) (Abort.undefined "double to int conversion out of range")
  finite (Dbl.div (Dbl.ofInt i) (Dbl.ofNat 1000))

/-- The variables the loop over the existing periods carries. -/
structure MergeLoop where
  newperiods : List lockperiods
  insertintoexisting : Bool
  lastperiodduration : Nat
  insertindex : Int
  totalnewpercent : Dbl
  deriving DecidableEq, Repr

/-- The body of the loop, run for the period at index `i`. -/
def mergeBody (insertperiod : Nat) (oldlockpercentofnewtotal : Dbl) (i : Nat)
    (period : lockperiods) (st : MergeLoop) : Except Abort MergeLoop := do
  let scaled ← finite (Dbl.mul period.percent oldlockpercentofnewtotal)
  -- truncate it at 3 digits resolution
  let newpercent ← truncate3 scaled
  let totalnewpercent ← finite (Dbl.add st.totalnewpercent newpercent)
  let insertintoexisting :=
    if period.duration = (insertperiod : Int) then true else st.insertintoexisting
  let insertindex :=
    if period.duration > (insertperiod : Int) then (i : Int) else st.insertindex
  pure {
    newperiods := st.newperiods ++ [{ duration := period.duration, percent := newpercent }]
    insertintoexisting := insertintoexisting
    lastperiodduration := toU32 period.duration
    insertindex := insertindex
    totalnewpercent := totalnewpercent }

/-- The loop `for (int i = 0; i < periods.size(); i++)`, from index `i` on. -/
def mergeLoop (insertperiod : Nat) (oldlockpercentofnewtotal : Dbl) :
    Nat → List lockperiods → MergeLoop → Except Abort MergeLoop
  | _, [], st => Except.ok st
  | i, period :: rest, st =>
    match mergeBody insertperiod oldlockpercentofnewtotal i period st with
    | Except.error e => Except.error e
    | Except.ok st1 => mergeLoop insertperiod oldlockpercentofnewtotal (i + 1) rest st1

/-- Insertion before position `n`, as `vector::insert(begin() + n, x)`. -/
def insertAt (l : List lockperiods) (n : Nat) (x : lockperiods) : List lockperiods :=
  l.take n ++ x :: l.drop n

/-- The unlock offset of the newly locked funds, `(present_time - timestamp) + 604800`. -/
def insertperiodOf (present_time timestamp : Nat) : Nat :=
  wrap32 (sub32 present_time timestamp + 604800)

/-- The branch that adapts an existing period: `newperiods[j]` takes up what is left of
100 percent.  An index outside the vector is undefined behaviour. -/
def mergeInto (st : MergeLoop) (j : Int) : Except Abort (List lockperiods) :=
  match (if 0 ≤ j ∧ j < (st.newperiods.length : Int) then st.newperiods.get? j.toNat else none) with
  | none => Except.error (Abort.undefined "newperiods[insertindex - 1] is out of range")
  | some touched => do
    let rest ← finite (Dbl.sub (Dbl.ofNat 100) st.totalnewpercent)
    let t ← finite (Dbl.add touched.percent rest)
    let t3 ← truncate3 t
    pure (st.newperiods.set j.toNat { touched with percent := t3 })

/-- The branch that adds the new period before position `insertindex`.  A position
outside the vector is undefined behaviour. -/
def mergeInsert (st : MergeLoop) (insertperiod : Nat) (insertindex : Int) :
    Except Abort (List lockperiods) := do
  let rest ← finite (Dbl.sub (Dbl.ofNat 100) st.totalnewpercent)
  let t3 ← truncate3 rest
  (if 0 ≤ insertindex ∧ insertindex ≤ (st.newperiods.length : Int) then
    pure (insertAt st.newperiods insertindex.toNat
      { duration := (insertperiod : Int), percent := t3 })
  else throw (Abort.undefined "newperiods.begin() + insertindex is out of range"))

/-- The period list `unstakefio` sends with `modgenlocked` when the actor already has a
general lock. -/
def mergePeriods (present_time : Nat) (lockiter : locked_tokens_info)
    (stakingrewardamount : Nat) (amount : Int) : Except Abort (List lockperiods) := do
  let insertperiod := insertperiodOf present_time lockiter.timestamp
  let oldlockpercentofnewtotal ← finite (Dbl.div (Dbl.ofInt lockiter.lock_amount)
    (Dbl.ofNat (wrap64 (wrap64 (toU64 lockiter.lock_amount + stakingrewardamount) + toU64 amount))))
  let st ← mergeLoop insertperiod oldlockpercentofnewtotal 0 lockiter.periods {
    newperiods := []
    insertintoexisting := false
    lastperiodduration := 0
    insertindex := -1
    totalnewpercent := Dbl.ofNat 0 }
  let insertindex : Int :=
    if insertperiod > st.lastperiodduration then (lockiter.periods.length : Int)
    else st.insertindex
  if st.insertintoexisting then
    -- adapting an existing period
    mergeInto st (insertindex - 1)
  else
    -- add the new period
    mergeInsert st insertperiod insertindex

/-! ## `unstakefio` -/

/-- What a successful `unstakefio` leaves behind: the new pool counters, the new account
table, the messages sent, and the values its local variables held. -/
structure UnstakeOutcome where
  gstaking : global_staking_state
  accountstaking : List account_staking_info
  actions : List Action
  paid_fee_amount : Nat
  srpstoclaim : Nat
  rateofexchange : Nat
  totalrewardamount : Nat
  stakingrewardamount : Nat
  tpidrewardamount : Nat
  deriving DecidableEq, Repr

/-- The SRPs to claim, `(uint64_t)((double) total_srp * ((double) amount / (double) total_staked_fio))`. -/
def srpstoclaimOf (total_srp : Nat) (amount : Int) (total_staked_fio : Nat) : Except Abort Nat := do
  let ratio ← finite (Dbl.div (Dbl.ofInt amount) (Dbl.ofNat total_staked_fio))
  let product ← finite (Dbl.mul (Dbl.ofNat total_srp) ratio)
  lookup (Dbl.toUInt64 product) (Abort.undefined "double to uint64_t conversion out of range")

/-- The action `unstakefio`. -/
def unstakefio (cfg : Config) (ch : Chain) (gstaking : global_staking_state)
    (accountstaking : List account_staking_info)
    (fio_address : String) (amount max_fee : Int) (tpid : String) (actor : Nat) :
    Except Abort UnstakeOutcome := do
  require_auth ch actor
  fio_400_assert (decide (amount > 0)) "amount" "Invalid amount value"
  fio_400_assert (decide (max_fee ≥ 0)) "amount" "Invalid fee value"
  fio_400_assert (ch.validateTPIDFormat tpid) "tpid" "TPID must be empty or valid FIO address"
  -- the fio address, when one is given
  fio_400_assert (fio_address == "" || ch.validateFioNameFormat fio_address)
    "fio_address" "Invalid FIO Address format"
  let bundleeligiblecountdown ←
    (if fio_address ≠ "" then (do
      let fioname_iter ← lookup (ch.fionames fio_address)
        (Abort.fio_400 "fio_address" "FIO Address not registered")
      fio_403_assert (fioname_iter.owner_account == actor)
      fio_400_assert (decide (ch.now ≤ fioname_iter.expiration))
        "fio_address" "FIO Address expired. Renew first."
      pure fioname_iter.bundleeligiblecountdown)
    else pure 0)
  let astakeiter ← lookup (findByAccount accountstaking actor)
    (Abort.eosio_assert "incacctstake, actor has no accountstake record.")
  eosio_assert (astakeiter.account == actor) "incacctstake, actor accountstake lookup error."
  fio_400_assert (decide (astakeiter.total_staked_fio ≥ toU64 amount))
    "amount" "Cannot unstake more than staked."
  let stakeablebalance := ch.computeusablebalance actor
  -- bundle eligible fee logic
  let fee_iter ← lookup (ch.fiofees cfg.UNSTAKE_FIO_TOKENS_ENDPOINT)
    (Abort.fio_400 "endpoint_name" "FIO fee not found for endpoint")
  let fee_amount : Int := toI64 fee_iter.suf_amount
  fio_400_assert (fee_iter.type == 1)
    "fee_type" "unexpected fee type for endpoint unstake_fio_tokens, expected 0"
  let fee ←
    (if bundleeligiblecountdown > 0 then
      pure ((0 : Nat), [Action.decrcounter fio_address 1])
    else (do
      fio_400_assert (decide (max_fee ≥ toI64 fee_iter.suf_amount))
        "max_fee" "Fee exceeds supplied maximum."
      pure (fee_iter.suf_amount,
        [Action.fio_fees actor fee_amount cfg.UNSTAKE_FIO_TOKENS_ENDPOINT,
         Action.process_rewards tpid fee_amount actor] ++
        (if fee_amount > 0 then [Action.updatepower actor true] else []))))
  let paid_fee_amount := fee.1
  fio_400_assert (decide (stakeablebalance ≥ wrap64 (paid_fee_amount + toU64 amount)))
    "max_fee" "Insufficient balance."
  -- RAM bump
  let ram :=
    if cfg.UNSTAKEFIOTOKENSRAM > 0 then [Action.incram actor cfg.UNSTAKEFIOTOKENSRAM] else []
  -- SRPs to claim, a floating point (double) operation
  let srpstoclaim ← srpstoclaimOf astakeiter.total_srp amount astakeiter.total_staked_fio
  -- compute rate of exchange
  let rateofexchange ←
    (if gstaking.combined_token_pool ≥ cfg.COMBINEDTOKENPOOLMINIMUM then
      udiv64 gstaking.combined_token_pool gstaking.global_srp_count
    else pure 1)
  eosio_assert (decide (wrap64 (srpstoclaim * rateofexchange) ≥ toU64 amount))
    "unstakefio, invalid calc in totalrewardamount, must be that (srpstoclaim * rateofexchange) > amount. "
  let totalrewardamount := sub64 (wrap64 (srpstoclaim * rateofexchange)) (toU64 amount)
  let tenpercent := totalrewardamount / 10
  let stakingrewardamount := wrap64 (tenpercent * 9)
  let tpidrewardamount := tenpercent
  -- decrement staking by account
  eosio_assert (decide (astakeiter.total_srp ≥ srpstoclaim))
    "unstakefio, total srp for account must be greater than or equal srpstoclaim."
  eosio_assert (decide (astakeiter.total_staked_fio ≥ toU64 amount))
    "unstakefio, total staked fio for account must be greater than or equal fiostakedsufs."
  let rows := modifyByAccount actor (fun a => { a with
    total_staked_fio := sub64 a.total_staked_fio (toU64 amount)
    total_srp := sub64 a.total_srp srpstoclaim }) accountstaking
  -- transfer the staking reward amount
  let pay := if stakingrewardamount > 0 then [Action.paystake actor stakingrewardamount] else []
  -- decrement the global state
  eosio_assert (decide (gstaking.combined_token_pool ≥ wrap64 (toU64 amount + stakingrewardamount)))
    "unstakefio, combined token pool must be greater or equal to amount plus stakingrewardamount. "
  eosio_assert (decide (gstaking.staked_token_pool ≥ toU64 amount))
    "unstakefio, staked token pool must be greater or equal to staked amount. "
  eosio_assert (decide (gstaking.global_srp_count ≥ srpstoclaim))
    "unstakefio, global srp count must be greater or equal to srpstoclaim. "
  let g1 := { gstaking with
    combined_token_pool :=
      sub64 gstaking.combined_token_pool (wrap64 (toU64 amount + stakingrewardamount)) }
  let g2 := { g1 with staked_token_pool := sub64 g1.staked_token_pool (toU64 amount) }
  let g3 := { g2 with global_srp_count := sub64 g2.global_srp_count srpstoclaim }
  let present_time := ch.now
  -- pay the tpid
  let paid ←
    (if tpid.length > 0 ∧ tpidrewardamount > 0 then (do
      let tfioname_iter ← lookup (ch.fionames tpid)
        (Abort.fio_400 "fio_address" "FIO Address not registered")
      fio_400_assert (decide (present_time ≤ tfioname_iter.expiration))
        "fio_address" "FIO Address expired. Renew first."
      pure (
        (if tpidrewardamount ≤ g3.combined_token_pool then
          { g3 with combined_token_pool := sub64 g3.combined_token_pool tpidrewardamount }
        else g3),
        [Action.updatetpid tpid actor tpidrewardamount]))
    else pure (g3, []))
  -- look and see if they have any general locks
  let lock ←
    (match ch.generallocks actor with
    | some lockiter => (do
      let newlockamount :=
        toI64 (wrap64 (toU64 lockiter.lock_amount + wrap64 (stakingrewardamount + toU64 amount)))
      let newremaininglockamount :=
        toI64 (wrap64 (toU64 lockiter.remaining_lock_amount +
          wrap64 (stakingrewardamount + toU64 amount)))
      let newperiods ← mergePeriods present_time lockiter stakingrewardamount amount
      pure [Action.modgenlocked actor newperiods newlockamount newremaininglockamount])
    | none =>
      pure [Action.addgenlocked actor [{ duration := 604800, percent := Dbl.ofNat 100 }] true
        (toI64 (wrap64 (stakingrewardamount + toU64 amount)))])
  fio_400_assert (decide (ch.transaction_size ≤ cfg.MAX_TRX_SIZE))
    "transaction_size" "Transaction is too large"
  pure {
    gstaking := paid.1
    accountstaking := rows
    actions := fee.2 ++ ram ++ pay ++ paid.2 ++ lock ++ [Action.send_response paid_fee_amount]
    paid_fee_amount := paid_fee_amount
    srpstoclaim := srpstoclaim
    rateofexchange := rateofexchange
    totalrewardamount := totalrewardamount
    stakingrewardamount := stakingrewardamount
    tpidrewardamount := tpidrewardamount }

/-! ## The specification's wording and example data -/

/-- The exchange rate as the specification words it: `1` below the pool minimum, else
the truncated quotient of the combined pool by the SRP count. -/
def ExchangeRateOracle (poolMinimum : Nat) (g : global_staking_state) : Nat :=
  if g.combined_token_pool < poolMinimum then 1
  else g.combined_token_pool / g.global_srp_count

/-- An example configuration: a pool minimum of one million FIO (in SUFs). -/
def exampleConfig : Config where
  COMBINEDTOKENPOOLMINIMUM := 1000000000000000
  STAKEFIOTOKENSRAM := 512
  UNSTAKEFIOTOKENSRAM := 512
  MAX_TRX_SIZE := 8098
  STAKE_FIO_TOKENS_ENDPOINT := "stake_fio_tokens"
  UNSTAKE_FIO_TOKENS_ENDPOINT := "unstake_fio_tokens"
  AddressContract := 1
  TokenContract := 2
  TREASURYACCOUNT := 3
  STAKINGACCOUNT := 4
  REQOBTACCOUNT := 5
  SYSTEMACCOUNT := 6
  FeeContract := 7

/-- An example chain context: account `100` signs, has voted, holds a balance of one
thousand FIO and no general lock; both staking endpoints cost three FIO. -/
def exampleChain : Chain where
  has_auth := fun a => a == 100
  now := 1000
  voters := fun a => if a == 100 then some ⟨0, 1, false⟩ else none
  fionames := fun _ => none
  fiofees := fun _ => some ⟨3000000000, 1⟩
  generallocks := fun _ => none
  computeusablebalance := fun _ => 1000000000000
  validateTPIDFormat := fun _ => true
  validateFioNameFormat := fun _ => true
  transaction_size := 100

/-- The state before any action: every counter is zero. -/
def zeroState : global_staking_state := ⟨0, 0, 0, 0, 0, 0⟩

/-- A state above the pool minimum: one million staked units, backed by a combined pool
of two million FIO. -/
def exampleFunded : global_staking_state := ⟨1000000, 2000000000000000, 0, 1000000, 0, 0⟩

/-- The row of account `100` in that state. -/
def exampleRow : account_staking_info := ⟨0, 100, 1000000, 1000000⟩

/-- The staking tables after a `stakefio` transaction: the outcome's tables when the
action succeeds, the tables as they were when it aborts (the host rolls back). -/
def commitStake (cfg : Config) (ch : Chain) (g : global_staking_state)
    (rows : List account_staking_info) (fio_address : String) (amount max_fee : Int)
    (tpid : String) (actor : Nat) : global_staking_state × List account_staking_info :=
  match stakefio cfg ch g rows fio_address amount max_fee tpid actor with
  | Except.ok out => (out.gstaking, out.accountstaking)
  | Except.error _ => (g, rows)

/-- The staking tables after an `unstakefio` transaction: the outcome's tables when the
action succeeds, the tables as they were when it aborts (the host rolls back). -/
def commitUnstake (cfg : Config) (ch : Chain) (g : global_staking_state)
    (rows : List account_staking_info) (fio_address : String) (amount max_fee : Int)
    (tpid : String) (actor : Nat) : global_staking_state × List account_staking_info :=
  match unstakefio cfg ch g rows fio_address amount max_fee tpid actor with
  | Except.ok out => (out.gstaking, out.accountstaking)
  | Except.error _ => (g, rows)

/-- Every counter of the record fits the `uint64_t` it is stored in. -/
def global_staking_state.fits (g : global_staking_state) : Prop :=
  g.staked_token_pool < 2 ^ 64 ∧ g.combined_token_pool < 2 ^ 64 ∧
  g.rewards_token_pool < 2 ^ 64 ∧ g.global_srp_count < 2 ^ 64 ∧
  g.daily_staking_rewards < 2 ^ 64 ∧ g.staking_rewards_reserves_minted < 2 ^ 64

/-- Both counters of the row fit the `uint64_t` they are stored in. -/
def account_staking_info.fits (r : account_staking_info) : Prop :=
  r.total_srp < 2 ^ 64 ∧ r.total_staked_fio < 2 ^ 64

/-- The double nearest to `n / 1000`, as the code obtains it from an integer count of
thousandths. -/
def milli (n : Nat) : Dbl := (Dbl.div (Dbl.ofNat n) (Dbl.ofNat 1000)).getD ⟨0⟩

/-- The sum of the percents of a period list, added left to right in double precision. -/
def percentSum : List lockperiods → Option Dbl
  | [] => some (Dbl.ofNat 0)
  | p :: rest => (percentSum rest).bind fun s => Dbl.add p.percent s

/-- The periods are in ascending order of duration. -/
def ascendingByDuration (periods : List lockperiods) : Prop :=
  List.Pairwise (fun p q => p.duration ≤ q.duration) periods

/-- A general lock of 100 units created at time 0 with the single period the contract
itself creates on a first unstake: all of it after seven days. -/
def lockSingle : locked_tokens_info :=
  ⟨100, 100, 0, [⟨604800, Dbl.ofNat 100⟩]⟩

/-- A general lock of 140,892 units created at time 0, all of it unlocking after seven days. -/
def lockSingleLarge : locked_tokens_info :=
  ⟨140892, 140892, 0, [⟨604800, Dbl.ofNat 100⟩]⟩

/-- A general lock of 100 units created at time 0 with three ascending periods of 30, 30
and 40 percent, the first one after seven days. -/
def lockThree : locked_tokens_info :=
  ⟨100, 100, 0, [⟨604800, Dbl.ofNat 30⟩, ⟨700000, Dbl.ofNat 30⟩, ⟨800000, Dbl.ofNat 40⟩]⟩

/-- A general lock of 100 units created at time 0 with two ascending periods of 50 percent
each, both later than seven days. -/
def lockTwoLate : locked_tokens_info :=
  ⟨100, 100, 0, [⟨700000, Dbl.ofNat 50⟩, ⟨800000, Dbl.ofNat 50⟩]⟩

/-- The lock of `lockSingle`, created at time 1000. -/
def lockAtNow : locked_tokens_info :=
  ⟨100, 100, 1000, [⟨604800, Dbl.ofNat 100⟩]⟩

/-- The example chain at time 1000, where account `100` already holds the general lock
`lockAtNow` (as after a first unstake in the same second). -/
def exampleChainLocked : Chain :=
  { exampleChain with generallocks := fun a => if a == 100 then some lockAtNow else none }

/-- A state below the pool minimum with one million units staked. -/
def exampleSmall : global_staking_state := ⟨1000000, 1000000, 0, 1000000, 0, 0⟩


/-- An example chain context in which every account signs and has voted: the addresses
`alice@fio` of account `100` and `bob@fio` of account `200` have five bundled-fee credits
each, the address `tp@id` of account `300` has none, nobody holds a general lock, and every
balance is five million FIO. -/
def exampleChainOpen : Chain where
  has_auth := fun _ => true
  now := 1000
  voters := fun _ => some ⟨0, 1, false⟩
  fionames := fun n =>
    if n == "alice@fio" then some ⟨100, 5000, 5⟩
    else if n == "bob@fio" then some ⟨200, 5000, 5⟩
    else if n == "tp@id" then some ⟨300, 5000, 0⟩ else none
  fiofees := fun _ => some ⟨3000000000, 1⟩
  generallocks := fun _ => none
  computeusablebalance := fun _ => 5000000000000000
  validateTPIDFormat := fun _ => true
  validateFioNameFormat := fun _ => true
  transaction_size := 100

/-- The example configuration with a pool minimum of 1,000,000 SUFs. -/
def exampleConfigLow : Config := { exampleConfig with COMBINEDTOKENPOOLMINIMUM := 1000000 }

/-- A state with one million units staked, one million SRPs and a combined pool of two
million. -/
def examplePoolTwoMillion : global_staking_state := ⟨1000000, 2000000, 0, 1000000, 0, 0⟩

/-- The states the contract reaches from the all-zero state by successful transactions of
its four actions.  Every transaction runs in a chain context of its own; an aborted
transaction leaves the state as it was and so adds nothing. -/
inductive Reachable (cfg : Config) :
    global_staking_state → List account_staking_info → Prop where
  | init : Reachable cfg zeroState []
  | stake (ch : Chain) (g : global_staking_state) (rows : List account_staking_info)
      (fio_address : String) (amount max_fee : Int) (tpid : String) (actor : Nat)
      (out : StakeOutcome) :
      Reachable cfg g rows →
      stakefio cfg ch g rows fio_address amount max_fee tpid actor = Except.ok out →
      Reachable cfg out.gstaking out.accountstaking
  | unstake (ch : Chain) (g : global_staking_state) (rows : List account_staking_info)
      (fio_address : String) (amount max_fee : Int) (tpid : String) (actor : Nat)
      (out : UnstakeOutcome) :
      Reachable cfg g rows →
      unstakefio cfg ch g rows fio_address amount max_fee tpid actor = Except.ok out →
      Reachable cfg out.gstaking out.accountstaking
  | rewards (ch : Chain) (g : global_staking_state) (rows : List account_staking_info)
      (fioamountsufs : Int) (g1 : global_staking_state) :
      Reachable cfg g rows →
      incgrewards cfg ch g fioamountsufs = Except.ok g1 →
      Reachable cfg g1 rows
  | daily (ch : Chain) (g : global_staking_state) (rows : List account_staking_info)
      (amounttomint : Int) (g1 : global_staking_state) :
      Reachable cfg g rows →
      recorddaily cfg ch g amounttomint = Except.ok g1 →
      Reachable cfg g1 rows

/-- The pool counters after this history, in which no fee is charged because every call
goes through an address with bundled-fee credits: account `100` stakes 1 SUF, a reward of
one million FIO comes in, account `200` stakes one million FIO, account `100` unstakes its
1 SUF. -/
def drainedState : global_staking_state :=
  ⟨1000000000000000, 200000000000000, 1000000000000000, 0, 1000000000000000, 0⟩

/-- The account table after that history. -/
def drainedRows : List account_staking_info :=
  [⟨0, 100, 0, 0⟩, ⟨1, 200, 0, 1000000000000000⟩]

/-- The SRPs of all rows of the account table together. -/
def sumSrp (rows : List account_staking_info) : Nat :=
  (rows.map fun r => r.total_srp).sum

/-- The staked tokens of all rows of the account table together. -/
def sumStaked (rows : List account_staking_info) : Nat :=
  (rows.map fun r => r.total_staked_fio).sum

/-- The example chain context `exampleChainOpen` with balances of twenty million FIO. -/
def exampleChainWhale : Chain :=
  { exampleChainOpen with computeusablebalance := fun _ => 20000000000000000 }

/-- A general lock of 100 units whose single period carries the duration `-1`, a value of
the `int64_t` field that no unlock offset has. -/
def lockNegative : locked_tokens_info :=
  ⟨100, 100, 0, [⟨-1, Dbl.ofNat 100⟩]⟩

/-! ## The request contract: `rejectfndreq` and `cancelfndreq` -/

/-- A row of the request contexts table, as far as the two actions read it; the two
addresses are held as their 128-bit hashes. -/
structure fioreqctxt where
  fio_request_id : Nat
  payer_fio_address : Nat
  payee_fio_address : Nat
  payer_key : String
  payee_key : String
  deriving DecidableEq, Repr

/-- A row of the request status table. -/
structure fioreqsts where
  id : Nat
  fio_request_id : Nat
  status : Nat
  metadata : String
  time_stamp : Nat
  deriving DecidableEq, Repr

/-- A row of the migration table of transactions, as far as the two actions touch it. -/
structure fiotrxt_info where
  id : Nat
  fio_request_id : Nat
  fio_data_type : Nat
  obt_time : Nat
  deriving DecidableEq, Repr

/-- A row of the address contract's names table, as far as the request actions read it. -/
structure fioname_row where
  name : String
  owner_account : Nat
  expiration : Nat
  bundleeligiblecountdown : Nat
  deriving DecidableEq, Repr

/-- A row of the address contract's domains table, as far as the request actions read it. -/
structure domain_row where
  expiration : Nat
  deriving DecidableEq, Repr

/-- Constants and helper functions that the request contract takes from headers outside
its file: the endpoint names, the RAM bumps, the values of `trxstatus`, the conversion
`name(actor.c_str()).value`, `std::atoi`, the 128-bit string hash, the domain part that
`getFioAddressStruct` extracts, and the two format and time helpers. -/
structure ObtConfig where
  REJECT_FUNDS_REQUEST_ENDPOINT : String
  CANCEL_FUNDS_REQUEST_ENDPOINT : String
  REJECTFUNDSRAM : Nat
  CANCELFUNDSRAM : Nat
  MAX_TRX_SIZE : Nat
  SECONDS30DAYS : Nat
  trxstatus_rejected : Nat
  trxstatus_cancelled : Nat
  name_value : String → Nat
  atoi : String → Int
  string_to_uint128_hash : String → Nat
  fiodomain : String → String
  get_time_plus_seconds : Nat → Nat → Nat
  validateTPIDFormat : String → Bool

/-- What a request action reads from the host chain and from other contracts' tables;
names, domains and fees are looked up by hash. -/
structure ObtChain where
  has_auth : Nat → Bool
  current_time : Nat
  now : Nat
  fionames : Nat → Option fioname_row
  domains : Nat → Option domain_row
  fiofees : Nat → Option fiofee
  transaction_size : Nat

/-- The row `fiorequestContextsTable.find(requestId)` finds. -/
def findContext (rows : List fioreqctxt) (requestId : Nat) : Option fioreqctxt :=
  rows.find? (fun r => r.fio_request_id == requestId)

/-- The row `statusByRequestId.find(requestId)` finds: the first status record of the
request, the table being held in the order of its primary key. -/
def findStatus (rows : List fioreqsts) (requestId : Nat) : Option fioreqsts :=
  rows.find? (fun r => r.fio_request_id == requestId)

/-- The key `available_primary_key` hands out for the status table. -/
def statusKey (rows : List fioreqsts) : Nat :=
  match rows with
  | [] => 0
  | _ => (rows.map (fun r => r.id)).foldl max 0 + 1

/-- Modification of the row `trxtByRequestId.find(requestId)` has found, when there is one. -/
def modifyTrxt (requestId : Nat) (f : fiotrxt_info → fiotrxt_info) :
    List fiotrxt_info → List fiotrxt_info
  | [] => []
  | r :: rs => if r.fio_request_id == requestId then f r :: rs else r :: modifyTrxt requestId f rs

/-- What a successful request action leaves behind: the status table, the migration table,
the messages sent, and the fee collected. -/
structure RequestOutcome where
  statuses : List fioreqsts
  trxts : List fiotrxt_info
  actions : List Action
  fee_amount : Nat
  deriving DecidableEq, Repr

/-- The fee block of the two request actions: a bundled transaction of the address, or
the fee of the endpoint. -/
def requestFee (fioname_iter : fioname_row) (fee_iter : fiofee) (endpoint : String)
    (max_fee : Int) (tpid : String) (aactor : Nat) : Except Abort (Nat × List Action) :=
  if fioname_iter.bundleeligiblecountdown > 0 then
    pure ((0 : Nat), [Action.decrcounter fioname_iter.name 1])
  else (do
    let fee_amount := fee_iter.suf_amount
    fio_400_assert (decide (max_fee ≥ toI64 fee_amount))
      "max_fee" "Fee exceeds supplied maximum."
    pure (fee_amount,
      [Action.fio_fees aactor (toI64 fee_amount) endpoint,
       Action.process_rewards tpid (fee_amount : Int) aactor] ++
      (if fee_amount > 0 then [Action.updatepower aactor true] else [])))

/-- The action `rejectfndreq`.  The status record is read through the iterator that
`statusByRequestId.find` returns without a test against `end()`; reading through the
end iterator is undefined behaviour. -/
def rejectfndreq (cfg : ObtConfig) (ch : ObtChain) (contexts : List fioreqctxt)
    (statuses : List fioreqsts) (trxts : List fiotrxt_info)
    (fio_request_id : String) (max_fee : Int) (actor tpid : String) :
    Except Abort RequestOutcome := do
  let aactor := cfg.name_value actor
  (if ch.has_auth aactor then pure () else throw Abort.missing_auth)
  fio_400_assert (cfg.validateTPIDFormat tpid) "tpid" "TPID must be empty or valid FIO address"
  fio_400_assert (decide (max_fee ≥ 0)) "max_fee" "Invalid fee value"
  fio_400_assert (decide (fio_request_id.utf8ByteSize > 0 ∧ fio_request_id.utf8ByteSize < 16))
    "fio_request_id" "No value specified"
  let currentTime := ch.current_time
  let requestId := toU64 (cfg.atoi fio_request_id)
  let fioreqctx_iter ← lookup (findContext contexts requestId)
    (Abort.fio_400 "fio_request_id" "No such FIO Request")
  -- verify pending request only
  let fioreqstss_iter ← lookup (findStatus statuses requestId)
    (Abort.undefined "fioreqstss_iter->status reads through the end iterator")
  fio_400_assert (fioreqstss_iter.status == 0)
    "fio_request_id" "Only pending requests can be rejected."
  let present_time := ch.now
  let fioname_iter ← lookup (ch.fionames fioreqctx_iter.payer_fio_address) Abort.fio_403
  fio_400_assert (decide (present_time ≤ fioname_iter.expiration))
    "payer_fio_address" "FIO Address expired"
  let iterdom ← lookup (ch.domains (cfg.string_to_uint128_hash (cfg.fiodomain fioname_iter.name)))
    (Abort.fio_400 "payer_fio_address" "No such domain")
  -- add 30 days to the domain expiration
  let domexp := cfg.get_time_plus_seconds iterdom.expiration cfg.SECONDS30DAYS
  fio_400_assert (decide (present_time ≤ domexp)) "payer_fio_address" "FIO Domain expired"
  fio_403_assert (fioname_iter.owner_account == aactor)
  -- bundle eligible fee logic
  let fee_iter ← lookup (ch.fiofees (cfg.string_to_uint128_hash cfg.REJECT_FUNDS_REQUEST_ENDPOINT))
    (Abort.fio_400 "endpoint_name" "FIO fee not found for endpoint")
  fio_400_assert (fee_iter.type == 1) "fee_type"
    "reject_funds_request unexpected fee type for endpoint reject_funds_request, expected 1"
  let fee ← requestFee fioname_iter fee_iter cfg.REJECT_FUNDS_REQUEST_ENDPOINT max_fee tpid aactor
  let statuses1 := statuses ++ [{
    id := statusKey statuses
    fio_request_id := requestId
    status := cfg.trxstatus_rejected
    metadata := ""
    time_stamp := currentTime }]
  let trxts1 := modifyTrxt requestId (fun fr => { fr with
    fio_data_type := cfg.trxstatus_rejected
    obt_time := present_time }) trxts
  let ram := if cfg.REJECTFUNDSRAM > 0 then [Action.incram aactor cfg.REJECTFUNDSRAM] else []
  fio_400_assert (decide (ch.transaction_size ≤ cfg.MAX_TRX_SIZE))
    "transaction_size" "Transaction is too large"
  pure {
    statuses := statuses1
    trxts := trxts1
    actions := fee.2 ++ ram ++ [Action.send_response fee.1]
    fee_amount := fee.1 }

/-- The action `cancelfndreq`, which tests the iterator of the status lookup against
`end()`. -/
def cancelfndreq (cfg : ObtConfig) (ch : ObtChain) (contexts : List fioreqctxt)
    (statuses : List fioreqsts) (trxts : List fiotrxt_info)
    (fio_request_id : String) (max_fee : Int) (actor tpid : String) :
    Except Abort RequestOutcome := do
  let aactor := cfg.name_value actor
  (if ch.has_auth aactor then pure () else throw Abort.missing_auth)
  fio_400_assert (cfg.validateTPIDFormat tpid) "tpid" "TPID must be empty or valid FIO address"
  fio_400_assert (decide (max_fee ≥ 0)) "max_fee" "Invalid fee value"
  fio_400_assert (decide (fio_request_id.utf8ByteSize > 0 ∧ fio_request_id.utf8ByteSize < 16))
    "fio_request_id" "No value specified"
  let currentTime := ch.current_time
  let requestId := toU64 (cfg.atoi fio_request_id)
  let fioreqctx_iter ← lookup (findContext contexts requestId)
    (Abort.fio_400 "fio_request_id" "No such FIO Request")
  let present_time := ch.now
  -- look for other statuses for this request
  fio_400_assert (findStatus statuses requestId).isNone
    "fio_request_id" "Only pending requests can be cancelled."
  let fioname_iter ← lookup (ch.fionames fioreqctx_iter.payee_fio_address) Abort.fio_403
  fio_400_assert (decide (present_time ≤ fioname_iter.expiration))
    "payee_fio_address" "FIO Address expired"
  let iterdom ← lookup (ch.domains (cfg.string_to_uint128_hash (cfg.fiodomain fioname_iter.name)))
    (Abort.fio_400 "payee_fio_address" "No such domain")
  -- add 30 days to the domain expiration
  let domexp := cfg.get_time_plus_seconds iterdom.expiration cfg.SECONDS30DAYS
  fio_400_assert (decide (present_time ≤ domexp)) "payee_fio_address" "FIO Domain expired"
  fio_403_assert (fioname_iter.owner_account == aactor)
  -- bundle eligible fee logic
  let fee_iter ← lookup (ch.fiofees (cfg.string_to_uint128_hash cfg.CANCEL_FUNDS_REQUEST_ENDPOINT))
    (Abort.fio_400 "endpoint_name" "FIO fee not found for endpoint")
  fio_400_assert (fee_iter.type == 1) "fee_type"
    "cancel_funds_request unexpected fee type for endpoint cancel_funds_request, expected 1"
  let fee ← requestFee fioname_iter fee_iter cfg.CANCEL_FUNDS_REQUEST_ENDPOINT max_fee tpid aactor
  let statuses1 := statuses ++ [{
    id := statusKey statuses
    fio_request_id := requestId
    status := cfg.trxstatus_cancelled
    metadata := ""
    time_stamp := currentTime }]
  let trxts1 := modifyTrxt requestId (fun fr => { fr with
    fio_data_type := cfg.trxstatus_cancelled
    obt_time := present_time }) trxts
  let ram := if cfg.CANCELFUNDSRAM > 0 then [Action.incram aactor cfg.CANCELFUNDSRAM] else []
  fio_400_assert (decide (ch.transaction_size ≤ cfg.MAX_TRX_SIZE))
    "transaction_size" "Transaction is too large"
  pure {
    statuses := statuses1
    trxts := trxts1
    actions := fee.2 ++ ram ++ [Action.send_response fee.1]
    fee_amount := fee.1 }

/-- Example constants of the request contract; the four helper functions are tabulated on
the strings the examples use. -/
def exampleObtConfig : ObtConfig where
  REJECT_FUNDS_REQUEST_ENDPOINT := "reject_funds_request"
  CANCEL_FUNDS_REQUEST_ENDPOINT := "cancel_funds_request"
  REJECTFUNDSRAM := 512
  CANCELFUNDSRAM := 512
  MAX_TRX_SIZE := 8098
  SECONDS30DAYS := 2592000
  trxstatus_rejected := 1
  trxstatus_cancelled := 3
  name_value := fun s => if s = "alice" then 100 else if s = "bob" then 200 else 0
  atoi := fun s => if s = "7" then 7 else if s = "8" then 8 else 0
  string_to_uint128_hash := fun s =>
    if s = "alice@fio" then 1 else if s = "bob@fio" then 2 else if s = "fio" then 3
    else if s = "reject_funds_request" then 4 else if s = "cancel_funds_request" then 5 else 0
  fiodomain := fun s => if s = "alice@fio" then "fio" else if s = "bob@fio" then "fio" else ""
  get_time_plus_seconds := fun t s => t + s
  validateTPIDFormat := fun _ => true

/-- An example chain context of the request contract at time 1000: `alice@fio` belongs to
account 100 and `bob@fio` to account 200, both with bundled transactions left. -/
def exampleObtChain : ObtChain where
  has_auth := fun _ => true
  current_time := 1000000000
  now := 1000
  fionames := fun h =>
    if h = 1 then some ⟨"alice@fio", 100, 5000, 5⟩
    else if h = 2 then some ⟨"bob@fio", 200, 5000, 5⟩ else none
  domains := fun h => if h = 3 then some ⟨5000⟩ else none
  fiofees := fun h => if h = 4 ∨ h = 5 then some ⟨600000000, 1⟩ else none
  transaction_size := 100

/-- Two requests of `bob@fio` to `alice@fio`: number 7, and number 8. -/
def exampleContexts : List fioreqctxt :=
  [⟨7, 1, 2, "FIOalice", "FIObob"⟩, ⟨8, 1, 2, "FIOalice", "FIObob"⟩]

/-- The status table in which request 8 has been rejected; request 7 has no record and is
pending. -/
def exampleStatuses : List fioreqsts := [⟨0, 8, 1, "", 900000000⟩]

/-- A general lock of 29 units created at time 0, all of it unlocking after seven days. -/
def lockTwentyNine : locked_tokens_info :=
  ⟨29, 29, 0, [⟨604800, Dbl.ofNat 100⟩]⟩

/-- A general lock of 99,998,999,999 units created at time 0, all of it unlocking after
seven days. -/
def lockNearWhole : locked_tokens_info :=
  ⟨99998999999, 99998999999, 0, [⟨604800, Dbl.ofNat 100⟩]⟩

/-! ## Counters at the top of the 64-bit range -/

/-- The pool counters after this history, in which every amount is positive: account
`100` stakes 1 SUF, and two rewards of `2 ^ 63 - 1` SUF each are reported. -/
def brimState : global_staking_state :=
  ⟨1, 18446744073709551615, 18446744073709551614, 1, 18446744073709551614, 0⟩

/-- The account table after that history. -/
def brimRows : List account_staking_info := [⟨0, 100, 1, 1⟩]

/-- The example chain context `exampleChainOpen` with balances of `2 ^ 64 - 1` SUF. -/
def exampleChainRich : Chain :=
  { exampleChainOpen with computeusablebalance := fun _ => 18446744073709551615 }

/-- The pool counters after account `100` has staked `2 ^ 63 - 1` SUF twice. -/
def fullState : global_staking_state :=
  ⟨18446744073709551614, 18446744073709551614, 0, 18446744073709551614, 0, 0⟩

/-- The account table after that history. -/
def fullRows : List account_staking_info :=
  [⟨0, 100, 18446744073709551614, 18446744073709551614⟩]
/-! ## Lemmas on the primitives -/

theorem bind_ok_iff {α β : Type} (x : Except Abort α) (k : α → Except Abort β) (r : β) :
    (x >>= k) = Except.ok r ↔ ∃ a, x = Except.ok a ∧ k a = Except.ok r := by
  cases x with
  | error e => simp [bind, Except.bind]
  | ok a => simp [bind, Except.bind]

theorem fio_400_assert_ok (c : Bool) (f m : String) (u : Unit) :
    fio_400_assert c f m = Except.ok u ↔ c = true := by
  unfold fio_400_assert; split <;> simp_all

theorem fio_403_assert_ok (c : Bool) (u : Unit) :
    fio_403_assert c = Except.ok u ↔ c = true := by
  unfold fio_403_assert; split <;> simp_all

theorem eosio_assert_ok (c : Bool) (m : String) (u : Unit) :
    eosio_assert c m = Except.ok u ↔ c = true := by
  unfold eosio_assert; split <;> simp_all

theorem require_auth_ok (ch : Chain) (a : Nat) (u : Unit) :
    require_auth ch a = Except.ok u ↔ ch.has_auth a = true := by
  unfold require_auth; split <;> simp_all

theorem lookup_ok {α : Type} (o : Option α) (e : Abort) (a : α) :
    lookup o e = Except.ok a ↔ o = some a := by
  unfold lookup; cases o <;> simp

theorem udiv64_ok (a b r : Nat) :
    udiv64 a b = Except.ok r ↔ b ≠ 0 ∧ a / b = r := by
  unfold udiv64; split <;> simp_all

theorem pure_ok {α : Type} (a r : α) : (pure a : Except Abort α) = Except.ok r ↔ a = r := by
  simp [pure, Except.pure]

/-! ### The account table -/

theorem findByAccount_append_of_none (rows : List account_staking_info) (actor : Nat)
    (x : account_staking_info) (hx : x.account = actor)
    (h : findByAccount rows actor = none) :
    findByAccount (rows ++ [x]) actor = some x := by
  unfold findByAccount at *
  rw [List.find?_append, h]
  simp [List.find?, hx]

theorem findByAccount_modify (actor : Nat) (f : account_staking_info → account_staking_info)
    (hf : ∀ r, (f r).account = r.account) :
    ∀ (rows : List account_staking_info) (r : account_staking_info),
      findByAccount rows actor = some r →
      findByAccount (modifyByAccount actor f rows) actor = some (f r) := by
  intro rows
  induction rows with
  | nil => intro r h; simp [findByAccount] at h
  | cons a rest ih =>
    intro r h
    by_cases ha : a.account = actor
    · have hfa : (f a).account = actor := by rw [hf, ha]
      have har : a = r := by simpa [findByAccount, List.find?, ha] using h
      subst har
      simp [findByAccount, modifyByAccount, List.find?, ha, hfa]
    · have hb : (a.account == actor) = false := by simpa using ha
      have hrest : findByAccount rest actor = some r := by
        unfold findByAccount at h ⊢
        rw [List.find?_cons_of_neg _ (by simp [hb])] at h
        exact h
      have := ih r hrest
      unfold findByAccount at this ⊢
      simp only [modifyByAccount, hb, Bool.false_eq_true, if_false]
      rw [List.find?_cons_of_neg _ (by simp [hb])]
      exact this

theorem findByAccount_account (rows : List account_staking_info) (actor : Nat)
    (r : account_staking_info) (h : findByAccount rows actor = some r) : r.account = actor := by
  unfold findByAccount at h
  have := List.find?_some h
  simpa using this

/-! ### Inversion of a successful `stakefio` -/

theorem stakefio_inv (cfg : Config) (ch : Chain) (g : global_staking_state)
    (rows : List account_staking_info) (fio_address : String) (amount max_fee : Int)
    (tpid : String) (actor : Nat) (out : StakeOutcome)
    (h : stakefio cfg ch g rows fio_address amount max_fee tpid actor = Except.ok out) :
    0 < amount ∧ 0 ≤ max_fee ∧
    (if g.combined_token_pool ≥ cfg.COMBINEDTOKENPOOLMINIMUM then
        udiv64 g.combined_token_pool g.global_srp_count
      else pure 1) = Except.ok out.rateofexchange ∧
    out.rateofexchange ≠ 0 ∧
    out.srptoaward = toU64 amount / out.rateofexchange ∧
    out.gstaking = { g with
      combined_token_pool := wrap64 (g.combined_token_pool + toU64 amount)
      global_srp_count := wrap64 (g.global_srp_count + out.srptoaward)
      staked_token_pool := wrap64 (g.staked_token_pool + toU64 amount) } ∧
    out.accountstaking =
      (match findByAccount rows actor with
       | some _ => modifyByAccount actor (fun a => { a with
           total_staked_fio := wrap64 (a.total_staked_fio + toU64 amount)
           total_srp := wrap64 (a.total_srp + out.srptoaward) }) rows
       | none => rows ++ [{
           id := available_primary_key rows
           account := actor
           total_staked_fio := toU64 amount
           total_srp := out.srptoaward }]) := by
  simp only [stakefio, bind_ok_iff, fio_400_assert_ok, fio_403_assert_ok, eosio_assert_ok,
    require_auth_ok, lookup_ok, udiv64_ok, pure_ok, exists_and_left, exists_eq_left] at h
  obtain ⟨-, -, voter, -, -, hamount, hfee, -, -, -, -, -, -, -, bundle, -, fee_iter, -, -, -,
    fee, -, -, -, rate, hrate, srp, ⟨hrate0, hsrp⟩, rows1, hrows, -, -, hout⟩ := h
  subst hout
  simp only [decide_eq_true_eq] at hamount hfee
  refine ⟨hamount, hfee, hrate, hrate0, hsrp.symm, ?_, ?_⟩
  · subst hsrp; rfl
  · subst hsrp
    cases hfind : findByAccount rows actor with
    | none => rw [hfind] at hrows; simp only [pure_ok] at hrows; simp [hrows]
    | some r =>
      rw [hfind] at hrows
      simp only [bind_ok_iff, eosio_assert_ok, pure_ok, exists_and_left, exists_eq_left] at hrows
      obtain ⟨-, -, hrows⟩ := hrows
      simp [hrows]

/-! ### Inversion of a successful `unstakefio` -/

theorem unstakefio_inv (cfg : Config) (ch : Chain) (g : global_staking_state)
    (rows : List account_staking_info) (fio_address : String) (amount max_fee : Int)
    (tpid : String) (actor : Nat) (out : UnstakeOutcome)
    (h : unstakefio cfg ch g rows fio_address amount max_fee tpid actor = Except.ok out) :
    ∃ (row : account_staking_info) (paidActions : List Action),
      0 < amount ∧ 0 ≤ max_fee ∧
      findByAccount rows actor = some row ∧
      toU64 amount ≤ row.total_staked_fio ∧
      srpstoclaimOf row.total_srp amount row.total_staked_fio = Except.ok out.srpstoclaim ∧
      (if g.combined_token_pool ≥ cfg.COMBINEDTOKENPOOLMINIMUM then
          udiv64 g.combined_token_pool g.global_srp_count
        else pure 1) = Except.ok out.rateofexchange ∧
      toU64 amount ≤ wrap64 (out.srpstoclaim * out.rateofexchange) ∧
      out.totalrewardamount =
        sub64 (wrap64 (out.srpstoclaim * out.rateofexchange)) (toU64 amount) ∧
      out.stakingrewardamount = wrap64 (out.totalrewardamount / 10 * 9) ∧
      out.tpidrewardamount = out.totalrewardamount / 10 ∧
      out.srpstoclaim ≤ row.total_srp ∧
      wrap64 (toU64 amount + out.stakingrewardamount) ≤ g.combined_token_pool ∧
      toU64 amount ≤ g.staked_token_pool ∧
      out.srpstoclaim ≤ g.global_srp_count ∧
      out.accountstaking = modifyByAccount actor (fun a => { a with
        total_staked_fio := sub64 a.total_staked_fio (toU64 amount)
        total_srp := sub64 a.total_srp out.srpstoclaim }) rows ∧
      (if tpid.length > 0 ∧ out.tpidrewardamount > 0 then (do
          let tfioname_iter ← lookup (ch.fionames tpid)
            (Abort.fio_400 "fio_address" "FIO Address not registered")
          fio_400_assert (decide (ch.now ≤ tfioname_iter.expiration))
            "fio_address" "FIO Address expired. Renew first."
          pure (
            (if out.tpidrewardamount ≤
                sub64 g.combined_token_pool (wrap64 (toU64 amount + out.stakingrewardamount)) then
              { g with
                combined_token_pool :=
                  sub64 (sub64 g.combined_token_pool
                    (wrap64 (toU64 amount + out.stakingrewardamount))) out.tpidrewardamount
                staked_token_pool := sub64 g.staked_token_pool (toU64 amount)
                global_srp_count := sub64 g.global_srp_count out.srpstoclaim }
            else { g with
                combined_token_pool :=
                  sub64 g.combined_token_pool (wrap64 (toU64 amount + out.stakingrewardamount))
                staked_token_pool := sub64 g.staked_token_pool (toU64 amount)
                global_srp_count := sub64 g.global_srp_count out.srpstoclaim }),
            [Action.updatetpid tpid actor out.tpidrewardamount]))
        else pure ({ g with
                combined_token_pool :=
                  sub64 g.combined_token_pool (wrap64 (toU64 amount + out.stakingrewardamount))
                staked_token_pool := sub64 g.staked_token_pool (toU64 amount)
                global_srp_count := sub64 g.global_srp_count out.srpstoclaim }, [])) =
        Except.ok (out.gstaking, paidActions) := by
  simp only [unstakefio, bind_ok_iff, fio_400_assert_ok, fio_403_assert_ok, eosio_assert_ok,
    require_auth_ok, lookup_ok, pure_ok, exists_and_left, exists_eq_left] at h
  obtain ⟨-, hamount, hfee, -, -, -, -, -, -, -, bundle, -, row, hrow, -, hstaked, -, -, fee_iter,
    -, -, -, fee, -, -, -, srp, hsrp, rate, hrate, hge, hsrple, -, hpool, hstakedpool, hglobal,
    -, -, -, -, -, -, paid, hpaid, lock, -, -, -, hout⟩ := h
  subst hout
  simp only [decide_eq_true_eq] at hamount hfee hstaked hge hsrple hpool hstakedpool hglobal
  exact ⟨row, paid.2, hamount, hfee, hrow, hstaked, hsrp, hrate, hge, rfl, rfl, rfl, hsrple,
    hpool, hstakedpool, hglobal, rfl, hpaid⟩

/-! ## Stake -/

theorem toU64_of_range (a : Int) (h0 : 0 ≤ a) (h1 : a < 2 ^ 64) : ((toU64 a : Nat) : Int) = a := by
  unfold toU64
  rw [Int.emod_eq_of_lt h0 h1]
  exact Int.toNat_of_nonneg h0

theorem rate_if_ok (poolMinimum : Nat) (g : global_staking_state) (rate : Nat)
    (h : (if g.combined_token_pool ≥ poolMinimum then
        udiv64 g.combined_token_pool g.global_srp_count
      else pure 1) = Except.ok rate) :
    rate = ExchangeRateOracle poolMinimum g ∧
      (poolMinimum ≤ g.combined_token_pool → g.global_srp_count ≠ 0) := by
  unfold ExchangeRateOracle
  by_cases hp : g.combined_token_pool ≥ poolMinimum
  · rw [if_pos hp, udiv64_ok] at h
    have hlt : ¬ g.combined_token_pool < poolMinimum := by omega
    rw [if_neg hlt]
    exact ⟨h.2.symm, fun _ => h.1⟩
  · rw [if_neg hp, pure_ok] at h
    have hlt : g.combined_token_pool < poolMinimum := by omega
    rw [if_pos hlt]
    exact ⟨h.symm, fun h' => absurd h' hp⟩

/-- C1, as the code has it: a successful stake of `amount` whose sums stay below `2 ^ 64`
(the two pools plus the amount, the SRP count plus the award, and the two sums of an
existing row) uses the exchange rate of the pre-state, awards `floor(amount / rate)` SRPs,
raises the combined and the staked pool by exactly `amount` and the SRP count by exactly
the award, and leaves the caller with a row holding the amount and the award (no row
before) or the previous values plus them. -/
theorem stakefio_effect (cfg : Config) (ch : Chain) (g : global_staking_state)
    (rows : List account_staking_info) (fio_address : String) (amount max_fee : Int)
    (tpid : String) (actor : Nat) (out : StakeOutcome)
    (h : stakefio cfg ch g rows fio_address amount max_fee tpid actor = Except.ok out)
    (hc : (g.combined_token_pool : Int) + amount < 2 ^ 64)
    (hs : (g.staked_token_pool : Int) + amount < 2 ^ 64)
    (hg : g.global_srp_count + out.srptoaward < 2 ^ 64)
    (hr : ∀ r, findByAccount rows actor = some r →
      (r.total_staked_fio : Int) + amount < 2 ^ 64 ∧ r.total_srp + out.srptoaward < 2 ^ 64) :
    0 < amount ∧
    out.rateofexchange = ExchangeRateOracle cfg.COMBINEDTOKENPOOLMINIMUM g ∧
    0 < out.rateofexchange ∧
    (out.srptoaward : Int) = amount / (out.rateofexchange : Int) ∧
    (out.gstaking.combined_token_pool : Int) = (g.combined_token_pool : Int) + amount ∧
    (out.gstaking.staked_token_pool : Int) = (g.staked_token_pool : Int) + amount ∧
    out.gstaking.global_srp_count = g.global_srp_count + out.srptoaward ∧
    (findByAccount rows actor = none →
      ∃ id, findByAccount out.accountstaking actor =
        some { id := id, account := actor, total_srp := out.srptoaward,
               total_staked_fio := amount.toNat }) ∧
    (∀ r, findByAccount rows actor = some r →
      findByAccount out.accountstaking actor =
        some { r with total_staked_fio := r.total_staked_fio + amount.toNat,
                      total_srp := r.total_srp + out.srptoaward }) := by
  obtain ⟨hpos, -, hrate, hrate0, hsrp, hgs, hrows⟩ := stakefio_inv _ _ _ _ _ _ _ _ _ _ h
  have hlt : amount < 2 ^ 64 := by
    have : (0 : Int) ≤ (g.combined_token_pool : Int) := Int.ofNat_nonneg _
    omega
  have hU : ((toU64 amount : Nat) : Int) = amount := toU64_of_range amount (le_of_lt hpos) hlt
  have hUn : toU64 amount = amount.toNat := by omega
  have hcN : g.combined_token_pool + toU64 amount < 2 ^ 64 := by omega
  have hsN : g.staked_token_pool + toU64 amount < 2 ^ 64 := by omega
  refine ⟨hpos, (rate_if_ok _ _ _ hrate).1, Nat.pos_of_ne_zero hrate0, ?_, ?_, ?_, ?_, ?_, ?_⟩
  · rw [hsrp, Int.ofNat_ediv, hU]
  · rw [hgs]
    simp only [wrap64]
    rw [Nat.mod_eq_of_lt hcN]
    push_cast
    rw [hU]
  · rw [hgs]
    simp only [wrap64]
    rw [Nat.mod_eq_of_lt hsN]
    push_cast
    rw [hU]
  · rw [hgs]
    simp only [wrap64]
    exact Nat.mod_eq_of_lt hg
  · intro hnone
    rw [hrows, hnone]
    refine ⟨available_primary_key rows, ?_⟩
    rw [findByAccount_append_of_none rows actor _ rfl hnone, hUn]
  · intro r hsome
    rw [hrows, hsome]
    obtain ⟨h1, h2⟩ := hr r hsome
    have h1N : r.total_staked_fio + toU64 amount < 2 ^ 64 := by omega
    have key := findByAccount_modify actor (fun a => { a with
        total_staked_fio := wrap64 (a.total_staked_fio + toU64 amount)
        total_srp := wrap64 (a.total_srp + out.srptoaward) }) (fun _ => rfl) rows r hsome
    simp only [wrap64] at key ⊢
    rw [key, Nat.mod_eq_of_lt h1N, Nat.mod_eq_of_lt h2, hUn]

/-- Staking 1,000,000 into the all-zero state: rate 1, award 1,000,000, and the pools,
the SRP count and the caller's row all at 1,000,000. -/
theorem stakefio_effect_witness :
    ∃ out, stakefio exampleConfig exampleChain zeroState [] "" 1000000 3000000000 "" 100 =
        Except.ok out ∧
      out.rateofexchange = 1 ∧ out.srptoaward = 1000000 ∧
      out.gstaking.combined_token_pool = 1000000 ∧
      out.gstaking.staked_token_pool = 1000000 ∧
      out.gstaking.global_srp_count = 1000000 ∧
      findByAccount out.accountstaking 100 =
        some { id := 0, account := 100, total_srp := 1000000, total_staked_fio := 1000000 } := by
  have hrun : stakefio exampleConfig exampleChain zeroState [] "" 1000000 3000000000 "" 100 =
      Except.ok {
        gstaking := ⟨1000000, 1000000, 0, 1000000, 0, 0⟩
        accountstaking := [⟨0, 100, 1000000, 1000000⟩]
        actions := [Action.fio_fees 100 3000000000 "stake_fio_tokens",
          Action.process_rewards "" 3000000000 100, Action.updatepower 100 true,
          Action.incram 100 512, Action.send_response 3000000000]
        paid_fee_amount := 3000000000
        rateofexchange := 1
        srptoaward := 1000000 } := by rfl
  have hthm := stakefio_effect exampleConfig exampleChain zeroState [] "" 1000000 3000000000 ""
    100 _ hrun (by decide) (by decide) (by decide) (by intro r hr; simp [findByAccount] at hr)
  refine ⟨_, hrun, hthm.2.1.trans (by decide), rfl, ?_, ?_, hthm.2.2.2.2.2.2.1, rfl⟩
  · have := hthm.2.2.2.2.1
    exact_mod_cast this
  · have := hthm.2.2.2.2.2.1
    exact_mod_cast this

/-! ## The exchange rate -/

/-- C2: the rate `stakefio` uses and the rate `unstakefio` uses are the same function of
the pool counters alone: `1` below the pool minimum, else the truncated quotient of the
combined pool by the SRP count (whose divisor is then not zero). -/
theorem rateofexchange_same_function (cfg : Config) (g : global_staking_state) :
    (∀ (ch : Chain) (rows : List account_staking_info) (fio_address : String)
        (amount max_fee : Int) (tpid : String) (actor : Nat) (out : StakeOutcome),
      stakefio cfg ch g rows fio_address amount max_fee tpid actor = Except.ok out →
      out.rateofexchange = ExchangeRateOracle cfg.COMBINEDTOKENPOOLMINIMUM g ∧
      (cfg.COMBINEDTOKENPOOLMINIMUM ≤ g.combined_token_pool → g.global_srp_count ≠ 0)) ∧
    (∀ (ch : Chain) (rows : List account_staking_info) (fio_address : String)
        (amount max_fee : Int) (tpid : String) (actor : Nat) (out : UnstakeOutcome),
      unstakefio cfg ch g rows fio_address amount max_fee tpid actor = Except.ok out →
      out.rateofexchange = ExchangeRateOracle cfg.COMBINEDTOKENPOOLMINIMUM g ∧
      (cfg.COMBINEDTOKENPOOLMINIMUM ≤ g.combined_token_pool → g.global_srp_count ≠ 0)) ∧
    (g.combined_token_pool < cfg.COMBINEDTOKENPOOLMINIMUM →
      ExchangeRateOracle cfg.COMBINEDTOKENPOOLMINIMUM g = 1) ∧
    (cfg.COMBINEDTOKENPOOLMINIMUM ≤ g.combined_token_pool →
      ExchangeRateOracle cfg.COMBINEDTOKENPOOLMINIMUM g =
        g.combined_token_pool / g.global_srp_count) := by
  refine ⟨?_, ?_, ?_, ?_⟩
  · intro ch rows fio_address amount max_fee tpid actor out h
    obtain ⟨-, -, hrate, -⟩ := stakefio_inv _ _ _ _ _ _ _ _ _ _ h
    exact rate_if_ok _ _ _ hrate
  · intro ch rows fio_address amount max_fee tpid actor out h
    obtain ⟨row, paidActions, -, -, -, -, -, hrate, -⟩ := unstakefio_inv _ _ _ _ _ _ _ _ _ _ h
    exact rate_if_ok _ _ _ hrate
  · intro hlt
    unfold ExchangeRateOracle
    rw [if_pos hlt]
  · intro hle
    unfold ExchangeRateOracle
    rw [if_neg (by omega)]

set_option maxRecDepth 20000 in
/-- A stake and an unstake in the same state, above the pool minimum, both at the rate
`2 * 10 ^ 15 / 10 ^ 6`. -/
theorem rateofexchange_same_function_witness :
    ∃ (o1 : StakeOutcome) (o2 : UnstakeOutcome),
      stakefio exampleConfig exampleChain exampleFunded [exampleRow] "" 1000000 3000000000 ""
        100 = Except.ok o1 ∧
      unstakefio exampleConfig exampleChain exampleFunded [exampleRow] "" 500000 3000000000 ""
        100 = Except.ok o2 ∧
      o1.rateofexchange = 2000000000 ∧ o2.rateofexchange = 2000000000 := by
  have hthm := rateofexchange_same_function exampleConfig exampleFunded
  have h1 : ∃ o1, stakefio exampleConfig exampleChain exampleFunded [exampleRow] ""
      1000000 3000000000 "" 100 = Except.ok o1 := ⟨_, rfl⟩
  have h2 : ∃ o2, unstakefio exampleConfig exampleChain exampleFunded [exampleRow] ""
      500000 3000000000 "" 100 = Except.ok o2 := ⟨_, rfl⟩
  obtain ⟨o1, h1⟩ := h1
  obtain ⟨o2, h2⟩ := h2
  refine ⟨o1, o2, h1, h2, ?_, ?_⟩
  · exact (hthm.1 _ _ _ _ _ _ _ _ h1).1.trans (by decide)
  · exact (hthm.2.1 _ _ _ _ _ _ _ _ h2).1.trans (by decide)

/-! ## Unstake: the reward -/

theorem toU64_lt (a : Int) : toU64 a < 2 ^ 64 := by
  unfold toU64
  have h1 : a % 2 ^ 64 < 2 ^ 64 := Int.emod_lt_of_pos _ (by norm_num)
  have h0 : 0 ≤ a % 2 ^ 64 := Int.emod_nonneg _ (by norm_num)
  omega

theorem sub64_lt (a b : Nat) : sub64 a b < 2 ^ 64 := by
  unfold sub64
  exact Nat.mod_lt _ (by norm_num)

theorem sub64_of_le (a b : Nat) (ha : a < 2 ^ 64) (hb : b ≤ a) : sub64 a b = a - b := by
  unfold sub64
  have hb' : b % 2 ^ 64 = b := Nat.mod_eq_of_lt (by omega)
  rw [hb']
  have : a + 2 ^ 64 - b = (a - b) + 2 ^ 64 := by omega
  rw [this, Nat.add_mod_right]
  exact Nat.mod_eq_of_lt (by omega)

theorem toUInt64_lt (d : Dbl) (n : Nat) (h : Dbl.toUInt64 d = some n) : n < 2 ^ 64 := by
  unfold Dbl.toUInt64 at h
  split at h
  · rename_i hc
    simp only [Option.some.injEq] at h
    omega
  · simp at h

theorem srpstoclaimOf_lt (s : Nat) (a : Int) (t n : Nat)
    (h : srpstoclaimOf s a t = Except.ok n) : n < 2 ^ 64 := by
  simp only [srpstoclaimOf, bind_ok_iff, lookup_ok] at h
  obtain ⟨-, -, d, -, hd⟩ := h
  exact toUInt64_lt d n hd

/-- The product `srpstoclaim * rateofexchange` of a successful unstake does not wrap. -/
theorem unstake_product_lt (poolMinimum : Nat) (g : global_staking_state) (srp rate : Nat)
    (hpool : g.combined_token_pool < 2 ^ 64) (hsrp : srp < 2 ^ 64)
    (hle : srp ≤ g.global_srp_count)
    (hrate : (if g.combined_token_pool ≥ poolMinimum then
        udiv64 g.combined_token_pool g.global_srp_count
      else pure 1) = Except.ok rate) :
    srp * rate < 2 ^ 64 := by
  by_cases hp : g.combined_token_pool ≥ poolMinimum
  · rw [if_pos hp, udiv64_ok] at hrate
    obtain ⟨-, hr⟩ := hrate
    subst hr
    calc srp * (g.combined_token_pool / g.global_srp_count)
        ≤ g.global_srp_count * (g.combined_token_pool / g.global_srp_count) :=
          Nat.mul_le_mul_right _ hle
      _ ≤ g.combined_token_pool := Nat.mul_div_le _ _
      _ < 2 ^ 64 := hpool
  · rw [if_neg hp, pure_ok] at hrate
    subst hrate
    omega

/-- The facts about the reward of a successful unstake, with the wrap-around removed. -/
theorem unstakefio_reward (cfg : Config) (ch : Chain) (g : global_staking_state)
    (rows : List account_staking_info) (fio_address : String) (amount max_fee : Int)
    (tpid : String) (actor : Nat) (out : UnstakeOutcome)
    (h : unstakefio cfg ch g rows fio_address amount max_fee tpid actor = Except.ok out)
    (ha : amount < 2 ^ 63) (hpool : g.combined_token_pool < 2 ^ 64) :
    toU64 amount = amount.toNat ∧ 0 < amount ∧
    amount.toNat ≤ out.srpstoclaim * out.rateofexchange ∧
    out.srpstoclaim * out.rateofexchange < 2 ^ 64 ∧
    out.totalrewardamount = out.srpstoclaim * out.rateofexchange - amount.toNat ∧
    out.stakingrewardamount = out.totalrewardamount / 10 * 9 ∧
    out.tpidrewardamount = out.totalrewardamount / 10 := by
  obtain ⟨row, paidActions, hpos, -, -, -, hsrp, hrate, hge, htot, hstk, htp, -, -, -, hgl, -⟩ :=
    unstakefio_inv _ _ _ _ _ _ _ _ _ _ h
  have hU : ((toU64 amount : Nat) : Int) = amount :=
    toU64_of_range amount (le_of_lt hpos) (by omega)
  have hUn : toU64 amount = amount.toNat := by omega
  have hprod := unstake_product_lt _ g _ _ hpool (srpstoclaimOf_lt _ _ _ _ hsrp) hgl hrate
  have hw : wrap64 (out.srpstoclaim * out.rateofexchange) =
      out.srpstoclaim * out.rateofexchange := Nat.mod_eq_of_lt hprod
  rw [hw, hUn] at hge
  rw [hw, hUn, sub64_of_le _ _ hprod hge] at htot
  have htl : out.totalrewardamount < 2 ^ 64 := by omega
  have hstk' : out.stakingrewardamount = out.totalrewardamount / 10 * 9 := by
    rw [hstk]
    exact Nat.mod_eq_of_lt (by omega)
  exact ⟨hUn, hpos, hge, hprod, htot, hstk', htp⟩


/-- C4: an unstake succeeds only if `srpstoclaim * rateofexchange ≥ amount`; when the
product is smaller the action aborts and the tables stay as they were; on success the
reward is exactly the product minus the amount, a non-negative integer. -/
theorem unstakefio_reward_nonneg (cfg : Config) (ch : Chain) (g : global_staking_state)
    (rows : List account_staking_info) (fio_address : String) (amount max_fee : Int)
    (tpid : String) (actor : Nat)
    (ha : amount < 2 ^ 63) (hpool : g.combined_token_pool < 2 ^ 64) :
    (∀ out, unstakefio cfg ch g rows fio_address amount max_fee tpid actor = Except.ok out →
      amount ≤ ((out.srpstoclaim * out.rateofexchange : Nat) : Int) ∧
      (out.totalrewardamount : Int) =
        ((out.srpstoclaim * out.rateofexchange : Nat) : Int) - amount ∧
      0 ≤ (out.totalrewardamount : Int)) ∧
    (∀ row srp, findByAccount rows actor = some row →
      srpstoclaimOf row.total_srp amount row.total_staked_fio = Except.ok srp →
      ((srp * ExchangeRateOracle cfg.COMBINEDTOKENPOOLMINIMUM g : Nat) : Int) < amount →
      (∃ e, unstakefio cfg ch g rows fio_address amount max_fee tpid actor = Except.error e) ∧
      commitUnstake cfg ch g rows fio_address amount max_fee tpid actor = (g, rows)) := by
  constructor
  · intro out h
    obtain ⟨-, hpos, hge, -, htot, -, -⟩ := unstakefio_reward _ _ _ _ _ _ _ _ _ _ h ha hpool
    have hcast : ((amount.toNat : Nat) : Int) = amount := Int.toNat_of_nonneg (le_of_lt hpos)
    refine ⟨?_, ?_, Int.ofNat_nonneg _⟩
    · rw [← hcast]
      exact_mod_cast hge
    · rw [htot, Int.ofNat_sub hge, hcast]
  · intro row srp hrow hsrp hlt
    cases hres : unstakefio cfg ch g rows fio_address amount max_fee tpid actor with
    | error e =>
      refine ⟨⟨e, rfl⟩, ?_⟩
      unfold commitUnstake
      rw [hres]
    | ok out =>
      exfalso
      obtain ⟨-, hpos, hge, -, -, -, -⟩ := unstakefio_reward _ _ _ _ _ _ _ _ _ _ hres ha hpool
      obtain ⟨row1, -, -, -, hrow1, -, hsrp1, hrate, -⟩ :=
        unstakefio_inv _ _ _ _ _ _ _ _ _ _ hres
      rw [hrow] at hrow1
      cases hrow1
      rw [hsrp] at hsrp1
      cases hsrp1
      rw [(rate_if_ok _ _ _ hrate).1] at hge
      have hcast : ((amount.toNat : Nat) : Int) = amount := Int.toNat_of_nonneg (le_of_lt hpos)
      have : ((amount.toNat : Nat) : Int) ≤
          ((out.srpstoclaim * ExchangeRateOracle cfg.COMBINEDTOKENPOOLMINIMUM g : Nat) : Int) := by
        exact_mod_cast hge
      omega

set_option maxRecDepth 20000 in
/-- An unstake of 500,000 at rate `2 * 10 ^ 9` succeeds with a positive reward; an
unstake of 1 from a row of 49 staked units and 49 SRPs claims no SRP and aborts. -/
theorem unstakefio_reward_nonneg_witness :
    (∃ out, unstakefio exampleConfig exampleChain exampleFunded [exampleRow] "" 500000
        3000000000 "" 100 = Except.ok out ∧
      out.totalrewardamount = 999999999500000) ∧
    commitUnstake exampleConfig exampleChain ⟨49, 49, 0, 49, 0, 0⟩ [⟨0, 100, 49, 49⟩] "" 1
      3000000000 "" 100 = (⟨49, 49, 0, 49, 0, 0⟩, [⟨0, 100, 49, 49⟩]) := by
  have h1 := unstakefio_reward_nonneg exampleConfig exampleChain exampleFunded [exampleRow] ""
    500000 3000000000 "" 100 (by decide) (by decide)
  have h2 := unstakefio_reward_nonneg exampleConfig exampleChain ⟨49, 49, 0, 49, 0, 0⟩
    [⟨0, 100, 49, 49⟩] "" 1 3000000000 "" 100 (by decide) (by decide)
  have hrun : ∃ out, unstakefio exampleConfig exampleChain exampleFunded [exampleRow] "" 500000
      3000000000 "" 100 = Except.ok out ∧ out.srpstoclaim * out.rateofexchange =
        1000000000000000 := ⟨_, rfl, rfl⟩
  obtain ⟨out, hout, hprod⟩ := hrun
  refine ⟨⟨out, hout, ?_⟩, ?_⟩
  · have := (h1.1 out hout).2.1
    rw [hprod] at this
    omega
  · exact (h2.2 ⟨0, 100, 49, 49⟩ 0 rfl rfl (by decide)).2

/-- C5: the reward of a successful unstake is split as `tenth = floor(reward / 10)`,
`9 * tenth` for the staker and `tenth` for the tpid; the two parts add up to the reward
less its remainder modulo 10, so less than 10 units stay undistributed. -/
theorem unstakefio_reward_split (cfg : Config) (ch : Chain) (g : global_staking_state)
    (rows : List account_staking_info) (fio_address : String) (amount max_fee : Int)
    (tpid : String) (actor : Nat) (out : UnstakeOutcome)
    (h : unstakefio cfg ch g rows fio_address amount max_fee tpid actor = Except.ok out) :
    out.tpidrewardamount = out.totalrewardamount / 10 ∧
    out.stakingrewardamount = 9 * (out.totalrewardamount / 10) ∧
    out.stakingrewardamount + out.tpidrewardamount =
      out.totalrewardamount - out.totalrewardamount % 10 ∧
    out.stakingrewardamount + out.tpidrewardamount ≤ out.totalrewardamount ∧
    out.totalrewardamount - (out.stakingrewardamount + out.tpidrewardamount) < 10 := by
  obtain ⟨row, paidActions, -, -, -, -, -, -, -, htot, hstk, htp, -⟩ :=
    unstakefio_inv _ _ _ _ _ _ _ _ _ _ h
  have htl : out.totalrewardamount < 2 ^ 64 := by
    rw [htot]
    exact sub64_lt _ _
  have hstk' : out.stakingrewardamount = out.totalrewardamount / 10 * 9 := by
    rw [hstk]
    exact Nat.mod_eq_of_lt (by omega)
  refine ⟨htp, by omega, by omega, by omega, by omega⟩

set_option maxRecDepth 20000 in
/-- The unstake of 500,000 at rate `2 * 10 ^ 9`: the reward 999,999,999,500,000 is split
into 899,999,999,550,000 and 99,999,999,950,000. -/
theorem unstakefio_reward_split_witness :
    ∃ out, unstakefio exampleConfig exampleChain exampleFunded [exampleRow] "" 500000
        3000000000 "" 100 = Except.ok out ∧
      out.stakingrewardamount = 899999999550000 ∧ out.tpidrewardamount = 99999999950000 := by
  have hrun : ∃ out, unstakefio exampleConfig exampleChain exampleFunded [exampleRow] "" 500000
      3000000000 "" 100 = Except.ok out ∧ out.totalrewardamount = 999999999500000 :=
    ⟨_, rfl, rfl⟩
  obtain ⟨out, hout, htot⟩ := hrun
  have hthm := unstakefio_reward_split exampleConfig exampleChain exampleFunded [exampleRow] ""
    500000 3000000000 "" 100 out hout
  refine ⟨out, hout, ?_, ?_⟩
  · rw [hthm.2.1, htot]
  · rw [hthm.1, htot]

/-! ## Unstake: the updates and the rejection -/

/-- C6: a successful unstake with an empty tpid lowers the caller's row by `amount` and
by `srpstoclaim`, the combined pool by exactly `amount + stakingrewardamount`, the staked
pool by exactly `amount` and the SRP count by exactly `srpstoclaim`, and leaves the three
reward counters as they were. -/
theorem unstakefio_updates (cfg : Config) (ch : Chain) (g : global_staking_state)
    (rows : List account_staking_info) (fio_address : String) (amount max_fee : Int)
    (actor : Nat) (out : UnstakeOutcome)
    (h : unstakefio cfg ch g rows fio_address amount max_fee "" actor = Except.ok out)
    (ha : amount < 2 ^ 63) (hg : g.fits)
    (hrows : ∀ r, findByAccount rows actor = some r → r.fits) :
    (∃ row, findByAccount rows actor = some row ∧
      amount.toNat ≤ row.total_staked_fio ∧ out.srpstoclaim ≤ row.total_srp ∧
      findByAccount out.accountstaking actor =
        some { row with total_staked_fio := row.total_staked_fio - amount.toNat,
                        total_srp := row.total_srp - out.srpstoclaim }) ∧
    out.gstaking.combined_token_pool + (amount.toNat + out.stakingrewardamount) =
      g.combined_token_pool ∧
    out.gstaking.staked_token_pool + amount.toNat = g.staked_token_pool ∧
    out.gstaking.global_srp_count + out.srpstoclaim = g.global_srp_count ∧
    out.gstaking.rewards_token_pool = g.rewards_token_pool ∧
    out.gstaking.daily_staking_rewards = g.daily_staking_rewards ∧
    out.gstaking.staking_rewards_reserves_minted = g.staking_rewards_reserves_minted := by
  obtain ⟨hg1, hg2, -, hg4, -, -⟩ := hg
  obtain ⟨hUn, hpos, hge, hprod, htot, hstk, htp⟩ :=
    unstakefio_reward _ _ _ _ _ _ _ _ _ _ h ha hg2
  obtain ⟨row, paidActions, -, -, hrow, hstaked, -, -, -, -, -, -, hsrple, hpool, hsp, hgl,
    htable, hpaid⟩ := unstakefio_inv _ _ _ _ _ _ _ _ _ _ h
  obtain ⟨hr1, hr2⟩ := hrows row hrow
  rw [hUn] at hstaked hpool hsp htable hpaid
  have hsum : amount.toNat + out.stakingrewardamount < 2 ^ 64 := by omega
  have hw : wrap64 (amount.toNat + out.stakingrewardamount) =
      amount.toNat + out.stakingrewardamount := Nat.mod_eq_of_lt hsum
  rw [hw] at hpool hpaid
  have hno : ¬ (("" : String).length > 0 ∧ out.tpidrewardamount > 0) := by
    intro hc
    exact absurd hc.1 (by decide)
  rw [if_neg hno, pure_ok] at hpaid
  have hgs : out.gstaking = { g with
      combined_token_pool :=
        sub64 g.combined_token_pool (amount.toNat + out.stakingrewardamount)
      staked_token_pool := sub64 g.staked_token_pool amount.toNat
      global_srp_count := sub64 g.global_srp_count out.srpstoclaim } :=
    (congrArg Prod.fst hpaid).symm
  refine ⟨⟨row, hrow, hstaked, hsrple, ?_⟩, ?_, ?_, ?_, ?_, ?_, ?_⟩
  · have key := findByAccount_modify actor (fun a => { a with
        total_staked_fio := sub64 a.total_staked_fio amount.toNat
        total_srp := sub64 a.total_srp out.srpstoclaim }) (fun _ => rfl) rows row hrow
    rw [htable, key]
    simp only [sub64_of_le _ _ hr2 hstaked, sub64_of_le _ _ hr1 hsrple]
  · rw [hgs]
    simp only
    rw [sub64_of_le _ _ hg2 hpool]
    omega
  · rw [hgs]
    simp only
    rw [sub64_of_le _ _ hg1 hsp]
    omega
  · rw [hgs]
    simp only
    rw [sub64_of_le _ _ hg4 hgl]
    omega
  · rw [hgs]
  · rw [hgs]
  · rw [hgs]

set_option maxRecDepth 20000 in
/-- The unstake of 500,000 at rate `2 * 10 ^ 9` with an empty tpid: the row goes from
(1,000,000 staked, 1,000,000 SRPs) to (500,000, 500,000) and the combined pool from
`2 * 10 ^ 15` down by 500,000 + 899,999,999,550,000. -/
theorem unstakefio_updates_witness :
    ∃ out, unstakefio exampleConfig exampleChain exampleFunded [exampleRow] "" 500000
        3000000000 "" 100 = Except.ok out ∧
      findByAccount out.accountstaking 100 = some ⟨0, 100, 500000, 500000⟩ ∧
      out.gstaking.combined_token_pool + (500000 + 899999999550000) = 2000000000000000 ∧
      out.gstaking.staked_token_pool + 500000 = 1000000 ∧
      out.gstaking.global_srp_count + 500000 = 1000000 := by
  have hrun : ∃ out, unstakefio exampleConfig exampleChain exampleFunded [exampleRow] "" 500000
      3000000000 "" 100 = Except.ok out ∧ out.srpstoclaim = 500000 ∧
      out.stakingrewardamount = 899999999550000 := ⟨_, rfl, rfl, rfl⟩
  obtain ⟨out, hout, hsrp, hstk⟩ := hrun
  have hthm := unstakefio_updates exampleConfig exampleChain exampleFunded [exampleRow] ""
    500000 3000000000 100 out hout (by decide)
    (by unfold global_staking_state.fits; decide)
    (by
      intro r hr
      have : r = exampleRow := by
        have h0 : findByAccount [exampleRow] 100 = some exampleRow := rfl
        rw [h0] at hr
        exact (Option.some.inj hr).symm
      subst this
      unfold account_staking_info.fits
      decide)
  obtain ⟨⟨row, hrow, -, -, hfind⟩, hc, hs, hgc, -⟩ := hthm
  have hrow' : row = exampleRow := by
    have h0 : findByAccount [exampleRow] 100 = some exampleRow := rfl
    rw [h0] at hrow
    exact (Option.some.inj hrow).symm
  subst hrow'
  rw [hsrp] at hfind hgc
  rw [hstk] at hc
  exact ⟨out, hout, hfind, hc, hs, hgc⟩

theorem ok_bind {α β : Type} (a : α) (k : α → Except Abort β) :
    (Except.ok a >>= k) = k a := rfl

theorem error_bind {α β : Type} (e : Abort) (k : α → Except Abort β) :
    ((Except.error e : Except Abort α) >>= k) = Except.error e := rfl

theorem lookup_some {α : Type} (a : α) (e : Abort) : lookup (some a) e = Except.ok a := rfl

theorem lookup_none {α : Type} (e : Abort) : lookup (none : Option α) e = Except.error e := rfl

theorem fio_400_assert_true (f m : String) : fio_400_assert true f m = Except.ok () := rfl

theorem fio_400_assert_false (f m : String) :
    fio_400_assert false f m = Except.error (Abort.fio_400 f m) := rfl

theorem eosio_assert_true (m : String) : eosio_assert true m = Except.ok () := rfl

theorem eosio_assert_false (m : String) :
    eosio_assert false m = Except.error (Abort.eosio_assert m) := rfl

/-- An `unstakefio` that cannot succeed aborts, and the tables are rolled back. -/
theorem unstakefio_abort_of_not_ok (cfg : Config) (ch : Chain) (g : global_staking_state)
    (rows : List account_staking_info) (fio_address : String) (amount max_fee : Int)
    (tpid : String) (actor : Nat)
    (hno : ∀ out,
      unstakefio cfg ch g rows fio_address amount max_fee tpid actor = Except.ok out → False) :
    (∃ e, unstakefio cfg ch g rows fio_address amount max_fee tpid actor = Except.error e) ∧
    commitUnstake cfg ch g rows fio_address amount max_fee tpid actor = (g, rows) := by
  cases hres : unstakefio cfg ch g rows fio_address amount max_fee tpid actor with
  | error e =>
    refine ⟨⟨e, rfl⟩, ?_⟩
    unfold commitUnstake
    rw [hres]
  | ok out => exact absurd hres (fun hc => hno out hc)

theorem pow2_eq (k : Nat) : pow2 k = 2 ^ k := by
  unfold pow2
  rw [← pow_mul, ← pow_add, Nat.div_add_mod]

theorem nearestEven_spec (p q : Nat) (hq : 0 < q) :
    2 * (nearestEven p q * q) ≤ 2 * p + q ∧ 2 * p ≤ 2 * (nearestEven p q * q) + q := by
  have hdm := Nat.div_add_mod p q
  have hr := Nat.mod_lt p hq
  have hcomm : q * (p / q) = p / q * q := Nat.mul_comm _ _
  have hsucc : (p / q + 1) * q = p / q * q + q := Nat.succ_mul _ _
  unfold nearestEven
  simp only
  split_ifs <;> omega

theorem nearestEven_of_dvd (m q : Nat) (hq : 0 < q) : nearestEven (m * q) q = m := by
  unfold nearestEven
  have h1 : m * q / q = m := Nat.mul_div_cancel m hq
  have h2 : m * q % q = 0 := Nat.mul_mod_left m q
  simp only [h1, h2]
  rw [if_pos (by omega)]

theorem log2Step_inv (n j : Nat) (st : Nat × Nat) (h1 : 1 ≤ st.1) (h2 : st.1 * 2 ^ st.2 ≤ n) :
    1 ≤ (log2Step j st).1 ∧ (log2Step j st).1 * 2 ^ (log2Step j st).2 ≤ n := by
  unfold log2Step
  split_ifs with hc
  · have hpos : 0 < 2 ^ j := Nat.two_pow_pos _
    refine ⟨(Nat.le_div_iff_mul_le hpos).2 (by simpa using hc), ?_⟩
    simp only
    have hle : st.1 / 2 ^ j * 2 ^ j ≤ st.1 := Nat.div_mul_le_self _ _
    calc st.1 / 2 ^ j * 2 ^ (st.2 + j)
        = (st.1 / 2 ^ j * 2 ^ j) * 2 ^ st.2 := by rw [pow_add]; ring
      _ ≤ st.1 * 2 ^ st.2 := Nat.mul_le_mul_right _ hle
      _ ≤ n := h2
  · exact ⟨h1, h2⟩

theorem log2_foldl_inv (n : Nat) (rungs : List Nat) :
    ∀ st : Nat × Nat, 1 ≤ st.1 → st.1 * 2 ^ st.2 ≤ n →
      2 ^ (List.foldl (fun st j => log2Step j st) st rungs).2 ≤ n := by
  induction rungs with
  | nil =>
    intro st h1 h2
    simp only [List.foldl]
    calc 2 ^ st.2 = 1 * 2 ^ st.2 := (Nat.one_mul _).symm
      _ ≤ st.1 * 2 ^ st.2 := Nat.mul_le_mul_right _ h1
      _ ≤ n := h2
  | cons j rest ih =>
    intro st h1 h2
    simp only [List.foldl]
    obtain ⟨h1', h2'⟩ := log2Step_inv n j st h1 h2
    exact ih _ h1' h2'

theorem ilog2_le (n : Nat) (hn : 1 ≤ n) : 2 ^ ilog2 n ≤ n := by
  unfold ilog2
  exact log2_foldl_inv n log2Rungs (n, 0) hn (by simp)

theorem ilog2_lt_of_lt (n e : Nat) (hn : 1 ≤ n) (h : n < 2 ^ e) : ilog2 n < e := by
  have h1 := ilog2_le n hn
  have h2 : 2 ^ ilog2 n < 2 ^ e := lt_of_le_of_lt h1 h
  exact (Nat.pow_lt_pow_iff_right (by norm_num)).1 h2

theorem K_eq : Dbl.K = 2 ^ Dbl.scaleBits := pow2_eq Dbl.scaleBits

theorem scaleBits_eq : Dbl.scaleBits = 1074 := rfl

theorem K_pos : 0 < Dbl.K := by
  rw [K_eq]
  exact Nat.two_pow_pos _

/-- An integer below `2 ^ 53` converts to a double without rounding. -/
theorem roundUnits_exact (n : Nat) (hn : n < 2 ^ 53) :
    roundUnits (n * Dbl.K) 1 = n * Dbl.K := by
  rcases Nat.eq_zero_or_pos n with h0 | hpos
  · subst h0
    rw [Nat.zero_mul]
    rfl
  · have hx : 1 ≤ n * Dbl.K := Nat.mul_pos hpos K_pos
    have hlt : n * Dbl.K < 2 ^ (53 + Dbl.scaleBits) := by
      rw [K_eq, pow_add]
      exact Nat.mul_lt_mul_of_pos_right hn (Nat.two_pow_pos _)
    have hL := ilog2_lt_of_lt _ (53 + Dbl.scaleBits) hx hlt
    unfold roundUnits
    simp only [Nat.div_one, Nat.one_mul]
    generalize hk : ilog2 (n * Dbl.K) + 1 - 53 = k
    have hk' : k ≤ Dbl.scaleBits := by omega
    rw [pow2_eq]
    have hsplit : n * Dbl.K = (n * 2 ^ (Dbl.scaleBits - k)) * 2 ^ k := by
      rw [K_eq, Nat.mul_assoc, ← pow_add, Nat.sub_add_cancel hk']
    rw [hsplit, nearestEven_of_dvd _ _ (Nat.two_pow_pos _)]

/-- In the normal range the rounded value is within a relative `2 ^ (-53)` of the exact one. -/
theorem roundUnits_rel (p q : Nat) (hq : 0 < q) (hp : 2 ^ 52 * q ≤ p) :
    2 ^ 53 * (roundUnits p q * q) ≤ (2 ^ 53 + 1) * p ∧
    (2 ^ 53 - 1) * p ≤ 2 ^ 53 * (roundUnits p q * q) := by
  unfold roundUnits
  simp only
  generalize hk : ilog2 (p / q) + 1 - 53 = k
  rw [pow2_eq]
  have hn : 2 ^ 52 ≤ p / q := (Nat.le_div_iff_mul_le hq).2 hp
  have hkey : 2 ^ 52 * (q * 2 ^ k) ≤ p := by
    have hL := ilog2_le (p / q) (le_trans (Nat.one_le_two_pow) hn)
    by_cases hk0 : k = 0
    · subst hk0
      simpa using hp
    · have hlog : ilog2 (p / q) = k + 52 := by omega
      rw [hlog] at hL
      have hmul := (Nat.le_div_iff_mul_le hq).1 hL
      calc 2 ^ 52 * (q * 2 ^ k) = 2 ^ (k + 52) * q := by rw [pow_add]; ring
        _ ≤ p := hmul
  have hQ : 0 < q * 2 ^ k := Nat.mul_pos hq (Nat.two_pow_pos _)
  obtain ⟨h1, h2⟩ := nearestEven_spec p (q * 2 ^ k) hQ
  have e : nearestEven p (q * 2 ^ k) * 2 ^ k * q = nearestEven p (q * 2 ^ k) * (q * 2 ^ k) := by
    ring
  rw [e]
  generalize nearestEven p (q * 2 ^ k) * (q * 2 ^ k) = X at h1 h2 ⊢
  generalize q * 2 ^ k = Q at h1 h2 hkey ⊢
  constructor <;> omega

theorem ilog2_zero : ilog2 0 = 0 := by decide

theorem roundUnits_zero (q : Nat) : roundUnits 0 q = 0 := by
  unfold roundUnits
  simp only [Nat.zero_div, ilog2_zero]
  unfold nearestEven
  simp

theorem K_ge : 2 ^ 110 ≤ Dbl.K := by
  rw [K_eq]
  exact Nat.pow_le_pow_right (by norm_num) (by rw [scaleBits_eq]; norm_num)

theorem overflowUnits_ge : 2 ^ 74 * Dbl.K ≤ Dbl.overflowUnits := by
  unfold Dbl.overflowUnits
  rw [pow2_eq, K_eq, ← pow_add]
  exact Nat.pow_le_pow_right (by norm_num) (by decide)

theorem ofNat_units (n : Nat) (hn : n < 2 ^ 53) : Dbl.ofNat n = ⟨((n * Dbl.K : Nat) : Int)⟩ := by
  unfold Dbl.ofNat Dbl.ofInt
  have hneg : ¬ ((n : Int) < 0) := by omega
  rw [if_neg hneg, Int.natAbs_ofNat, roundUnits_exact n hn]

theorem div_units (x y u : Nat) (hy : 0 < y) (hu : roundUnits (x * Dbl.K) y = u)
    (hov : u < Dbl.overflowUnits) :
    Dbl.div ⟨(x : Int)⟩ ⟨(y : Int)⟩ = some ⟨(u : Int)⟩ := by
  unfold Dbl.div Dbl.round
  simp only [Int.natAbs_ofNat]
  have hn1 : decide ((x : Int) < 0) = false := decide_eq_false (by omega)
  have hn2 : decide ((y : Int) < 0) = false := decide_eq_false (by omega)
  rw [if_neg (by omega), hu, hn1, hn2, if_neg (by omega)]
  rfl

theorem mul_units (x y u : Nat) (hu : roundUnits (x * y) Dbl.K = u)
    (hov : u < Dbl.overflowUnits) :
    Dbl.mul ⟨(x : Int)⟩ ⟨(y : Int)⟩ = some ⟨(u : Int)⟩ := by
  unfold Dbl.mul Dbl.round
  simp only [Int.natAbs_ofNat]
  have hn1 : decide ((x : Int) < 0) = false := decide_eq_false (by omega)
  have hn2 : decide ((y : Int) < 0) = false := decide_eq_false (by omega)
  have hK := K_pos
  rw [if_neg (by omega), hu, hn1, hn2, if_neg (by omega)]
  rfl

theorem toUInt64_units (u : Nat) (h : u / Dbl.K < 2 ^ 64) :
    Dbl.toUInt64 ⟨(u : Int)⟩ = some (u / Dbl.K) := by
  unfold Dbl.toUInt64 Dbl.trunc
  simp only [Int.natAbs_ofNat]
  have hn : ¬ ((u : Int) < 0) := by omega
  rw [if_neg hn, if_pos ⟨Int.ofNat_nonneg _, by exact_mod_cast h⟩]
  simp only [Int.toNat_ofNat]

theorem srpstoclaimOf_of (s : Nat) (a : Int) (t : Nat) (d1 d2 : Dbl) (n : Nat)
    (h1 : Dbl.div (Dbl.ofInt a) (Dbl.ofNat t) = some d1)
    (h2 : Dbl.mul (Dbl.ofNat s) d1 = some d2) (h3 : Dbl.toUInt64 d2 = some n) :
    srpstoclaimOf s a t = Except.ok n := by
  unfold srpstoclaimOf
  simp only [h1, h2, h3, finite, ok_bind, lookup_some]

/-- The two rounded values behind the SRPs to claim: the quotient `amount / staked` and
the product of the SRPs with it, in units. -/
theorem srpstoclaimOf_eval (s a t : Nat) (ha : 0 < a) (hat : a ≤ t) (ht : t < 2 ^ 53)
    (hs : s < 2 ^ 52) :
    ∃ u1 u2 : Nat,
      srpstoclaimOf s (a : Int) t = Except.ok (u2 / Dbl.K) ∧
      2 ^ 53 * (u1 * t) ≤ (2 ^ 53 + 1) * (a * Dbl.K) ∧
      (2 ^ 53 - 1) * (a * Dbl.K) ≤ 2 ^ 53 * (u1 * t) ∧
      2 ^ 53 * u2 ≤ (2 ^ 53 + 1) * (s * u1) ∧
      (2 ^ 53 - 1) * (s * u1) ≤ 2 ^ 53 * u2 := by
  have hK := K_pos
  have hKge := K_ge
  have htpos : 0 < t := lt_of_lt_of_le ha hat
  -- the quotient
  have hq1 : 0 < t * Dbl.K := Nat.mul_pos htpos hK
  have hp1 : 2 ^ 52 * (t * Dbl.K) ≤ a * Dbl.K * Dbl.K := by
    have h1 : 2 ^ 52 * t ≤ a * Dbl.K := by
      calc 2 ^ 52 * t ≤ 2 ^ 52 * 2 ^ 53 := Nat.mul_le_mul_left _ (le_of_lt ht)
        _ ≤ 2 ^ 110 := by norm_num
        _ ≤ Dbl.K := hKge
        _ ≤ a * Dbl.K := Nat.le_mul_of_pos_left _ ha
    calc 2 ^ 52 * (t * Dbl.K) = (2 ^ 52 * t) * Dbl.K := by ring
      _ ≤ (a * Dbl.K) * Dbl.K := Nat.mul_le_mul_right _ h1
  obtain ⟨r1a, r1b⟩ := roundUnits_rel _ _ hq1 hp1
  generalize hu1 : roundUnits (a * Dbl.K * Dbl.K) (t * Dbl.K) = u1 at r1a r1b
  have e1a : 2 ^ 53 * (u1 * t) ≤ (2 ^ 53 + 1) * (a * Dbl.K) := by
    have : (2 ^ 53 * (u1 * t)) * Dbl.K ≤ ((2 ^ 53 + 1) * (a * Dbl.K)) * Dbl.K := by
      calc (2 ^ 53 * (u1 * t)) * Dbl.K = 2 ^ 53 * (u1 * (t * Dbl.K)) := by ring
        _ ≤ (2 ^ 53 + 1) * (a * Dbl.K * Dbl.K) := r1a
        _ = ((2 ^ 53 + 1) * (a * Dbl.K)) * Dbl.K := by ring
    exact Nat.le_of_mul_le_mul_right this hK
  have e1b : (2 ^ 53 - 1) * (a * Dbl.K) ≤ 2 ^ 53 * (u1 * t) := by
    have : ((2 ^ 53 - 1) * (a * Dbl.K)) * Dbl.K ≤ (2 ^ 53 * (u1 * t)) * Dbl.K := by
      calc ((2 ^ 53 - 1) * (a * Dbl.K)) * Dbl.K = (2 ^ 53 - 1) * (a * Dbl.K * Dbl.K) := by ring
        _ ≤ 2 ^ 53 * (u1 * (t * Dbl.K)) := r1b
        _ = (2 ^ 53 * (u1 * t)) * Dbl.K := by ring
    exact Nat.le_of_mul_le_mul_right this hK
  -- bounds on the quotient
  have hu1le : u1 ≤ 2 * Dbl.K := by
    have h1 : 2 ^ 53 * (u1 * t) ≤ (2 ^ 53 + 1) * (t * Dbl.K) :=
      le_trans e1a (Nat.mul_le_mul_left _ (Nat.mul_le_mul_right _ hat))
    have h2 : (2 ^ 53 * u1) * t ≤ ((2 ^ 53 + 1) * Dbl.K) * t := by
      calc (2 ^ 53 * u1) * t = 2 ^ 53 * (u1 * t) := by ring
        _ ≤ (2 ^ 53 + 1) * (t * Dbl.K) := h1
        _ = ((2 ^ 53 + 1) * Dbl.K) * t := by ring
    have h3 := Nat.le_of_mul_le_mul_right h2 htpos
    omega
  have hu1ge : 2 ^ 52 ≤ u1 := by
    by_contra hlt
    have hlt' : u1 < 2 ^ 52 := by omega
    have h1 : u1 * t ≤ 2 ^ 52 * 2 ^ 53 :=
      Nat.mul_le_mul (le_of_lt hlt') (le_of_lt ht)
    have h2 : Dbl.K ≤ a * Dbl.K := Nat.le_mul_of_pos_left _ ha
    omega
  -- the product
  have hprod : ∃ u2, roundUnits (s * Dbl.K * u1) Dbl.K = u2 ∧
      2 ^ 53 * u2 ≤ (2 ^ 53 + 1) * (s * u1) ∧ (2 ^ 53 - 1) * (s * u1) ≤ 2 ^ 53 * u2 := by
    rcases Nat.eq_zero_or_pos s with hs0 | hspos
    · subst hs0
      refine ⟨0, ?_, by simp, by simp⟩
      rw [Nat.zero_mul, Nat.zero_mul, roundUnits_zero]
    · have hp2 : 2 ^ 52 * Dbl.K ≤ s * Dbl.K * u1 := by
        have : 2 ^ 52 ≤ s * u1 := le_trans hu1ge (Nat.le_mul_of_pos_left _ hspos)
        calc 2 ^ 52 * Dbl.K ≤ (s * u1) * Dbl.K := Nat.mul_le_mul_right _ this
          _ = s * Dbl.K * u1 := by ring
      obtain ⟨r2a, r2b⟩ := roundUnits_rel _ _ hK hp2
      generalize roundUnits (s * Dbl.K * u1) Dbl.K = u2 at r2a r2b ⊢
      refine ⟨u2, rfl, ?_, ?_⟩
      · have : (2 ^ 53 * u2) * Dbl.K ≤ ((2 ^ 53 + 1) * (s * u1)) * Dbl.K := by
          calc (2 ^ 53 * u2) * Dbl.K = 2 ^ 53 * (u2 * Dbl.K) := by ring
            _ ≤ (2 ^ 53 + 1) * (s * Dbl.K * u1) := r2a
            _ = ((2 ^ 53 + 1) * (s * u1)) * Dbl.K := by ring
        exact Nat.le_of_mul_le_mul_right this hK
      · have : ((2 ^ 53 - 1) * (s * u1)) * Dbl.K ≤ (2 ^ 53 * u2) * Dbl.K := by
          calc ((2 ^ 53 - 1) * (s * u1)) * Dbl.K = (2 ^ 53 - 1) * (s * Dbl.K * u1) := by ring
            _ ≤ 2 ^ 53 * (u2 * Dbl.K) := r2b
            _ = (2 ^ 53 * u2) * Dbl.K := by ring
        exact Nat.le_of_mul_le_mul_right this hK
  obtain ⟨u2, hu2, e2a, e2b⟩ := hprod
  have hsu : s * u1 ≤ 2 ^ 52 * (2 * Dbl.K) := Nat.mul_le_mul (le_of_lt hs) hu1le
  have hu2le : u2 ≤ 2 ^ 54 * Dbl.K := by omega
  have hovf := overflowUnits_ge
  refine ⟨u1, u2, ?_, e1a, e1b, e2a, e2b⟩
  have hdiv : Dbl.div (Dbl.ofInt (a : Int)) (Dbl.ofNat t) = some ⟨(u1 : Int)⟩ := by
    have hofa : Dbl.ofInt (a : Int) = ⟨((a * Dbl.K : Nat) : Int)⟩ := ofNat_units a (by omega)
    rw [hofa, ofNat_units t ht]
    exact div_units _ _ _ (by omega) hu1 (by omega)
  have hmul : Dbl.mul (Dbl.ofNat s) ⟨(u1 : Int)⟩ = some ⟨(u2 : Int)⟩ := by
    rw [ofNat_units s (by omega)]
    exact mul_units _ _ _ hu2 (by omega)
  have htr : Dbl.toUInt64 ⟨(u2 : Int)⟩ = some (u2 / Dbl.K) := by
    apply toUInt64_units
    have : u2 < 2 ^ 64 * Dbl.K := by omega
    exact (Nat.div_lt_iff_lt_mul hK).2 this
  exact srpstoclaimOf_of _ _ _ _ _ _ hdiv hmul htr

/-! ## Unstake: the SRPs to claim -/

/-- The double-precision value of `srps * (amount / staked)` is within one of the exact
quotient `srps * amount / staked`. -/
theorem srpstoclaimOf_near (s a t : Nat) (ha : 0 < a) (hat : a ≤ t) (ht : t < 2 ^ 53)
    (hs : s < 2 ^ 52) :
    ∃ c, srpstoclaimOf s (a : Int) t = Except.ok c ∧
      c ≤ s * a / t + 1 ∧ s * a / t ≤ c + 1 := by
  obtain ⟨u1, u2, hrun, e1a, e1b, e2a, e2b⟩ := srpstoclaimOf_eval s a t ha hat ht hs
  refine ⟨u2 / Dbl.K, hrun, ?_, ?_⟩
  all_goals
    have hK := K_pos
    have htpos : 0 < t := lt_of_lt_of_le ha hat
    have hY : 0 < t * Dbl.K := Nat.mul_pos htpos hK
    -- the rounding bounds, multiplied out
    have f1 : 2 ^ 53 * (u2 * t) ≤ (2 ^ 53 + 1) * (s * (u1 * t)) := by
      calc 2 ^ 53 * (u2 * t) = (2 ^ 53 * u2) * t := by ring
        _ ≤ ((2 ^ 53 + 1) * (s * u1)) * t := Nat.mul_le_mul_right _ e2a
        _ = (2 ^ 53 + 1) * (s * (u1 * t)) := by ring
    have f2 : 2 ^ 53 * (s * (u1 * t)) ≤ (2 ^ 53 + 1) * (s * (a * Dbl.K)) := by
      calc 2 ^ 53 * (s * (u1 * t)) = s * (2 ^ 53 * (u1 * t)) := by ring
        _ ≤ s * ((2 ^ 53 + 1) * (a * Dbl.K)) := Nat.mul_le_mul_left _ e1a
        _ = (2 ^ 53 + 1) * (s * (a * Dbl.K)) := by ring
    have f3 : (2 ^ 53 - 1) * (s * (u1 * t)) ≤ 2 ^ 53 * (u2 * t) := by
      calc (2 ^ 53 - 1) * (s * (u1 * t)) = ((2 ^ 53 - 1) * (s * u1)) * t := by ring
        _ ≤ (2 ^ 53 * u2) * t := Nat.mul_le_mul_right _ e2b
        _ = 2 ^ 53 * (u2 * t) := by ring
    have f4 : (2 ^ 53 - 1) * (s * (a * Dbl.K)) ≤ 2 ^ 53 * (s * (u1 * t)) := by
      calc (2 ^ 53 - 1) * (s * (a * Dbl.K)) = s * ((2 ^ 53 - 1) * (a * Dbl.K)) := by ring
        _ ≤ s * (2 ^ 53 * (u1 * t)) := Nat.mul_le_mul_left _ e1b
        _ = 2 ^ 53 * (s * (u1 * t)) := by ring
    have f5 : s * (a * Dbl.K) ≤ s * (t * Dbl.K) :=
      Nat.mul_le_mul_left _ (Nat.mul_le_mul_right _ hat)
    have f6 : (2 ^ 54 + 1) * (s * (t * Dbl.K)) + t * Dbl.K ≤ 2 ^ 106 * (t * Dbl.K) := by
      have : (2 ^ 54 + 1) * s + 1 ≤ 2 ^ 106 := by omega
      calc (2 ^ 54 + 1) * (s * (t * Dbl.K)) + t * Dbl.K
          = ((2 ^ 54 + 1) * s + 1) * (t * Dbl.K) := by ring
        _ ≤ 2 ^ 106 * (t * Dbl.K) := Nat.mul_le_mul_right _ this
    -- the two integer parts
    have hc1 : u2 / Dbl.K * Dbl.K ≤ u2 := Nat.div_mul_le_self _ _
    have hc2 : u2 < (u2 / Dbl.K + 1) * Dbl.K := by
      have := Nat.div_add_mod u2 Dbl.K
      have hm := Nat.mod_lt u2 hK
      calc u2 = Dbl.K * (u2 / Dbl.K) + u2 % Dbl.K := this.symm
        _ < Dbl.K * (u2 / Dbl.K) + Dbl.K := Nat.add_lt_add_left hm _
        _ = (u2 / Dbl.K + 1) * Dbl.K := by ring
    have hf1 : s * a / t * t ≤ s * a := Nat.div_mul_le_self _ _
    have hf2 : s * a < (s * a / t + 1) * t := by
      have := Nat.div_add_mod (s * a) t
      have hm := Nat.mod_lt (s * a) htpos
      calc s * a = t * (s * a / t) + s * a % t := this.symm
        _ < t * (s * a / t) + t := Nat.add_lt_add_left hm _
        _ = (s * a / t + 1) * t := by ring
    generalize u2 / Dbl.K = c at hc1 hc2 ⊢
    generalize s * a / t = f at hf1 hf2 ⊢
    -- the exact and the rounded product differ by less than one (times `t * K`)
    have hU : u2 * t < s * (a * Dbl.K) + t * Dbl.K := by
      generalize u2 * t = X1 at f1 f3 ⊢
      generalize s * (u1 * t) = X2 at f1 f2 f3 f4
      generalize s * (a * Dbl.K) = X3 at f2 f4 f5 ⊢
      generalize s * (t * Dbl.K) = X4 at f5 f6
      generalize t * Dbl.K = Y at f6 hY ⊢
      omega
    have hL : s * (a * Dbl.K) < u2 * t + t * Dbl.K := by
      generalize u2 * t = X1 at f1 f3 ⊢
      generalize s * (u1 * t) = X2 at f1 f2 f3 f4
      generalize s * (a * Dbl.K) = X3 at f2 f4 f5 ⊢
      generalize s * (t * Dbl.K) = X4 at f5 f6
      generalize t * Dbl.K = Y at f6 hY ⊢
      omega
    by_contra hcon
  · have hcf : f + 2 ≤ c := by omega
    have g1 : c * (t * Dbl.K) ≤ u2 * t := by
      calc c * (t * Dbl.K) = (c * Dbl.K) * t := by ring
        _ ≤ u2 * t := Nat.mul_le_mul_right _ hc1
    have g2 : f * (t * Dbl.K) + 2 * (t * Dbl.K) ≤ c * (t * Dbl.K) := by
      calc f * (t * Dbl.K) + 2 * (t * Dbl.K) = (f + 2) * (t * Dbl.K) := by ring
        _ ≤ c * (t * Dbl.K) := Nat.mul_le_mul_right _ hcf
    have g3 : s * (a * Dbl.K) + Dbl.K ≤ f * (t * Dbl.K) + t * Dbl.K := by
      calc s * (a * Dbl.K) + Dbl.K = (s * a + 1) * Dbl.K := by ring
        _ ≤ ((f + 1) * t) * Dbl.K := Nat.mul_le_mul_right _ hf2
        _ = f * (t * Dbl.K) + t * Dbl.K := by ring
    generalize u2 * t = X1 at hU g1
    generalize s * (a * Dbl.K) = X3 at hU g3
    generalize c * (t * Dbl.K) = CY at g1 g2
    generalize f * (t * Dbl.K) = FY at g2 g3
    generalize t * Dbl.K = Y at hU g2 g3
    omega
  · have hcf : c + 2 ≤ f := by omega
    have g1 : u2 * t + t ≤ c * (t * Dbl.K) + t * Dbl.K := by
      calc u2 * t + t = (u2 + 1) * t := by ring
        _ ≤ ((c + 1) * Dbl.K) * t := Nat.mul_le_mul_right _ hc2
        _ = c * (t * Dbl.K) + t * Dbl.K := by ring
    have g2 : c * (t * Dbl.K) + 2 * (t * Dbl.K) ≤ f * (t * Dbl.K) := by
      calc c * (t * Dbl.K) + 2 * (t * Dbl.K) = (c + 2) * (t * Dbl.K) := by ring
        _ ≤ f * (t * Dbl.K) := Nat.mul_le_mul_right _ hcf
    have g3 : f * (t * Dbl.K) ≤ s * (a * Dbl.K) := by
      calc f * (t * Dbl.K) = (f * t) * Dbl.K := by ring
        _ ≤ (s * a) * Dbl.K := Nat.mul_le_mul_right _ hf1
        _ = s * (a * Dbl.K) := by ring
    generalize u2 * t = X1 at hL g1
    generalize s * (a * Dbl.K) = X3 at hL g3
    generalize c * (t * Dbl.K) = CY at g1 g2
    generalize f * (t * Dbl.K) = FY at g2 g3
    generalize t * Dbl.K = Y at hL g1 g2
    omega

/-- C3 (amended): the SRPs to claim are computed in double precision, as the integer part
of `total_srp * (amount / total_staked_fio)` with each operation rounded to nearest; for
`0 < amount ≤ total_staked_fio < 2 ^ 53` and `total_srp < 2 ^ 52` the result exists,
differs from `floor(total_srp * amount / total_staked_fio)` by at most one, satisfies
`srpstoclaim * total_staked_fio ≤ total_srp * amount + total_staked_fio`, and is the value
a successful unstake records for the caller's pre-state row. -/
theorem unstakefio_srpstoclaim_double_precision (s a t : Nat) (ha : 0 < a) (hat : a ≤ t)
    (ht : t < 2 ^ 53) (hs : s < 2 ^ 52) :
    ∃ c, srpstoclaimOf s (a : Int) t = Except.ok c ∧
      c ≤ s * a / t + 1 ∧ s * a / t ≤ c + 1 ∧ c * t ≤ s * a + t ∧
      ∀ (cfg : Config) (ch : Chain) (g : global_staking_state)
        (rows : List account_staking_info) (fio_address : String) (max_fee : Int)
        (tpid : String) (actor : Nat) (row : account_staking_info) (out : UnstakeOutcome),
        findByAccount rows actor = some row → row.total_srp = s → row.total_staked_fio = t →
        unstakefio cfg ch g rows fio_address (a : Int) max_fee tpid actor = Except.ok out →
        out.srpstoclaim = c := by
  obtain ⟨c, hc, h1, h2⟩ := srpstoclaimOf_near s a t ha hat ht hs
  refine ⟨c, hc, h1, h2, ?_, ?_⟩
  · have htpos : 0 < t := lt_of_lt_of_le ha hat
    have hf : s * a / t * t ≤ s * a := Nat.div_mul_le_self _ _
    calc c * t ≤ (s * a / t + 1) * t := Nat.mul_le_mul_right _ h1
      _ = s * a / t * t + t := by ring
      _ ≤ s * a + t := Nat.add_le_add_right hf _
  · intro cfg ch g rows fio_address max_fee tpid actor row out hrow hsrp hstaked hout
    obtain ⟨row1, -, -, -, hrow1, -, hcalc, -⟩ := unstakefio_inv _ _ _ _ _ _ _ _ _ _ hout
    rw [hrow] at hrow1
    cases hrow1
    rw [hsrp, hstaked, hc] at hcalc
    exact (Except.ok.inj hcalc).symm

/-- Half of a row of 1,000,000 staked units and 1,000,000 SRPs: 500,000 SRPs to claim. -/
theorem unstakefio_srpstoclaim_double_precision_witness :
    srpstoclaimOf 1000000 500000 1000000 = Except.ok 500000 ∧
    500000 ≤ 1000000 * 500000 / 1000000 + 1 := by
  obtain ⟨c, hc, h1, -⟩ := unstakefio_srpstoclaim_double_precision 1000000 500000 1000000
    (by decide) (by decide) (by decide) (by decide)
  have hrun : srpstoclaimOf 1000000 ((500000 : Nat) : Int) 1000000 = Except.ok 500000 := by rfl
  rw [hrun] at hc
  have hc' : c = 500000 := (Except.ok.inj hc).symm
  subst hc'
  exact ⟨hrun, h1⟩

/-- C3 as stated fails: with 90 SRPs, 10 staked and 7 withdrawn the code claims 62 SRPs,
not `floor(90 * 7 / 10) = 63`; and a rounding upward lets the claimed fraction of SRPs
exceed the withdrawn fraction of the principal. -/
theorem unstakefio_srpstoclaim_not_floor :
    srpstoclaimOf 90 7 10 = Except.ok 62 ∧ 90 * 7 / 10 = 63 ∧
    srpstoclaimOf 536249171051041 173745784031473 734087179402654 =
      Except.ok 126920937015010 ∧
    536249171051041 * 173745784031473 < 126920937015010 * 734087179402654 := by
  refine ⟨by rfl, by decide, by rfl, by decide⟩

/-! ## Unstake: the merge into an existing lock -/

set_option maxRecDepth 20000 in
/-- C8 fails on the code: merging 596,854 units, 98 seconds after its creation, into a lock
of 140,892 units with the single period (seven days, 100 percent) sends the periods
19.097 and 80.902 percent, which add up to 99.999 and not to 100; and a merge in the very
second the lock was created indexes the new period vector out of range. -/
theorem mergePeriods_sum_not_100 :
    mergePeriods 98 lockSingleLarge 0 596854 =
      Except.ok [⟨604800, milli 19097⟩, ⟨604898, milli 80902⟩] ∧
    ascendingByDuration lockSingleLarge.periods ∧
    percentSum lockSingleLarge.periods = some (Dbl.ofNat 100) ∧
    percentSum [⟨604800, milli 19097⟩, ⟨604898, milli 80902⟩] = some (milli 99999) ∧
    milli 99999 ≠ Dbl.ofNat 100 ∧
    mergePeriods 0 lockSingleLarge 0 596854 =
      Except.error (Abort.undefined "newperiods[insertindex - 1] is out of range") := by
  refine ⟨by rfl, ?_, by rfl, by rfl, by decide, by rfl⟩
  unfold ascendingByDuration lockSingleLarge
  simp

set_option maxRecDepth 20000 in
/-- C9 fails on the code: in the specification's own example (a single period of seven
days and 100 percent, old amount 100, added 50, merged in the second of the lock's
creation) the code indexes `newperiods[-2]`, also when reached through `unstakefio`; and
with three periods of which the first matches, the remainder goes to the second period
while the matching one stays at its scaled 20 percent. -/
theorem mergePeriods_fold_wrong_index :
    insertperiodOf 0 lockSingle.timestamp = 604800 ∧
    mergePeriods 0 lockSingle 0 50 =
      Except.error (Abort.undefined "newperiods[insertindex - 1] is out of range") ∧
    mergePeriods 0 lockThree 0 50 =
      Except.ok [⟨604800, milli 20000⟩, ⟨700000, milli 53334⟩, ⟨800000, milli 26666⟩] ∧
    unstakefio exampleConfig exampleChainLocked exampleSmall [exampleRow] "" 50 3000000000 ""
      100 = Except.error (Abort.undefined "newperiods[insertindex - 1] is out of range") := by
  refine ⟨by rfl, by rfl, by rfl, by rfl⟩

set_option maxRecDepth 20000 in
/-- C10 fails on the code: with two existing periods that both lie later than the new
one, the new period is put before the last of them, not before the first, and the list
sent is no longer ascending. -/
theorem mergePeriods_insert_not_ascending :
    ascendingByDuration lockTwoLate.periods ∧
    insertperiodOf 0 lockTwoLate.timestamp = 604800 ∧
    mergePeriods 0 lockTwoLate 0 50 =
      Except.ok [⟨700000, milli 33333⟩, ⟨604800, milli 33334⟩, ⟨800000, milli 33333⟩] ∧
    ¬ ascendingByDuration
      [⟨700000, milli 33333⟩, ⟨604800, milli 33334⟩, ⟨800000, milli 33333⟩] := by
  refine ⟨?_, by rfl, by rfl, ?_⟩
  · unfold ascendingByDuration lockTwoLate
    simp
  · unfold ascendingByDuration
    simp

/-! ## The fee, the messages and the checks of a successful action -/

/-- What the address block of `stakefio` and `unstakefio` returns when it succeeds. -/
theorem bundle_block_ok (ch : Chain) (fio_address : String) (actor bundle : Nat)
    (h : (if fio_address ≠ "" then (do
        let fioname_iter ← lookup (ch.fionames fio_address)
          (Abort.fio_400 "fio_address" "FIO Address not registered")
        fio_403_assert (fioname_iter.owner_account == actor)
        fio_400_assert (decide (ch.now ≤ fioname_iter.expiration))
          "fio_address" "FIO Address expired. Renew first."
        pure fioname_iter.bundleeligiblecountdown)
      else pure 0 : Except Abort Nat) = Except.ok bundle) :
    (fio_address = "" ∧ bundle = 0) ∨
    (fio_address ≠ "" ∧ ∃ n, ch.fionames fio_address = some n ∧ n.owner_account = actor ∧
      ch.now ≤ n.expiration ∧ bundle = n.bundleeligiblecountdown) := by
  by_cases h0 : fio_address = ""
  · left
    rw [if_neg (by simpa using h0), pure_ok] at h
    exact ⟨h0, h.symm⟩
  · right
    rw [if_pos h0] at h
    simp only [bind_ok_iff, lookup_ok, fio_403_assert_ok, fio_400_assert_ok, pure_ok,
      exists_and_left, exists_eq_left, beq_iff_eq, decide_eq_true_eq] at h
    obtain ⟨n, hn, hown, hexp, -, -, hb⟩ := h
    exact ⟨h0, n, hn, hown, hexp, hb.symm⟩

/-- What the fee block returns when it succeeds: nothing to pay and one bundle credit
spent, or the scheduled fee, which the supplied maximum must cover. -/
theorem fee_block_ok (fio_address endpoint tpid : String) (max_fee : Int) (actor bundle : Nat)
    (fee_iter : fiofee) (fee : Nat × List Action)
    (h : (if bundle > 0 then
        pure ((0 : Nat), [Action.decrcounter fio_address 1])
      else (do
        fio_400_assert (decide (max_fee ≥ toI64 fee_iter.suf_amount))
          "max_fee" "Fee exceeds supplied maximum."
        pure (fee_iter.suf_amount,
          [Action.fio_fees actor (toI64 fee_iter.suf_amount) endpoint,
           Action.process_rewards tpid (toI64 fee_iter.suf_amount) actor] ++
          (if toI64 fee_iter.suf_amount > 0 then [Action.updatepower actor true] else [])))
        : Except Abort (Nat × List Action)) = Except.ok fee) :
    (0 < bundle ∧ fee = (0, [Action.decrcounter fio_address 1])) ∨
    (bundle = 0 ∧ toI64 fee_iter.suf_amount ≤ max_fee ∧
      fee = (fee_iter.suf_amount,
        [Action.fio_fees actor (toI64 fee_iter.suf_amount) endpoint,
         Action.process_rewards tpid (toI64 fee_iter.suf_amount) actor] ++
        (if toI64 fee_iter.suf_amount > 0 then [Action.updatepower actor true] else []))) := by
  by_cases hb : bundle > 0
  · left
    rw [if_pos hb, pure_ok] at h
    exact ⟨hb, h.symm⟩
  · right
    rw [if_neg hb] at h
    simp only [bind_ok_iff, fio_400_assert_ok, pure_ok, exists_and_left, exists_eq_left,
      decide_eq_true_eq] at h
    obtain ⟨hmax, -, hfee⟩ := h
    exact ⟨by omega, hmax, hfee.symm⟩

/-- The fee side, the tpid payment, the lock message and the message list of a successful
`unstakefio`. -/
theorem unstakefio_actions_inv (cfg : Config) (ch : Chain) (g : global_staking_state)
    (rows : List account_staking_info) (fio_address : String) (amount max_fee : Int)
    (tpid : String) (actor : Nat) (out : UnstakeOutcome)
    (h : unstakefio cfg ch g rows fio_address amount max_fee tpid actor = Except.ok out) :
    ∃ (bundle : Nat) (fee_iter : fiofee) (feeActions paidActions lockActions : List Action),
      ((fio_address = "" ∧ bundle = 0) ∨
        (fio_address ≠ "" ∧ ∃ n, ch.fionames fio_address = some n ∧ n.owner_account = actor ∧
          ch.now ≤ n.expiration ∧ bundle = n.bundleeligiblecountdown)) ∧
      ch.fiofees cfg.UNSTAKE_FIO_TOKENS_ENDPOINT = some fee_iter ∧ fee_iter.type = 1 ∧
      ((0 < bundle ∧ out.paid_fee_amount = 0 ∧
          feeActions = [Action.decrcounter fio_address 1]) ∨
        (bundle = 0 ∧ toI64 fee_iter.suf_amount ≤ max_fee ∧
          out.paid_fee_amount = fee_iter.suf_amount ∧
          feeActions =
            [Action.fio_fees actor (toI64 fee_iter.suf_amount) cfg.UNSTAKE_FIO_TOKENS_ENDPOINT,
             Action.process_rewards tpid (toI64 fee_iter.suf_amount) actor] ++
            (if toI64 fee_iter.suf_amount > 0 then [Action.updatepower actor true] else []))) ∧
      wrap64 (out.paid_fee_amount + toU64 amount) ≤ ch.computeusablebalance actor ∧
      ((0 < tpid.length ∧ 0 < out.tpidrewardamount ∧
          (∃ n, ch.fionames tpid = some n ∧ ch.now ≤ n.expiration) ∧
          paidActions = [Action.updatetpid tpid actor out.tpidrewardamount]) ∨
        (¬ (0 < tpid.length ∧ 0 < out.tpidrewardamount) ∧ paidActions = [])) ∧
      ((∃ lockiter newperiods, ch.generallocks actor = some lockiter ∧
          mergePeriods ch.now lockiter out.stakingrewardamount amount = Except.ok newperiods ∧
          lockActions = [Action.modgenlocked actor newperiods
            (toI64 (wrap64 (toU64 lockiter.lock_amount +
              wrap64 (out.stakingrewardamount + toU64 amount))))
            (toI64 (wrap64 (toU64 lockiter.remaining_lock_amount +
              wrap64 (out.stakingrewardamount + toU64 amount))))]) ∨
        (ch.generallocks actor = none ∧
          lockActions = [Action.addgenlocked actor
            [{ duration := 604800, percent := Dbl.ofNat 100 }] true
            (toI64 (wrap64 (out.stakingrewardamount + toU64 amount)))])) ∧
      ch.transaction_size ≤ cfg.MAX_TRX_SIZE ∧
      out.actions = feeActions ++
        (if cfg.UNSTAKEFIOTOKENSRAM > 0 then [Action.incram actor cfg.UNSTAKEFIOTOKENSRAM]
          else []) ++
        (if out.stakingrewardamount > 0 then [Action.paystake actor out.stakingrewardamount]
          else []) ++
        paidActions ++ lockActions ++ [Action.send_response out.paid_fee_amount] := by
  simp only [unstakefio, bind_ok_iff, fio_400_assert_ok, fio_403_assert_ok, eosio_assert_ok,
    require_auth_ok, lookup_ok, pure_ok, exists_and_left, exists_eq_left] at h
  obtain ⟨-, -, -, -, -, -, -, -, -, -, bundle, hbundle, row, -, -, -, -, -, fee_iter,
    hfee_iter, htype, -, fee, hfee, hbal, -, srp, -, rate, -, -, -, -, -, -, -,
    -, -, -, -, -, -, paid, hpaid, lock, hlock, htrx, -, hout⟩ := h
  subst hout
  simp only [decide_eq_true_eq, beq_iff_eq] at hbal htrx htype
  refine ⟨bundle, fee_iter, fee.2, paid.2, lock, bundle_block_ok _ _ _ _ hbundle, hfee_iter,
    htype, ?_, hbal, ?_, ?_, htrx, rfl⟩
  · rcases fee_block_ok _ _ _ _ _ _ _ _ hfee with ⟨hb, hf⟩ | ⟨hb, hmax, hf⟩
    · left
      subst hf
      exact ⟨hb, rfl, rfl⟩
    · right
      subst hf
      exact ⟨hb, hmax, rfl, rfl⟩
  · simp only
    split at hpaid
    · rename_i hc
      left
      simp only [bind_ok_iff, lookup_ok, fio_400_assert_ok, pure_ok, exists_and_left,
        exists_eq_left, decide_eq_true_eq] at hpaid
      obtain ⟨n, hn, hexp, -, hp⟩ := hpaid
      subst hp
      exact ⟨hc.1, hc.2, ⟨n, hn, hexp⟩, rfl⟩
    · rename_i hc
      right
      rw [pure_ok] at hpaid
      subst hpaid
      exact ⟨hc, rfl⟩
  · simp only
    cases hl : ch.generallocks actor with
    | none =>
      right
      rw [hl] at hlock
      simp only [pure_ok] at hlock
      exact ⟨rfl, hlock.symm⟩
    | some lockiter =>
      left
      rw [hl] at hlock
      simp only [bind_ok_iff, pure_ok, exists_and_left, exists_eq_left] at hlock
      obtain ⟨newperiods, hm, hl2⟩ := hlock
      exact ⟨lockiter, newperiods, rfl, hm, hl2.symm⟩

/-- The pool counters after a successful `unstakefio`, with the wrap-around removed. -/
theorem unstakefio_global (cfg : Config) (ch : Chain) (g : global_staking_state)
    (rows : List account_staking_info) (fio_address : String) (amount max_fee : Int)
    (tpid : String) (actor : Nat) (out : UnstakeOutcome)
    (h : unstakefio cfg ch g rows fio_address amount max_fee tpid actor = Except.ok out)
    (ha : amount < 2 ^ 63) (hg : g.fits) :
    amount.toNat + out.stakingrewardamount ≤ g.combined_token_pool ∧
    amount.toNat ≤ g.staked_token_pool ∧
    out.srpstoclaim ≤ g.global_srp_count ∧
    out.gstaking.staked_token_pool = g.staked_token_pool - amount.toNat ∧
    out.gstaking.global_srp_count = g.global_srp_count - out.srpstoclaim ∧
    out.gstaking.rewards_token_pool = g.rewards_token_pool ∧
    out.gstaking.daily_staking_rewards = g.daily_staking_rewards ∧
    out.gstaking.staking_rewards_reserves_minted = g.staking_rewards_reserves_minted ∧
    out.gstaking.combined_token_pool =
      (if 0 < tpid.length ∧ 0 < out.tpidrewardamount ∧
          out.tpidrewardamount ≤
            g.combined_token_pool - (amount.toNat + out.stakingrewardamount) then
        g.combined_token_pool - (amount.toNat + out.stakingrewardamount) -
          out.tpidrewardamount
      else g.combined_token_pool - (amount.toNat + out.stakingrewardamount)) := by
  obtain ⟨hg1, hg2, -, hg4, -, -⟩ := hg
  obtain ⟨hUn, hpos, hge, hprod, htot, hstk, htp⟩ :=
    unstakefio_reward _ _ _ _ _ _ _ _ _ _ h ha hg2
  obtain ⟨row, paidActions, -, -, hrow, hstaked, -, -, -, -, -, -, hsrple, hpool, hsp, hgl,
    htable, hpaid⟩ := unstakefio_inv _ _ _ _ _ _ _ _ _ _ h
  rw [hUn] at hpool hsp hpaid
  have hsum : amount.toNat + out.stakingrewardamount < 2 ^ 64 := by omega
  have hw : wrap64 (amount.toNat + out.stakingrewardamount) =
      amount.toNat + out.stakingrewardamount := Nat.mod_eq_of_lt hsum
  rw [hw] at hpool hpaid
  have hc1 : sub64 g.combined_token_pool (amount.toNat + out.stakingrewardamount) =
      g.combined_token_pool - (amount.toNat + out.stakingrewardamount) :=
    sub64_of_le _ _ hg2 hpool
  have hs1 : sub64 g.staked_token_pool amount.toNat = g.staked_token_pool - amount.toNat :=
    sub64_of_le _ _ hg1 hsp
  have hq1 : sub64 g.global_srp_count out.srpstoclaim =
      g.global_srp_count - out.srpstoclaim := sub64_of_le _ _ hg4 hgl
  rw [hc1, hs1, hq1] at hpaid
  refine ⟨hpool, hsp, hgl, ?_⟩
  by_cases hc : tpid.length > 0 ∧ out.tpidrewardamount > 0
  · rw [if_pos hc] at hpaid
    simp only [bind_ok_iff, lookup_ok, fio_400_assert_ok, pure_ok, exists_and_left,
      exists_eq_left, decide_eq_true_eq] at hpaid
    obtain ⟨n, -, -, -, hp⟩ := hpaid
    have hgs := (congrArg Prod.fst hp).symm
    simp only at hgs
    by_cases hle : out.tpidrewardamount ≤
        g.combined_token_pool - (amount.toNat + out.stakingrewardamount)
    · rw [if_pos hle] at hgs
      rw [if_pos ⟨hc.1, hc.2, hle⟩, hgs]
      exact ⟨rfl, rfl, rfl, rfl, rfl, sub64_of_le _ _ (by omega) hle⟩
    · rw [if_neg hle] at hgs
      rw [if_neg (fun hcc => hle hcc.2.2), hgs]
      exact ⟨rfl, rfl, rfl, rfl, rfl, rfl⟩
  · rw [if_neg hc, pure_ok] at hpaid
    have hgs := (congrArg Prod.fst hpaid).symm
    simp only at hgs
    rw [if_neg (fun hcc => hc ⟨hcc.1, hcc.2.1⟩), hgs]
    exact ⟨rfl, rfl, rfl, rfl, rfl, rfl⟩

/-- The update-tpid messages of a successful `unstakefio`: there is one exactly when the
tpid is not empty and the tpid reward is not zero, and it pays the tpid reward. -/
theorem unstakefio_updatetpid_mem (cfg : Config) (ch : Chain) (g : global_staking_state)
    (rows : List account_staking_info) (fio_address : String) (amount max_fee : Int)
    (tpid : String) (actor : Nat) (out : UnstakeOutcome)
    (h : unstakefio cfg ch g rows fio_address amount max_fee tpid actor = Except.ok out)
    (t : String) (owner amt : Nat) :
    Action.updatetpid t owner amt ∈ out.actions ↔
      (0 < tpid.length ∧ 0 < out.tpidrewardamount ∧ t = tpid ∧ owner = actor ∧
        amt = out.tpidrewardamount) := by
  obtain ⟨bundle, fee_iter, feeActions, paidActions, lockActions, -, -, -, hfee, -, hpaid,
    hlock, -, hact⟩ := unstakefio_actions_inv _ _ _ _ _ _ _ _ _ _ h
  rw [hact]
  rcases hfee with ⟨-, -, hf⟩ | ⟨-, -, -, hf⟩ <;>
  rcases hpaid with ⟨hp1, hp2, -, hp⟩ | ⟨hno, hp⟩ <;>
  rcases hlock with ⟨lockiter, newperiods, hl, -, hk⟩ | ⟨hl, hk⟩ <;>
  subst hf hp hk <;> split_ifs <;> simp <;> tauto

/-! ## Unstake without a general lock -/

/-- The amount a successful `unstakefio` locks: `stakingrewardamount + amount` is computed
without wrap-around and is no larger than the combined pool. -/
theorem unstakefio_locked_amount (cfg : Config) (ch : Chain) (g : global_staking_state)
    (rows : List account_staking_info) (fio_address : String) (amount max_fee : Int)
    (tpid : String) (actor : Nat) (out : UnstakeOutcome)
    (h : unstakefio cfg ch g rows fio_address amount max_fee tpid actor = Except.ok out)
    (ha : amount < 2 ^ 63) (hc : g.combined_token_pool < 2 ^ 64) :
    0 < amount ∧
    wrap64 (out.stakingrewardamount + toU64 amount) = out.stakingrewardamount + amount.toNat ∧
    out.stakingrewardamount + amount.toNat ≤ g.combined_token_pool := by
  obtain ⟨hUn, hpos, hge, hprod, htot, hstk, htp⟩ :=
    unstakefio_reward _ _ _ _ _ _ _ _ _ _ h ha hc
  obtain ⟨row, paidActions, -, -, -, -, -, -, -, -, -, -, -, hpool, -⟩ :=
    unstakefio_inv _ _ _ _ _ _ _ _ _ _ h
  rw [hUn] at hpool ⊢
  have hsum : amount.toNat + out.stakingrewardamount < 2 ^ 64 := by omega
  have hw : wrap64 (amount.toNat + out.stakingrewardamount) =
      amount.toNat + out.stakingrewardamount := Nat.mod_eq_of_lt hsum
  rw [hw] at hpool
  refine ⟨hpos, ?_, by omega⟩
  rw [Nat.add_comm, hw, Nat.add_comm]

/-- C14: on a successful unstake an update-tpid message is sent exactly when the tpid is
not empty and the tpid reward is positive; it then pays `tpidrewardamount` to the tpid, which
is a registered name that has not expired, and the combined pool, already lowered by
`amount + stakingrewardamount`, is lowered by the tpid reward as well exactly when the
reward does not exceed what is left; otherwise there is no message and no further
deduction. -/
theorem unstakefio_tpid_payment (cfg : Config) (ch : Chain) (g : global_staking_state)
    (rows : List account_staking_info) (fio_address : String) (amount max_fee : Int)
    (tpid : String) (actor : Nat) (out : UnstakeOutcome)
    (h : unstakefio cfg ch g rows fio_address amount max_fee tpid actor = Except.ok out)
    (ha : amount < 2 ^ 63) (hg : g.fits) :
    amount.toNat + out.stakingrewardamount ≤ g.combined_token_pool ∧
    ((∃ t owner amt, Action.updatetpid t owner amt ∈ out.actions) ↔
      (0 < tpid.length ∧ 0 < out.tpidrewardamount)) ∧
    (∀ t owner amt, Action.updatetpid t owner amt ∈ out.actions →
      t = tpid ∧ owner = actor ∧ amt = out.tpidrewardamount) ∧
    ((0 < tpid.length ∧ 0 < out.tpidrewardamount) →
      Action.updatetpid tpid actor out.tpidrewardamount ∈ out.actions ∧
      (∃ n, ch.fionames tpid = some n ∧ ch.now ≤ n.expiration) ∧
      (out.tpidrewardamount ≤
          g.combined_token_pool - (amount.toNat + out.stakingrewardamount) →
        out.gstaking.combined_token_pool =
          g.combined_token_pool - (amount.toNat + out.stakingrewardamount) -
            out.tpidrewardamount) ∧
      (g.combined_token_pool - (amount.toNat + out.stakingrewardamount) <
          out.tpidrewardamount →
        out.gstaking.combined_token_pool =
          g.combined_token_pool - (amount.toNat + out.stakingrewardamount))) ∧
    (¬ (0 < tpid.length ∧ 0 < out.tpidrewardamount) →
      out.gstaking.combined_token_pool =
        g.combined_token_pool - (amount.toNat + out.stakingrewardamount)) := by
  obtain ⟨hpool, -, -, -, -, -, -, -, hcomb⟩ :=
    unstakefio_global _ _ _ _ _ _ _ _ _ _ h ha hg
  obtain ⟨bundle, fee_iter, feeActions, paidActions, lockActions, -, -, -, -, -, hpaid,
    -, -, -⟩ := unstakefio_actions_inv _ _ _ _ _ _ _ _ _ _ h
  refine ⟨hpool, ?_, ?_, ?_, ?_⟩
  · constructor
    · rintro ⟨t, owner, amt, hm⟩
      rw [unstakefio_updatetpid_mem _ _ _ _ _ _ _ _ _ _ h] at hm
      exact ⟨hm.1, hm.2.1⟩
    · rintro ⟨h1, h2⟩
      exact ⟨tpid, actor, out.tpidrewardamount,
        (unstakefio_updatetpid_mem _ _ _ _ _ _ _ _ _ _ h _ _ _).2 ⟨h1, h2, rfl, rfl, rfl⟩⟩
  · intro t owner amt hm
    rw [unstakefio_updatetpid_mem _ _ _ _ _ _ _ _ _ _ h] at hm
    exact hm.2.2
  · rintro ⟨h1, h2⟩
    refine ⟨(unstakefio_updatetpid_mem _ _ _ _ _ _ _ _ _ _ h _ _ _).2 ⟨h1, h2, rfl, rfl, rfl⟩,
      ?_, ?_, ?_⟩
    · rcases hpaid with ⟨-, -, hn, -⟩ | ⟨hno, -⟩
      · exact hn
      · exact absurd ⟨h1, h2⟩ hno
    · intro hle
      rw [hcomb, if_pos ⟨h1, h2, hle⟩]
    · intro hlt
      rw [hcomb, if_neg (fun hcc => absurd hcc.2.2 (by omega))]
  · intro hno
    rw [hcomb, if_neg (fun hcc => hno ⟨hcc.1, hcc.2.1⟩)]

set_option maxRecDepth 20000 in
/-- The unstake of 500,000 at rate `2 * 10 ^ 9` with the registered tpid `tp@id`: the tpid
is paid 99,999,999,950,000 and the combined pool goes from `2 * 10 ^ 15` down by
500,000 + 899,999,999,550,000 and by the tpid reward, to `10 ^ 15`. -/
theorem unstakefio_tpid_payment_witness :
    ∃ out, unstakefio exampleConfig exampleChainOpen exampleFunded [exampleRow] "" 500000
        3000000000 "tp@id" 100 = Except.ok out ∧
      Action.updatetpid "tp@id" 100 99999999950000 ∈ out.actions ∧
      out.gstaking.combined_token_pool = 1000000000000000 := by
  have hrun : ∃ out, unstakefio exampleConfig exampleChainOpen exampleFunded [exampleRow] ""
      500000 3000000000 "tp@id" 100 = Except.ok out ∧
      out.stakingrewardamount = 899999999550000 ∧
      out.tpidrewardamount = 99999999950000 := ⟨_, rfl, rfl, rfl⟩
  obtain ⟨out, hout, hstk, htp⟩ := hrun
  have hthm := unstakefio_tpid_payment exampleConfig exampleChainOpen exampleFunded
    [exampleRow] "" 500000 3000000000 "tp@id" 100 out hout (by decide)
    (by unfold global_staking_state.fits; decide)
  rw [hstk, htp] at hthm
  obtain ⟨-, -, -, hpay, -⟩ := hthm
  obtain ⟨hmem, -, hded, -⟩ := hpay ⟨by decide, by decide⟩
  exact ⟨out, hout, hmem, (hded (by decide)).trans (by decide)⟩

/-! ## Stake: the counters never go down -/

/-- C16, as the code has it: a successful stake with `combined_token_pool + amount` and
`global_srp_count + award` below `2 ^ 64` leaves the combined pool strictly larger and the
SRP count no smaller than before, and the SRP count grows by exactly
`floor(amount / rate)`. -/
theorem stakefio_monotone (cfg : Config) (ch : Chain) (g : global_staking_state)
    (rows : List account_staking_info) (fio_address : String) (amount max_fee : Int)
    (tpid : String) (actor : Nat) (out : StakeOutcome)
    (h : stakefio cfg ch g rows fio_address amount max_fee tpid actor = Except.ok out)
    (hc : (g.combined_token_pool : Int) + amount < 2 ^ 64)
    (hg : g.global_srp_count + out.srptoaward < 2 ^ 64) :
    0 < amount ∧
    g.combined_token_pool < out.gstaking.combined_token_pool ∧
    g.global_srp_count ≤ out.gstaking.global_srp_count ∧
    0 < out.rateofexchange ∧
    ((out.gstaking.global_srp_count - g.global_srp_count : Nat) : Int) =
      amount / (out.rateofexchange : Int) := by
  obtain ⟨hpos, -, -, hrate0, hsrp, hgs, -⟩ := stakefio_inv _ _ _ _ _ _ _ _ _ _ h
  have hlt : amount < 2 ^ 64 := by
    have : (0 : Int) ≤ (g.combined_token_pool : Int) := Int.ofNat_nonneg _
    omega
  have hU : ((toU64 amount : Nat) : Int) = amount := toU64_of_range amount (le_of_lt hpos) hlt
  have hcN : g.combined_token_pool + toU64 amount < 2 ^ 64 := by omega
  have h1 : out.gstaking.combined_token_pool = g.combined_token_pool + toU64 amount := by
    rw [hgs]
    simp only [wrap64]
    exact Nat.mod_eq_of_lt hcN
  have h2 : out.gstaking.global_srp_count = g.global_srp_count + out.srptoaward := by
    rw [hgs]
    simp only [wrap64]
    exact Nat.mod_eq_of_lt hg
  refine ⟨hpos, by omega, by omega, Nat.pos_of_ne_zero hrate0, ?_⟩
  rw [h2, Nat.add_sub_cancel_left, hsrp, Int.ofNat_ediv, hU]

/-- Staking 1,000,000 into the funded state, where the rate is `2 * 10 ^ 9`: the combined
pool grows and the SRP count stays, `floor(1000000 / 2000000000)` being zero. -/
theorem stakefio_monotone_witness :
    ∃ out, stakefio exampleConfig exampleChain exampleFunded [exampleRow] "" 1000000
        3000000000 "" 100 = Except.ok out ∧
      exampleFunded.combined_token_pool < out.gstaking.combined_token_pool ∧
      exampleFunded.global_srp_count ≤ out.gstaking.global_srp_count ∧
      ((out.gstaking.global_srp_count - exampleFunded.global_srp_count : Nat) : Int) =
        1000000 / (out.rateofexchange : Int) := by
  have hrun : ∃ out, stakefio exampleConfig exampleChain exampleFunded [exampleRow] "" 1000000
      3000000000 "" 100 = Except.ok out ∧ out.srptoaward = 0 := ⟨_, rfl, rfl⟩
  obtain ⟨out, hout, hsrp⟩ := hrun
  have hthm := stakefio_monotone exampleConfig exampleChain exampleFunded [exampleRow] ""
    1000000 3000000000 "" 100 out hout (by decide) (by rw [hsrp]; decide)
  exact ⟨out, hout, hthm.2.1, hthm.2.2.1, hthm.2.2.2.2⟩

/-! ## Stake and unstake: amounts and fees out of range -/

/-- A `stakefio` that cannot succeed aborts, and the tables are rolled back. -/
theorem stakefio_abort_of_not_ok (cfg : Config) (ch : Chain) (g : global_staking_state)
    (rows : List account_staking_info) (fio_address : String) (amount max_fee : Int)
    (tpid : String) (actor : Nat)
    (hno : ∀ out,
      stakefio cfg ch g rows fio_address amount max_fee tpid actor = Except.ok out → False) :
    (∃ e, stakefio cfg ch g rows fio_address amount max_fee tpid actor = Except.error e) ∧
    commitStake cfg ch g rows fio_address amount max_fee tpid actor = (g, rows) := by
  cases hres : stakefio cfg ch g rows fio_address amount max_fee tpid actor with
  | error e =>
    refine ⟨⟨e, rfl⟩, ?_⟩
    unfold commitStake
    rw [hres]
  | ok out => exact absurd hres (fun hc => hno out hc)

/-- The checks of `stakefio` on the amount and the fee, when the caller signs and has
voted or proxied. -/
theorem stakefio_invalid_value (cfg : Config) (ch : Chain) (g : global_staking_state)
    (rows : List account_staking_info) (fio_address : String) (amount max_fee : Int)
    (tpid : String) (actor : Nat) (hauth : ch.has_auth actor = true) (v : voter_info)
    (hv : ch.voters actor = some v)
    (hvoted : (v.proxy != 0 || decide (v.producers_size > 0) || v.is_auto_proxy) = true) :
    (amount ≤ 0 →
      stakefio cfg ch g rows fio_address amount max_fee tpid actor =
        Except.error (Abort.fio_400 "amount" "Invalid amount value")) ∧
    (0 < amount → max_fee < 0 →
      stakefio cfg ch g rows fio_address amount max_fee tpid actor =
        Except.error (Abort.fio_400 "amount" "Invalid fee value")) := by
  have hauth1 : require_auth ch actor = Except.ok () := by simp [require_auth, hauth]
  constructor
  · intro ha
    have hd1 : decide (amount > 0) = false := by simpa using ha
    unfold stakefio
    simp only [hauth1, hv, hvoted, hd1, fio_400_assert_true, fio_400_assert_false, ok_bind,
      error_bind, lookup_some]
  · intro ha hf
    have hd1 : decide (amount > 0) = true := by simpa using ha
    have hd2 : decide (max_fee ≥ 0) = false := by simpa using hf
    unfold stakefio
    simp only [hauth1, hv, hvoted, hd1, hd2, fio_400_assert_true, fio_400_assert_false,
      ok_bind, error_bind, lookup_some]

/-- The checks of `unstakefio` on the amount and the fee, when the caller signs. -/
theorem unstakefio_invalid_value (cfg : Config) (ch : Chain) (g : global_staking_state)
    (rows : List account_staking_info) (fio_address : String) (amount max_fee : Int)
    (tpid : String) (actor : Nat) (hauth : ch.has_auth actor = true) :
    (amount ≤ 0 →
      unstakefio cfg ch g rows fio_address amount max_fee tpid actor =
        Except.error (Abort.fio_400 "amount" "Invalid amount value")) ∧
    (0 < amount → max_fee < 0 →
      unstakefio cfg ch g rows fio_address amount max_fee tpid actor =
        Except.error (Abort.fio_400 "amount" "Invalid fee value")) := by
  have hauth1 : require_auth ch actor = Except.ok () := by simp [require_auth, hauth]
  constructor
  · intro ha
    have hd1 : decide (amount > 0) = false := by simpa using ha
    unfold unstakefio
    simp only [hauth1, hd1, fio_400_assert_false, ok_bind, error_bind]
  · intro ha hf
    have hd1 : decide (amount > 0) = true := by simpa using ha
    have hd2 : decide (max_fee ≥ 0) = false := by simpa using hf
    unfold unstakefio
    simp only [hauth1, hd1, hd2, fio_400_assert_true, fio_400_assert_false, ok_bind,
      error_bind]

/-- C19: in every state and for every caller, a stake and an unstake with `amount ≤ 0` or
with `max_fee < 0` abort and leave the pool counters and the account table exactly as they
were; for a caller who signs (and, for a stake, has voted or proxied) the rejection is
"Invalid amount value" for the amount and "Invalid fee value" for the fee. -/
theorem stake_unstake_invalid_input (cfg : Config) (ch : Chain) (g : global_staking_state)
    (rows : List account_staking_info) (fio_address : String) (amount max_fee : Int)
    (tpid : String) (actor : Nat) (hbad : amount ≤ 0 ∨ max_fee < 0) :
    ((∃ e, stakefio cfg ch g rows fio_address amount max_fee tpid actor = Except.error e) ∧
      commitStake cfg ch g rows fio_address amount max_fee tpid actor = (g, rows)) ∧
    ((∃ e, unstakefio cfg ch g rows fio_address amount max_fee tpid actor = Except.error e) ∧
      commitUnstake cfg ch g rows fio_address amount max_fee tpid actor = (g, rows)) ∧
    (ch.has_auth actor = true →
      (∃ v, ch.voters actor = some v ∧
        (v.proxy != 0 || decide (v.producers_size > 0) || v.is_auto_proxy) = true) →
      stakefio cfg ch g rows fio_address amount max_fee tpid actor =
        Except.error (Abort.fio_400 "amount"
          (if amount ≤ 0 then "Invalid amount value" else "Invalid fee value"))) ∧
    (ch.has_auth actor = true →
      unstakefio cfg ch g rows fio_address amount max_fee tpid actor =
        Except.error (Abort.fio_400 "amount"
          (if amount ≤ 0 then "Invalid amount value" else "Invalid fee value"))) := by
  refine ⟨?_, ?_, ?_, ?_⟩
  · apply stakefio_abort_of_not_ok
    intro out hout
    obtain ⟨hpos, hfee, -⟩ := stakefio_inv _ _ _ _ _ _ _ _ _ _ hout
    omega
  · apply unstakefio_abort_of_not_ok
    intro out hout
    obtain ⟨row, paidActions, hpos, hfee, -⟩ := unstakefio_inv _ _ _ _ _ _ _ _ _ _ hout
    omega
  · rintro hauth ⟨v, hv, hvoted⟩
    obtain ⟨h1, h2⟩ := stakefio_invalid_value cfg ch g rows fio_address amount max_fee tpid
      actor hauth v hv hvoted
    by_cases ha : amount ≤ 0
    · rw [if_pos ha]
      exact h1 ha
    · rw [if_neg ha]
      exact h2 (by omega) (by omega)
  · intro hauth
    obtain ⟨h1, h2⟩ := unstakefio_invalid_value cfg ch g rows fio_address amount max_fee tpid
      actor hauth
    by_cases ha : amount ≤ 0
    · rw [if_pos ha]
      exact h1 ha
    · rw [if_neg ha]
      exact h2 (by omega) (by omega)

/-- A stake and an unstake of amount 0 in the funded state: both abort with "Invalid amount
value" and the tables stay as they were. -/
theorem stake_unstake_invalid_input_witness :
    stakefio exampleConfig exampleChain exampleFunded [exampleRow] "" 0 3000000000 "" 100 =
      Except.error (Abort.fio_400 "amount" "Invalid amount value") ∧
    unstakefio exampleConfig exampleChain exampleFunded [exampleRow] "" 0 3000000000 "" 100 =
      Except.error (Abort.fio_400 "amount" "Invalid amount value") ∧
    commitStake exampleConfig exampleChain exampleFunded [exampleRow] "" 0 3000000000 "" 100 =
      (exampleFunded, [exampleRow]) ∧
    commitUnstake exampleConfig exampleChain exampleFunded [exampleRow] "" 0 3000000000 ""
      100 = (exampleFunded, [exampleRow]) := by
  have hthm := stake_unstake_invalid_input exampleConfig exampleChain exampleFunded
    [exampleRow] "" 0 3000000000 "" 100 (Or.inl (by decide))
  obtain ⟨⟨-, hs⟩, ⟨-, hu⟩, hsm, hum⟩ := hthm
  exact ⟨hsm rfl ⟨⟨0, 1, false⟩, rfl, rfl⟩, hum rfl, hs, hu⟩

/-! ## `recorddaily` -/

/-- C20, as the code has it: `recorddaily(m)`, called with the authority of the treasury
account on a state where `combined_token_pool + daily_staking_rewards + max(m, 0)` and
`staking_rewards_reserves_minted + max(m, 0)` are below `2 ^ 64`, returns; afterwards the
daily rewards are zero, the combined pool has grown by the daily rewards of before plus `m`
when `m > 0` (plus nothing more otherwise), the minted reserves have grown by `m` when
`m > 0` and are unchanged otherwise, and the staked pool, the rewards pool and the SRP
count are unchanged. -/
theorem recorddaily_effect (cfg : Config) (ch : Chain) (g : global_staking_state)
    (amounttomint : Int) (hauth : ch.has_auth cfg.TREASURYACCOUNT = true)
    (hc : (g.combined_token_pool : Int) + g.daily_staking_rewards + max amounttomint 0 < 2 ^ 64)
    (hm : (g.staking_rewards_reserves_minted : Int) + max amounttomint 0 < 2 ^ 64) :
    ∃ g1, recorddaily cfg ch g amounttomint = Except.ok g1 ∧
      g1.daily_staking_rewards = 0 ∧
      (g1.combined_token_pool : Int) =
        (g.combined_token_pool : Int) + g.daily_staking_rewards + max amounttomint 0 ∧
      (g1.staking_rewards_reserves_minted : Int) =
        (g.staking_rewards_reserves_minted : Int) + max amounttomint 0 ∧
      (0 < amounttomint →
        (g1.combined_token_pool : Int) =
          (g.combined_token_pool : Int) + g.daily_staking_rewards + amounttomint ∧
        (g1.staking_rewards_reserves_minted : Int) =
          (g.staking_rewards_reserves_minted : Int) + amounttomint) ∧
      (amounttomint ≤ 0 →
        g1.combined_token_pool = g.combined_token_pool + g.daily_staking_rewards ∧
        g1.staking_rewards_reserves_minted = g.staking_rewards_reserves_minted) ∧
      g1.staked_token_pool = g.staked_token_pool ∧
      g1.rewards_token_pool = g.rewards_token_pool ∧
      g1.global_srp_count = g.global_srp_count := by
  have hrun : recorddaily cfg ch g amounttomint = Except.ok
      { (if amounttomint > 0 then
          { g with
            staking_rewards_reserves_minted :=
              wrap64 (g.staking_rewards_reserves_minted + toU64 amounttomint)
            daily_staking_rewards := wrap64 (g.daily_staking_rewards + toU64 amounttomint) }
        else g) with
        combined_token_pool := wrap64 ((if amounttomint > 0 then
          { g with
            staking_rewards_reserves_minted :=
              wrap64 (g.staking_rewards_reserves_minted + toU64 amounttomint)
            daily_staking_rewards := wrap64 (g.daily_staking_rewards + toU64 amounttomint) }
        else g).combined_token_pool + (if amounttomint > 0 then
          { g with
            staking_rewards_reserves_minted :=
              wrap64 (g.staking_rewards_reserves_minted + toU64 amounttomint)
            daily_staking_rewards := wrap64 (g.daily_staking_rewards + toU64 amounttomint) }
        else g).daily_staking_rewards)
        daily_staking_rewards := 0 } := by
    unfold recorddaily
    rw [hauth, eosio_assert_true, ok_bind]
    rfl
  refine ⟨_, hrun, rfl, ?_⟩
  have h0c : (0 : Int) ≤ (g.combined_token_pool : Int) := Int.ofNat_nonneg _
  have h0d : (0 : Int) ≤ (g.daily_staking_rewards : Int) := Int.ofNat_nonneg _
  have h0m : (0 : Int) ≤ (g.staking_rewards_reserves_minted : Int) := Int.ofNat_nonneg _
  by_cases hpos : amounttomint > 0
  · have hmax : max amounttomint 0 = amounttomint := max_eq_left (le_of_lt hpos)
    rw [hmax] at hc hm ⊢
    have hlt : amounttomint < 2 ^ 64 := by omega
    have hU : ((toU64 amounttomint : Nat) : Int) = amounttomint :=
      toU64_of_range amounttomint (le_of_lt hpos) hlt
    have hd : wrap64 (g.daily_staking_rewards + toU64 amounttomint) =
        g.daily_staking_rewards + toU64 amounttomint := Nat.mod_eq_of_lt (by omega)
    have hmt : wrap64 (g.staking_rewards_reserves_minted + toU64 amounttomint) =
        g.staking_rewards_reserves_minted + toU64 amounttomint := Nat.mod_eq_of_lt (by omega)
    have hcb : wrap64 (g.combined_token_pool +
        (g.daily_staking_rewards + toU64 amounttomint)) =
        g.combined_token_pool + (g.daily_staking_rewards + toU64 amounttomint) :=
      Nat.mod_eq_of_lt (by omega)
    refine ⟨?_, ?_, fun _ => ⟨?_, ?_⟩, fun hle => absurd hpos (by omega), ?_, ?_, ?_⟩ <;>
      simp only [if_pos hpos, hd, hmt, hcb] <;> first | rfl | (push_cast; omega)
  · have hmax : max amounttomint 0 = 0 := max_eq_right (by omega)
    rw [hmax] at hc hm ⊢
    have hcb : wrap64 (g.combined_token_pool + g.daily_staking_rewards) =
        g.combined_token_pool + g.daily_staking_rewards := Nat.mod_eq_of_lt (by omega)
    refine ⟨?_, ?_, fun hp => absurd hp hpos, fun _ => ⟨?_, ?_⟩, ?_, ?_, ?_⟩ <;>
      simp only [if_neg hpos, hcb] <;> rfl

/-- A call `recorddaily(500)` on a state with daily rewards of 300: the combined pool goes
from 1000 to 1800, the minted reserves from 50 to 550, the daily rewards to zero. -/
theorem recorddaily_effect_witness :
    ∃ g1, recorddaily exampleConfig exampleChainOpen ⟨700, 1000, 300, 700, 300, 50⟩ 500 =
        Except.ok g1 ∧
      g1.daily_staking_rewards = 0 ∧ (g1.combined_token_pool : Int) = 1800 ∧
      (g1.staking_rewards_reserves_minted : Int) = 550 ∧ g1.staked_token_pool = 700 ∧
      g1.rewards_token_pool = 300 ∧ g1.global_srp_count = 700 := by
  obtain ⟨g1, hrun, hd, hc, hm, -, -, hs, hr, hq⟩ := recorddaily_effect exampleConfig
    exampleChainOpen ⟨700, 1000, 300, 700, 300, 50⟩ 500 rfl (by decide) (by decide)
  exact ⟨g1, hrun, hd, hc.trans (by decide), hm.trans (by decide), hs, hr, hq⟩

/-! ## Rejections -/

theorem bind_error_iff {α β : Type} (x : Except Abort α) (k : α → Except Abort β) (e : Abort) :
    (x >>= k) = Except.error e ↔
      x = Except.error e ∨ ∃ a, x = Except.ok a ∧ k a = Except.error e := by
  cases x with
  | error e0 => simp [bind, Except.bind]
  | ok a => simp [bind, Except.bind]

theorem fio_400_assert_error (c : Bool) (f m : String) (e : Abort) :
    fio_400_assert c f m = Except.error e ↔ c = false ∧ Abort.fio_400 f m = e := by
  unfold fio_400_assert; cases c <;> simp

theorem fio_403_assert_error (c : Bool) (e : Abort) :
    fio_403_assert c = Except.error e ↔ c = false ∧ Abort.fio_403 = e := by
  unfold fio_403_assert; cases c <;> simp

theorem eosio_assert_error (c : Bool) (m : String) (e : Abort) :
    eosio_assert c m = Except.error e ↔ c = false ∧ Abort.eosio_assert m = e := by
  unfold eosio_assert; cases c <;> simp

theorem require_auth_error (ch : Chain) (a : Nat) (e : Abort) :
    require_auth ch a = Except.error e ↔ ch.has_auth a = false ∧ Abort.missing_auth = e := by
  unfold require_auth; cases ch.has_auth a <;> simp

theorem lookup_error {α : Type} (o : Option α) (e0 e : Abort) :
    lookup o e0 = Except.error e ↔ o = none ∧ e0 = e := by
  unfold lookup; cases o <;> simp

theorem udiv64_error (a b : Nat) (e : Abort) :
    udiv64 a b = Except.error e ↔ b = 0 ∧ Abort.undefined "integer division by zero" = e := by
  unfold udiv64; split <;> simp_all

theorem pure_error {α : Type} (a : α) (e : Abort) :
    (pure a : Except Abort α) = Except.error e ↔ False := by
  simp [pure, Except.pure]

/-- An arithmetic step that is undefined stops with `Abort.undefined`. -/
theorem finite_error (o : Option Dbl) (e : Abort) (h : finite o = Except.error e) :
    ∃ w, e = Abort.undefined w := by
  unfold finite at h
  cases o with
  | none => exact ⟨_, (Except.error.inj h).symm⟩
  | some d => exact Except.noConfusion h

theorem truncate3_error (x : Dbl) (e : Abort) (h : truncate3 x = Except.error e) :
    ∃ w, e = Abort.undefined w := by
  unfold truncate3 at h
  rcases (bind_error_iff _ _ _).1 h with h1 | ⟨y, -, h⟩
  · exact finite_error _ _ h1
  rcases (bind_error_iff _ _ _).1 h with h1 | ⟨i, -, h⟩
  · exact ⟨_, ((lookup_error _ _ _).1 h1).2.symm⟩
  exact finite_error _ _ h

theorem mergeBody_error (insertperiod : Nat) (q : Dbl) (i : Nat) (period : lockperiods)
    (st : MergeLoop) (e : Abort)
    (h : mergeBody insertperiod q i period st = Except.error e) :
    ∃ w, e = Abort.undefined w := by
  unfold mergeBody at h
  rcases (bind_error_iff _ _ _).1 h with h1 | ⟨y, -, h⟩
  · exact finite_error _ _ h1
  rcases (bind_error_iff _ _ _).1 h with h1 | ⟨z, -, h⟩
  · exact truncate3_error _ _ h1
  rcases (bind_error_iff _ _ _).1 h with h1 | ⟨t, -, h⟩
  · exact finite_error _ _ h1
  exact ((pure_error _ _).1 h).elim

theorem mergeLoop_error (insertperiod : Nat) (q : Dbl) (periods : List lockperiods) :
    ∀ (i : Nat) (st : MergeLoop) (e : Abort),
      mergeLoop insertperiod q i periods st = Except.error e → ∃ w, e = Abort.undefined w := by
  delta mergeLoop
  dsimp only
  induction periods with
  | nil =>
    intro i st e h
    exact Except.noConfusion h
  | cons period rest ih =>
    intro i st e h
    dsimp only at h
    revert h
    cases hb : mergeBody insertperiod q i period st with
    | error e0 =>
      intro h
      have h1 : e0 = e := Except.error.inj h
      subst h1
      exact mergeBody_error _ _ _ _ _ _ hb
    | ok st1 =>
      intro h
      exact ih (i + 1) st1 e h

theorem mergeInto_error (st : MergeLoop) (j : Int) (e : Abort)
    (h : mergeInto st j = Except.error e) : ∃ w, e = Abort.undefined w := by
  unfold mergeInto at h
  split at h
  · exact ⟨_, (Except.error.inj h).symm⟩
  · rcases (bind_error_iff _ _ _).1 h with h1 | ⟨y, -, h⟩
    · exact finite_error _ _ h1
    rcases (bind_error_iff _ _ _).1 h with h1 | ⟨z, -, h⟩
    · exact finite_error _ _ h1
    rcases (bind_error_iff _ _ _).1 h with h1 | ⟨t, -, h⟩
    · exact truncate3_error _ _ h1
    exact ((pure_error _ _).1 h).elim

theorem mergeInsert_error (st : MergeLoop) (insertperiod : Nat) (insertindex : Int)
    (e : Abort) (h : mergeInsert st insertperiod insertindex = Except.error e) :
    ∃ w, e = Abort.undefined w := by
  unfold mergeInsert at h
  rcases (bind_error_iff _ _ _).1 h with h1 | ⟨y, -, h⟩
  · exact finite_error _ _ h1
  rcases (bind_error_iff _ _ _).1 h with h1 | ⟨z, -, h⟩
  · exact truncate3_error _ _ h1
  split at h
  · exact ((pure_error _ _).1 h).elim
  · exact ⟨_, (Except.error.inj h).symm⟩

/-- Every way `mergePeriods` stops is undefined behaviour of the arithmetic or of the
vector. -/
theorem mergePeriods_error (present_time : Nat) (lockiter : locked_tokens_info)
    (stakingrewardamount : Nat) (amount : Int) (e : Abort)
    (h : mergePeriods present_time lockiter stakingrewardamount amount = Except.error e) :
    ∃ w, e = Abort.undefined w := by
  unfold mergePeriods at h
  rcases (bind_error_iff _ _ _).1 h with h1 | ⟨y, -, h⟩
  · exact finite_error _ _ h1
  rcases (bind_error_iff _ _ _).1 h with h1 | ⟨st, -, h⟩
  · exact mergeLoop_error _ _ _ _ _ _ h1
  by_cases hx : st.insertintoexisting = true
  · simp only [hx, if_true] at h
    exact mergeInto_error _ _ _ h
  · simp only [hx, if_false] at h
    exact mergeInsert_error _ _ _ _ h

/-- Every way `srpstoclaimOf` stops is undefined behaviour of the arithmetic. -/
theorem srpstoclaimOf_error (total_srp : Nat) (amount : Int) (total_staked_fio : Nat)
    (e : Abort) (h : srpstoclaimOf total_srp amount total_staked_fio = Except.error e) :
    ∃ w, e = Abort.undefined w := by
  unfold srpstoclaimOf at h
  rcases (bind_error_iff _ _ _).1 h with h1 | ⟨y, -, h⟩
  · exact finite_error _ _ h1
  rcases (bind_error_iff _ _ _).1 h with h1 | ⟨z, -, h⟩
  · exact finite_error _ _ h1
  exact ⟨_, ((lookup_error _ _ _).1 h).2.symm⟩

/-- How the address block stops. -/
theorem bundle_block_error (ch : Chain) (fio_address : String) (actor : Nat) (e : Abort)
    (h : (if fio_address ≠ "" then (do
        let fioname_iter ← lookup (ch.fionames fio_address)
          (Abort.fio_400 "fio_address" "FIO Address not registered")
        fio_403_assert (fioname_iter.owner_account == actor)
        fio_400_assert (decide (ch.now ≤ fioname_iter.expiration))
          "fio_address" "FIO Address expired. Renew first."
        pure fioname_iter.bundleeligiblecountdown)
      else pure 0 : Except Abort Nat) = Except.error e) :
    e = Abort.fio_400 "fio_address" "FIO Address not registered" ∨ e = Abort.fio_403 ∨
    e = Abort.fio_400 "fio_address" "FIO Address expired. Renew first." := by
  by_cases h0 : fio_address = ""
  · rw [if_neg (by simpa using h0)] at h
    exact ((pure_error _ _).1 h).elim
  · rw [if_pos h0] at h
    rcases (bind_error_iff _ _ _).1 h with h1 | ⟨n, -, h⟩
    · exact Or.inl ((lookup_error _ _ _).1 h1).2.symm
    rcases (bind_error_iff _ _ _).1 h with h1 | ⟨u, -, h⟩
    · exact Or.inr (Or.inl ((fio_403_assert_error _ _).1 h1).2.symm)
    rcases (bind_error_iff _ _ _).1 h with h1 | ⟨u1, -, h⟩
    · exact Or.inr (Or.inr ((fio_400_assert_error _ _ _ _).1 h1).2.symm)
    exact ((pure_error _ _).1 h).elim

/-- How the fee block stops: only without credits, when the fee exceeds `max_fee`. -/
theorem fee_block_error (fio_address endpoint tpid : String) (max_fee : Int)
    (actor bundle : Nat) (fee_iter : fiofee) (e : Abort)
    (h : (if bundle > 0 then pure ((0 : Nat), [Action.decrcounter fio_address 1])
      else (do
        fio_400_assert (decide (max_fee ≥ toI64 fee_iter.suf_amount))
          "max_fee" "Fee exceeds supplied maximum."
        pure (fee_iter.suf_amount,
          [Action.fio_fees actor (toI64 fee_iter.suf_amount) endpoint,
           Action.process_rewards tpid (toI64 fee_iter.suf_amount) actor] ++
          (if toI64 fee_iter.suf_amount > 0 then [Action.updatepower actor true] else [])))
        : Except Abort (Nat × List Action)) = Except.error e) :
    bundle = 0 ∧ max_fee < toI64 fee_iter.suf_amount ∧
    e = Abort.fio_400 "max_fee" "Fee exceeds supplied maximum." := by
  by_cases hb : bundle > 0
  · rw [if_pos hb] at h
    exact ((pure_error _ _).1 h).elim
  · rw [if_neg hb] at h
    rcases (bind_error_iff _ _ _).1 h with h1 | ⟨u, -, h⟩
    · obtain ⟨hc, he⟩ := (fio_400_assert_error _ _ _ _).1 h1
      simp only [decide_eq_false_iff_not, ge_iff_le, not_le] at hc
      exact ⟨by omega, hc, he.symm⟩
    exact ((pure_error _ _).1 h).elim

/-- How the computation of the exchange rate stops: by a division by zero. -/
theorem rate_if_error (poolMinimum : Nat) (g : global_staking_state) (e : Abort)
    (h : (if g.combined_token_pool ≥ poolMinimum then
        udiv64 g.combined_token_pool g.global_srp_count
      else pure 1) = Except.error e) :
    poolMinimum ≤ g.combined_token_pool ∧ g.global_srp_count = 0 ∧
    e = Abort.undefined "integer division by zero" := by
  by_cases hc : g.combined_token_pool ≥ poolMinimum
  · rw [if_pos hc] at h
    obtain ⟨h0, he⟩ := (udiv64_error _ _ _).1 h
    exact ⟨hc, h0, he.symm⟩
  · rw [if_neg hc] at h
    exact ((pure_error _ _).1 h).elim

/-- How the payment to the tpid stops: the tpid is not registered or has expired. -/
theorem paid_block_error (ch : Chain) (tpid : String) (c : Prop) [Decidable c]
    (x y : global_staking_state × List Action) (e : Abort)
    (h : (if c then (do
        let tfioname_iter ← lookup (ch.fionames tpid)
          (Abort.fio_400 "fio_address" "FIO Address not registered")
        fio_400_assert (decide (ch.now ≤ tfioname_iter.expiration))
          "fio_address" "FIO Address expired. Renew first."
        pure x)
      else pure y : Except Abort (global_staking_state × List Action)) = Except.error e) :
    c ∧ (e = Abort.fio_400 "fio_address" "FIO Address not registered" ∨
      e = Abort.fio_400 "fio_address" "FIO Address expired. Renew first.") := by
  by_cases hc : c
  · rw [if_pos hc] at h
    refine ⟨hc, ?_⟩
    rcases (bind_error_iff _ _ _).1 h with h1 | ⟨n, -, h2⟩
    · exact Or.inl ((lookup_error _ _ _).1 h1).2.symm
    rcases (bind_error_iff _ _ _).1 h2 with h1 | ⟨u, -, h3⟩
    · exact Or.inr ((fio_400_assert_error _ _ _ _).1 h1).2.symm
    · exact ((pure_error _ _).1 h3).elim
  · rw [if_neg hc] at h
    exact ((pure_error _ _).1 h).elim

set_option maxRecDepth 20000 in
/-- Half of one million SRPs, in double precision. -/
theorem srpstoclaimOf_half_million : srpstoclaimOf 1000000 500000 1000000 = Except.ok 500000 := by
  rfl

/-- C15, as the code has it: unstaking 500,000 from a row with 1,000,000 staked and
1,000,000 SRPs, in a state with a combined pool of 2,000,000 and 1,000,000 SRPs, claims
500,000 SRPs; when the pool minimum is at most 2,000,000 the rate is 2, the total reward
500,000, the staking reward 450,000 and the tpid reward 50,000, and when the pool minimum
is larger the rate is 1 and the three rewards are 0. -/
theorem unstakefio_worked_example (cfg : Config) (ch : Chain) (g : global_staking_state)
    (rows : List account_staking_info) (fio_address : String) (max_fee : Int)
    (tpid : String) (actor : Nat) (out : UnstakeOutcome) (row : account_staking_info)
    (h : unstakefio cfg ch g rows fio_address 500000 max_fee tpid actor = Except.ok out)
    (hrow : findByAccount rows actor = some row)
    (hstaked : row.total_staked_fio = 1000000) (hsrp : row.total_srp = 1000000)
    (hc : g.combined_token_pool = 2000000) (hq : g.global_srp_count = 1000000) :
    out.srpstoclaim = 500000 ∧
    (cfg.COMBINEDTOKENPOOLMINIMUM ≤ 2000000 →
      out.rateofexchange = 2 ∧ out.totalrewardamount = 500000 ∧
      out.stakingrewardamount = 450000 ∧ out.tpidrewardamount = 50000) ∧
    (2000000 < cfg.COMBINEDTOKENPOOLMINIMUM →
      out.rateofexchange = 1 ∧ out.totalrewardamount = 0 ∧
      out.stakingrewardamount = 0 ∧ out.tpidrewardamount = 0) := by
  obtain ⟨row1, paidActions, -, -, hrow1, -, hclaim, hrate, -, htot, hstk, htp, -⟩ :=
    unstakefio_inv _ _ _ _ _ _ _ _ _ _ h
  rw [hrow] at hrow1
  have hr : row1 = row := (Option.some.inj hrow1).symm
  subst hr
  rw [hsrp, hstaked, srpstoclaimOf_half_million] at hclaim
  have hs : out.srpstoclaim = 500000 := (Except.ok.inj hclaim).symm
  obtain ⟨hrv, -⟩ := rate_if_ok _ _ _ hrate
  unfold ExchangeRateOracle at hrv
  rw [hc, hq] at hrv
  rw [hs] at htot
  refine ⟨hs, ?_, ?_⟩
  · intro hmin
    rw [if_neg (by omega)] at hrv
    have hr2 : out.rateofexchange = 2 := hrv
    rw [hr2] at htot
    have ht : out.totalrewardamount = 500000 := htot.trans (by decide)
    rw [ht] at hstk htp
    exact ⟨hr2, ht, hstk.trans (by decide), htp⟩
  · intro hmin
    rw [if_pos hmin] at hrv
    have hr1 : out.rateofexchange = 1 := hrv
    rw [hr1] at htot
    have ht : out.totalrewardamount = 0 := htot.trans (by decide)
    rw [ht] at hstk htp
    exact ⟨hr1, ht, hstk.trans (by decide), htp⟩

set_option maxRecDepth 20000 in
/-- The worked example with a pool minimum of 1,000,000: rate 2, 500,000 SRPs claimed, a
total reward of 500,000 split into 450,000 and 50,000. -/
theorem unstakefio_worked_example_witness :
    ∃ out, unstakefio exampleConfigLow exampleChain examplePoolTwoMillion [exampleRow] ""
        500000 3000000000 "" 100 = Except.ok out ∧
      out.srpstoclaim = 500000 ∧ out.rateofexchange = 2 ∧ out.totalrewardamount = 500000 ∧
      out.stakingrewardamount = 450000 ∧ out.tpidrewardamount = 50000 := by
  have hrun : ∃ out, unstakefio exampleConfigLow exampleChain examplePoolTwoMillion
      [exampleRow] "" 500000 3000000000 "" 100 = Except.ok out := ⟨_, rfl⟩
  obtain ⟨out, hout⟩ := hrun
  obtain ⟨hs, hlow, -⟩ := unstakefio_worked_example exampleConfigLow exampleChain
    examplePoolTwoMillion [exampleRow] "" 3000000000 "" 100 out exampleRow hout rfl rfl rfl
    rfl rfl
  obtain ⟨h1, h2, h3, h4⟩ := hlow (by decide)
  exact ⟨out, hout, hs, h1, h2, h3, h4⟩

set_option maxRecDepth 20000 in
/-- C15 does not hold for every pool minimum: with a pool minimum of `10 ^ 15` the unstake
of 500,000 from the row (1,000,000 staked, 1,000,000 SRPs) in the state with a combined
pool of 2,000,000 and 1,000,000 SRPs succeeds at rate 1, not 2, and all three rewards are
0. -/
theorem worked_example_rate_one :
    ∃ out, unstakefio exampleConfig exampleChain examplePoolTwoMillion [exampleRow] ""
        500000 3000000000 "" 100 = Except.ok out ∧
      findByAccount [exampleRow] 100 = some exampleRow ∧
      exampleRow.total_staked_fio = 1000000 ∧ exampleRow.total_srp = 1000000 ∧
      examplePoolTwoMillion.combined_token_pool = 2000000 ∧
      examplePoolTwoMillion.global_srp_count = 1000000 ∧
      out.rateofexchange = 1 ∧ out.rateofexchange ≠ 2 ∧ out.srpstoclaim = 500000 ∧
      out.totalrewardamount = 0 ∧ out.stakingrewardamount = 0 ∧
      out.tpidrewardamount = 0 :=
  ⟨_, rfl, rfl, rfl, rfl, rfl, rfl, rfl, by decide, rfl, rfl, rfl, rfl⟩

/-! ## The two invariants of the pool counters -/

/-- What a successful `incgrewards` returns. -/
theorem incgrewards_inv (cfg : Config) (ch : Chain) (g : global_staking_state)
    (fioamountsufs : Int) (g1 : global_staking_state)
    (h : incgrewards cfg ch g fioamountsufs = Except.ok g1) :
    g1 = { g with
      rewards_token_pool := wrap64 (g.rewards_token_pool + toU64 fioamountsufs)
      daily_staking_rewards := wrap64 (g.daily_staking_rewards + toU64 fioamountsufs)
      combined_token_pool := wrap64 (g.combined_token_pool + toU64 fioamountsufs) } := by
  simp only [incgrewards, bind_ok_iff, eosio_assert_ok, pure_ok, exists_and_left,
    exists_eq_left] at h
  obtain ⟨-, -, h⟩ := h
  exact h.symm

/-- What a successful `recorddaily` returns. -/
theorem recorddaily_inv (cfg : Config) (ch : Chain) (g : global_staking_state)
    (amounttomint : Int) (g1 : global_staking_state)
    (h : recorddaily cfg ch g amounttomint = Except.ok g1) :
    g1.staked_token_pool = g.staked_token_pool ∧
    g1.global_srp_count = g.global_srp_count ∧
    g1.combined_token_pool = wrap64 (g.combined_token_pool +
      (if amounttomint > 0 then wrap64 (g.daily_staking_rewards + toU64 amounttomint)
       else g.daily_staking_rewards)) := by
  simp only [recorddaily, bind_ok_iff, eosio_assert_ok, pure_ok, exists_and_left,
    exists_eq_left] at h
  obtain ⟨-, -, h⟩ := h
  subst h
  split_ifs <;> exact ⟨rfl, rfl, rfl⟩

set_option maxRecDepth 20000 in
/-- The history behind `drainedState`: a stake of 1 SUF by account `100`, a reward of
`10 ^ 15`, a stake of `10 ^ 15` by account `200` (which earns no SRP, the rate being
`10 ^ 15 + 1`), and the unstake of the 1 SUF by account `100` (whose one SRP is then worth
`2 * 10 ^ 15 + 1`).  The three calls of the accounts use a bundled-fee credit, so none of
them pays a fee. -/
theorem drained_reachable : Reachable exampleConfig drainedState drainedRows := by
  have h1 : ∃ out, stakefio exampleConfig exampleChainOpen zeroState [] "alice@fio" 1 0 ""
      100 = Except.ok out ∧ out.gstaking = ⟨1, 1, 0, 1, 0, 0⟩ ∧
      out.accountstaking = [⟨0, 100, 1, 1⟩] ∧ out.paid_fee_amount = 0 :=
    ⟨_, rfl, rfl, rfl, rfl⟩
  obtain ⟨o1, e1, g1, r1, -⟩ := h1
  have s1 := Reachable.stake exampleChainOpen _ _ _ _ _ _ _ o1 Reachable.init e1
  rw [g1, r1] at s1
  have h2 : incgrewards exampleConfig exampleChainOpen ⟨1, 1, 0, 1, 0, 0⟩ 1000000000000000 =
      Except.ok ⟨1, 1000000000000001, 1000000000000000, 1, 1000000000000000, 0⟩ := rfl
  have s2 := Reachable.rewards exampleChainOpen _ _ _ _ s1 h2
  have h3 : ∃ out, stakefio exampleConfig exampleChainOpen
      ⟨1, 1000000000000001, 1000000000000000, 1, 1000000000000000, 0⟩ [⟨0, 100, 1, 1⟩]
      "bob@fio" 1000000000000000 0 "" 200 = Except.ok out ∧
      out.gstaking =
        ⟨1000000000000001, 2000000000000001, 1000000000000000, 1, 1000000000000000, 0⟩ ∧
      out.accountstaking = [⟨0, 100, 1, 1⟩, ⟨1, 200, 0, 1000000000000000⟩] ∧
      out.paid_fee_amount = 0 :=
    ⟨_, rfl, rfl, rfl, rfl⟩
  obtain ⟨o3, e3, g3, r3, -⟩ := h3
  have s3 := Reachable.stake exampleChainOpen _ _ _ _ _ _ _ o3 s2 e3
  rw [g3, r3] at s3
  have h4 : ∃ out, unstakefio exampleConfig exampleChainOpen
      ⟨1000000000000001, 2000000000000001, 1000000000000000, 1, 1000000000000000, 0⟩
      [⟨0, 100, 1, 1⟩, ⟨1, 200, 0, 1000000000000000⟩] "alice@fio" 1 0 "" 100 =
        Except.ok out ∧
      out.gstaking = drainedState ∧ out.accountstaking = drainedRows ∧
      out.paid_fee_amount = 0 := ⟨_, rfl, rfl, rfl, rfl⟩
  obtain ⟨o4, e4, g4, r4, -⟩ := h4
  have s4 := Reachable.unstake exampleChainOpen _ _ _ _ _ _ _ o4 s3 e4
  rw [g4, r4] at s4
  exact s4

/-- C12, as the code has it: `combined_token_pool ≥ staked_token_pool` holds in the
all-zero state; from a state where it holds, and with counters that stay inside the 64-bit
range, it holds again after a successful stake, after an `incgrewards` of a non-negative
amount and after a `recorddaily`; after a successful unstake it holds exactly when the
staked pool plus the staking reward plus the tpid reward deducted from the pool is at most
the combined pool of before. -/
theorem combined_ge_staked_steps (cfg : Config) (ch : Chain) (g : global_staking_state)
    (rows : List account_staking_info) (fio_address : String) (amount max_fee : Int)
    (tpid : String) (actor : Nat)
    (hinv : g.staked_token_pool ≤ g.combined_token_pool) (hfit : g.fits)
    (ha : amount < 2 ^ 63) :
    zeroState.staked_token_pool ≤ zeroState.combined_token_pool ∧
    (∀ out, stakefio cfg ch g rows fio_address amount max_fee tpid actor = Except.ok out →
      (g.combined_token_pool : Int) + amount < 2 ^ 64 →
      out.gstaking.staked_token_pool ≤ out.gstaking.combined_token_pool) ∧
    (∀ g1, incgrewards cfg ch g amount = Except.ok g1 → 0 ≤ amount →
      (g.combined_token_pool : Int) + amount < 2 ^ 64 →
      g1.staked_token_pool ≤ g1.combined_token_pool) ∧
    (∀ g1, recorddaily cfg ch g amount = Except.ok g1 →
      (g.combined_token_pool : Int) + g.daily_staking_rewards + max amount 0 < 2 ^ 64 →
      g1.staked_token_pool ≤ g1.combined_token_pool) ∧
    (∀ out, unstakefio cfg ch g rows fio_address amount max_fee tpid actor = Except.ok out →
      (out.gstaking.staked_token_pool ≤ out.gstaking.combined_token_pool ↔
        g.staked_token_pool + out.stakingrewardamount +
          (if 0 < tpid.length ∧ 0 < out.tpidrewardamount ∧
              out.tpidrewardamount ≤
                g.combined_token_pool - (amount.toNat + out.stakingrewardamount)
            then out.tpidrewardamount else 0) ≤ g.combined_token_pool)) := by
  have hfit1 := hfit
  obtain ⟨hf1, hf2, -, -, hf5, -⟩ := hfit1
  refine ⟨Nat.le_refl _, ?_, ?_, ?_, ?_⟩
  · intro out hout hc
    obtain ⟨hpos, -, -, -, -, hgs, -⟩ := stakefio_inv _ _ _ _ _ _ _ _ _ _ hout
    have hU : ((toU64 amount : Nat) : Int) = amount :=
      toU64_of_range amount (le_of_lt hpos) (by omega)
    have h1 : wrap64 (g.combined_token_pool + toU64 amount) =
        g.combined_token_pool + toU64 amount := Nat.mod_eq_of_lt (by omega)
    have h2 : wrap64 (g.staked_token_pool + toU64 amount) =
        g.staked_token_pool + toU64 amount := Nat.mod_eq_of_lt (by omega)
    rw [hgs]
    show wrap64 (g.staked_token_pool + toU64 amount) ≤
      wrap64 (g.combined_token_pool + toU64 amount)
    rw [h1, h2]
    omega
  · intro g1 hrun h0 hc
    have hg1 := incgrewards_inv _ _ _ _ _ hrun
    have hU : ((toU64 amount : Nat) : Int) = amount := toU64_of_range amount h0 (by omega)
    have h1 : wrap64 (g.combined_token_pool + toU64 amount) =
        g.combined_token_pool + toU64 amount := Nat.mod_eq_of_lt (by omega)
    rw [hg1]
    show g.staked_token_pool ≤ wrap64 (g.combined_token_pool + toU64 amount)
    rw [h1]
    omega
  · intro g1 hrun hc
    obtain ⟨hs, -, hcomb⟩ := recorddaily_inv _ _ _ _ _ hrun
    rw [hs, hcomb]
    by_cases hp : amount > 0
    · have hmax : max amount 0 = amount := max_eq_left (le_of_lt hp)
      rw [hmax] at hc
      have hU : ((toU64 amount : Nat) : Int) = amount :=
        toU64_of_range amount (le_of_lt hp) (by omega)
      have h1 : wrap64 (g.daily_staking_rewards + toU64 amount) =
          g.daily_staking_rewards + toU64 amount := Nat.mod_eq_of_lt (by omega)
      have h2 : wrap64 (g.combined_token_pool + (g.daily_staking_rewards + toU64 amount)) =
          g.combined_token_pool + (g.daily_staking_rewards + toU64 amount) :=
        Nat.mod_eq_of_lt (by omega)
      rw [if_pos hp, h1, h2]
      omega
    · have hmax : max amount 0 = 0 := max_eq_right (by omega)
      rw [hmax] at hc
      have h2 : wrap64 (g.combined_token_pool + g.daily_staking_rewards) =
          g.combined_token_pool + g.daily_staking_rewards := Nat.mod_eq_of_lt (by omega)
      rw [if_neg hp, h2]
      omega
  · intro out hout
    obtain ⟨hpool, hsp, -, hst, -, -, -, -, hcomb⟩ :=
      unstakefio_global _ _ _ _ _ _ _ _ _ _ hout ha hfit
    rw [hst, hcomb]
    split_ifs with hcond
    · obtain ⟨-, -, hle⟩ := hcond
      omega
    · omega

set_option maxRecDepth 20000 in
/-- The unstake of 500,000 from the funded state keeps the combined pool above the staked
pool: 1,000,000 + 899,999,999,550,000 is at most `2 * 10 ^ 15`. -/
theorem combined_ge_staked_steps_witness :
    ∃ out, unstakefio exampleConfig exampleChain exampleFunded [exampleRow] "" 500000
        3000000000 "" 100 = Except.ok out ∧
      exampleFunded.staked_token_pool ≤ exampleFunded.combined_token_pool ∧
      out.gstaking.staked_token_pool ≤ out.gstaking.combined_token_pool := by
  have hrun : ∃ out, unstakefio exampleConfig exampleChain exampleFunded [exampleRow] ""
      500000 3000000000 "" 100 = Except.ok out ∧
      out.stakingrewardamount = 899999999550000 := ⟨_, rfl, rfl⟩
  obtain ⟨out, hout, hstk⟩ := hrun
  have hthm := combined_ge_staked_steps exampleConfig exampleChain exampleFunded
    [exampleRow] "" 500000 3000000000 "" 100 (by decide)
    (by unfold global_staking_state.fits; decide) (by decide)
  have hiff := hthm.2.2.2.2 out hout
  rw [hstk, if_neg (fun hcc => absurd hcc.1 (by decide))] at hiff
  exact ⟨out, hout, by decide, hiff.2 (by decide)⟩

/-- C12 does not hold in every reachable state: after a stake of 1 SUF, a reward of
`10 ^ 15`, a stake of `10 ^ 15` by a second account and the unstake of the 1 SUF, the
combined pool is `2 * 10 ^ 14` and the staked pool `10 ^ 15`. -/
theorem combined_ge_staked_not_invariant :
    ∃ g rows, Reachable exampleConfig g rows ∧
      g.combined_token_pool = 200000000000000 ∧ g.staked_token_pool = 1000000000000000 ∧
      g.combined_token_pool < g.staked_token_pool :=
  ⟨drainedState, drainedRows, drained_reachable, rfl, rfl, by decide⟩

/-- C27, as the code has it: a successful stake into a state at or above the pool minimum,
with `combined_token_pool + amount` and `global_srp_count + award` below `2 ^ 64`, was made
at the rate `floor(combined / srp count) ≥ 1`, and the rate of the state it leaves,
`floor((combined + amount) / (srp count + floor(amount / rate)))`, is at least that
rate. -/
theorem stakefio_rate_not_lowered (cfg : Config) (ch : Chain) (g : global_staking_state)
    (rows : List account_staking_info) (fio_address : String) (amount max_fee : Int)
    (tpid : String) (actor : Nat) (out : StakeOutcome)
    (h : stakefio cfg ch g rows fio_address amount max_fee tpid actor = Except.ok out)
    (hmin : cfg.COMBINEDTOKENPOOLMINIMUM ≤ g.combined_token_pool)
    (hc : (g.combined_token_pool : Int) + amount < 2 ^ 64)
    (hg : g.global_srp_count + out.srptoaward < 2 ^ 64) :
    0 < g.global_srp_count ∧ 1 ≤ out.rateofexchange ∧
    out.rateofexchange = g.combined_token_pool / g.global_srp_count ∧
    out.gstaking.combined_token_pool = g.combined_token_pool + amount.toNat ∧
    out.gstaking.global_srp_count =
      g.global_srp_count + amount.toNat / out.rateofexchange ∧
    out.rateofexchange ≤
      (g.combined_token_pool + amount.toNat) /
        (g.global_srp_count + amount.toNat / out.rateofexchange) ∧
    out.rateofexchange ≤ ExchangeRateOracle cfg.COMBINEDTOKENPOOLMINIMUM out.gstaking := by
  obtain ⟨hpos, -, hrate, hrate0, hsrp, hgs, -⟩ := stakefio_inv _ _ _ _ _ _ _ _ _ _ h
  obtain ⟨hrv, hnz⟩ := rate_if_ok _ _ _ hrate
  have hg0 : 0 < g.global_srp_count := Nat.pos_of_ne_zero (hnz hmin)
  have h0c : (0 : Int) ≤ (g.combined_token_pool : Int) := Int.ofNat_nonneg _
  have hU : ((toU64 amount : Nat) : Int) = amount :=
    toU64_of_range amount (le_of_lt hpos) (by omega)
  have hUn : toU64 amount = amount.toNat := by omega
  unfold ExchangeRateOracle at hrv
  rw [if_neg (by omega)] at hrv
  have h1 : out.gstaking.combined_token_pool = g.combined_token_pool + amount.toNat := by
    rw [hgs, hUn]
    exact Nat.mod_eq_of_lt (by omega)
  have h2 : out.gstaking.global_srp_count = g.global_srp_count + out.srptoaward := by
    rw [hgs]
    exact Nat.mod_eq_of_lt hg
  rw [hUn] at hsrp
  have hkey : out.rateofexchange ≤
      (g.combined_token_pool + amount.toNat) / (g.global_srp_count + out.srptoaward) := by
    rw [Nat.le_div_iff_mul_le (by omega), Nat.mul_add]
    have e1 : out.rateofexchange * g.global_srp_count ≤ g.combined_token_pool := by
      rw [hrv]
      exact Nat.div_mul_le_self _ _
    have e2 : out.rateofexchange * out.srptoaward ≤ amount.toNat := by
      rw [hsrp, Nat.mul_comm]
      exact Nat.div_mul_le_self _ _
    omega
  refine ⟨hg0, Nat.pos_of_ne_zero hrate0, hrv, h1, by rw [h2, hsrp], by rw [← hsrp]; exact hkey,
    ?_⟩
  unfold ExchangeRateOracle
  rw [if_neg (by omega), h1, h2]
  exact hkey

/-- A stake of 5,000,000,000 into the funded state, whose rate is `2 * 10 ^ 9`: two SRPs are
awarded and the rate of the new state is still `2 * 10 ^ 9`. -/
theorem stakefio_rate_not_lowered_witness :
    ∃ out, stakefio exampleConfig exampleChain exampleFunded [exampleRow] "" 5000000000
        3000000000 "" 100 = Except.ok out ∧
      out.rateofexchange = 2000000000 ∧
      out.rateofexchange ≤ ExchangeRateOracle exampleConfig.COMBINEDTOKENPOOLMINIMUM
        out.gstaking := by
  have hrun : ∃ out, stakefio exampleConfig exampleChain exampleFunded [exampleRow] ""
      5000000000 3000000000 "" 100 = Except.ok out ∧ out.srptoaward = 2 ∧
      out.rateofexchange = 2000000000 := ⟨_, rfl, rfl, rfl⟩
  obtain ⟨out, hout, hsrp, hrate⟩ := hrun
  have hthm := stakefio_rate_not_lowered exampleConfig exampleChain exampleFunded [exampleRow]
    "" 5000000000 3000000000 "" 100 out hout (by decide) (by decide) (by rw [hsrp]; decide)
  exact ⟨out, hout, hrate, hthm.2.2.2.2.2.2⟩

/-! ## A division by zero in the exchange rate -/

set_option maxRecDepth 20000 in
/-- C22 fails on the code: a reward of `10 ^ 15` reported before anybody has staked leaves a
reachable state with the combined pool at the pool minimum and an SRP count of zero; there
the rate computation of `stakefio` divides by zero, and no stake can succeed any more. -/
theorem stakefio_divides_by_zero :
    ∃ g, Reachable exampleConfig g [] ∧
      g = ⟨0, 1000000000000000, 1000000000000000, 0, 1000000000000000, 0⟩ ∧
      exampleConfig.COMBINEDTOKENPOOLMINIMUM ≤ g.combined_token_pool ∧
      g.global_srp_count = 0 ∧
      stakefio exampleConfig exampleChainOpen g [] "alice@fio" 1000000 0 "" 100 =
        Except.error (Abort.undefined "integer division by zero") ∧
      (∀ ch rows fio_address amount max_fee tpid actor out,
        stakefio exampleConfig ch g rows fio_address amount max_fee tpid actor ≠
          Except.ok out) := by
  have h1 : incgrewards exampleConfig exampleChainOpen zeroState 1000000000000000 =
      Except.ok ⟨0, 1000000000000000, 1000000000000000, 0, 1000000000000000, 0⟩ := rfl
  refine ⟨_, Reachable.rewards exampleChainOpen _ _ _ _ Reachable.init h1, rfl, by decide, rfl,
    rfl, ?_⟩
  intro ch rows fio_address amount max_fee tpid actor out hout
  obtain ⟨-, -, hrate, -⟩ := stakefio_inv _ _ _ _ _ _ _ _ _ _ hout
  exact (rate_if_ok _ _ _ hrate).2 (by decide) rfl

/-! ## The fatal assertions of `unstakefio` -/

/-- The ways `unstakefio` stops at an `eosio_assert`: the caller has no row, or, with the
SRPs to claim and the rate computed, one of the five arithmetic assertions fails. -/
theorem unstakefio_error_assert (cfg : Config) (ch : Chain) (g : global_staking_state)
    (rows : List account_staking_info) (fio_address : String) (amount max_fee : Int)
    (tpid : String) (actor : Nat) (m : String)
    (h : unstakefio cfg ch g rows fio_address amount max_fee tpid actor =
      Except.error (Abort.eosio_assert m)) :
    0 < amount ∧
    ((findByAccount rows actor = none ∧
        m = "incacctstake, actor has no accountstake record.") ∨
      ∃ row srp rate, findByAccount rows actor = some row ∧
        toU64 amount ≤ row.total_staked_fio ∧
        srpstoclaimOf row.total_srp amount row.total_staked_fio = Except.ok srp ∧
        (if g.combined_token_pool ≥ cfg.COMBINEDTOKENPOOLMINIMUM then
            udiv64 g.combined_token_pool g.global_srp_count
          else pure 1) = Except.ok rate ∧
        ((wrap64 (srp * rate) < toU64 amount ∧ m =
            "unstakefio, invalid calc in totalrewardamount, must be that (srpstoclaim * rateofexchange) > amount. ") ∨
          (toU64 amount ≤ wrap64 (srp * rate) ∧
            ((row.total_srp < srp ∧ m =
                "unstakefio, total srp for account must be greater than or equal srpstoclaim.") ∨
              (srp ≤ row.total_srp ∧
                ((g.combined_token_pool < wrap64 (toU64 amount +
                      wrap64 (sub64 (wrap64 (srp * rate)) (toU64 amount) / 10 * 9)) ∧ m =
                    "unstakefio, combined token pool must be greater or equal to amount plus stakingrewardamount. ") ∨
                  (g.staked_token_pool < toU64 amount ∧ m =
                    "unstakefio, staked token pool must be greater or equal to staked amount. ") ∨
                  (g.global_srp_count < srp ∧ m =
                    "unstakefio, global srp count must be greater or equal to srpstoclaim. ")))))))
    := by
  simp only [unstakefio, bind_error_iff, bind_ok_iff, fio_400_assert_ok, fio_403_assert_ok,
    eosio_assert_ok, require_auth_ok, lookup_ok, udiv64_ok, pure_ok, fio_400_assert_error,
    fio_403_assert_error, eosio_assert_error, require_auth_error, lookup_error, udiv64_error,
    pure_error, exists_and_left, exists_eq_left, Abort.eosio_assert.injEq, reduceCtorEq,
    and_false, false_or, or_false, false_and, true_and, and_true] at h
  obtain ⟨-, hamt, -, -, -, -, -, -, -, -, h⟩ := h
  simp only [decide_eq_true_eq] at hamt
  refine ⟨hamt, ?_⟩
  rcases h with hb | ⟨bundle, hbundle, h⟩
  · rcases bundle_block_error _ _ _ _ hb with he | he | he <;> simp at he
  rcases h with ⟨hnone, hm⟩ | ⟨row, hrow, h⟩
  · exact Or.inl ⟨hnone, hm.symm⟩
  right
  rcases h with ⟨hacc, -⟩ | ⟨-, hstaked, -, -, fee_iter, hfi, -, -, h⟩
  · have := findByAccount_account rows actor row hrow
    simp [this] at hacc
  simp only [decide_eq_true_eq, ge_iff_le] at hstaked
  rcases h with hf | ⟨fee, hfee, h⟩
  · obtain ⟨-, -, he⟩ := fee_block_error _ _ _ _ _ _ _ _ hf
    simp at he
  obtain ⟨-, -, h⟩ := h
  rcases h with hs | ⟨srp, hsrp, h⟩
  · obtain ⟨w, he⟩ := srpstoclaimOf_error _ _ _ _ hs
    simp at he
  rcases h with hr | ⟨rate, hrate, h⟩
  · obtain ⟨-, -, he⟩ := rate_if_error _ _ _ hr
    simp at he
  refine ⟨row, srp, rate, hrow, hstaked, hsrp, hrate, ?_⟩
  rcases h with ⟨hd, hm⟩ | ⟨hd1, -, h⟩
  · simp only [decide_eq_false_iff_not, ge_iff_le, not_le] at hd
    exact Or.inl ⟨hd, hm.symm⟩
  simp only [decide_eq_true_eq, ge_iff_le] at hd1
  refine Or.inr ⟨hd1, ?_⟩
  rcases h with ⟨hd, hm⟩ | ⟨hd2, -, h⟩
  · simp only [decide_eq_false_iff_not, ge_iff_le, not_le] at hd
    exact Or.inl ⟨hd, hm.symm⟩
  simp only [decide_eq_true_eq, ge_iff_le] at hd2
  refine Or.inr ⟨hd2, ?_⟩
  rcases h with ⟨hd, -⟩ | ⟨-, -, h⟩
  · simp only [decide_eq_false_iff_not, ge_iff_le, not_le] at hd
    omega
  rcases h with ⟨hd, hm⟩ | ⟨-, -, h⟩
  · simp only [decide_eq_false_iff_not, ge_iff_le, not_le] at hd
    exact Or.inl ⟨hd, hm.symm⟩
  rcases h with ⟨hd, hm⟩ | ⟨-, -, h⟩
  · simp only [decide_eq_false_iff_not, ge_iff_le, not_le] at hd
    exact Or.inr (Or.inl ⟨hd, hm.symm⟩)
  rcases h with ⟨hd, hm⟩ | ⟨-, -, h⟩
  · simp only [decide_eq_false_iff_not, ge_iff_le, not_le] at hd
    exact Or.inr (Or.inr ⟨hd, hm.symm⟩)
  exfalso
  rcases h with hp | ⟨paid, -, h⟩
  · obtain ⟨-, he | he⟩ := paid_block_error _ _ _ _ _ _ hp <;> simp at he
  rcases h with hl | ⟨lock, -, -, hF⟩
  · cases hg : ch.generallocks actor with
    | none =>
      rw [hg] at hl
      exact (pure_error _ _).1 hl
    | some lockiter =>
      rw [hg] at hl
      rcases (bind_error_iff _ _ _).1 hl with h1 | ⟨n, -, h2⟩
      · obtain ⟨w, he⟩ := mergePeriods_error _ _ _ _ _ h1
        simp at he
      · exact (pure_error _ _).1 h2
  · exact hF

/-- At or above the pool minimum the SRPs of the whole pool are worth at most the combined
pool, so a claim of at most all SRPs is worth at most the combined pool. -/
theorem claim_value_le_pool (poolMinimum : Nat) (g : global_staking_state) (srp rate : Nat)
    (hmin : poolMinimum ≤ g.combined_token_pool) (hle : srp ≤ g.global_srp_count)
    (hrate : (if g.combined_token_pool ≥ poolMinimum then
        udiv64 g.combined_token_pool g.global_srp_count
      else pure 1) = Except.ok rate) :
    0 < g.global_srp_count ∧ rate = g.combined_token_pool / g.global_srp_count ∧
    srp * rate ≤ g.combined_token_pool := by
  rw [if_pos hmin, udiv64_ok] at hrate
  obtain ⟨h0, hr⟩ := hrate
  subst hr
  refine ⟨Nat.pos_of_ne_zero h0, rfl, ?_⟩
  calc srp * (g.combined_token_pool / g.global_srp_count)
      ≤ g.global_srp_count * (g.combined_token_pool / g.global_srp_count) :=
        Nat.mul_le_mul_right _ hle
    _ ≤ g.combined_token_pool := Nat.mul_div_le _ _

/-- The amount to lock, as the code computes it from a claim whose value covers the amount
and does not exceed the combined pool. -/
theorem locked_sum_le (amount : Int) (product pool : Nat) (h0 : 0 < amount)
    (ha : amount < 2 ^ 63) (hpool : pool < 2 ^ 64) (hp : product ≤ pool)
    (hge : toU64 amount ≤ wrap64 product) :
    wrap64 product = product ∧ toU64 amount = amount.toNat ∧
    wrap64 (toU64 amount + wrap64 (sub64 (wrap64 product) (toU64 amount) / 10 * 9)) =
      amount.toNat + (product - amount.toNat) / 10 * 9 ∧
    amount.toNat + (product - amount.toNat) / 10 * 9 ≤ product := by
  have hU : ((toU64 amount : Nat) : Int) = amount :=
    toU64_of_range amount (le_of_lt h0) (by omega)
  have hUn : toU64 amount = amount.toNat := by omega
  have hw : wrap64 product = product := Nat.mod_eq_of_lt (by omega)
  rw [hw, hUn] at hge
  rw [hw, hUn, sub64_of_le _ _ (by omega) hge]
  have h1 : wrap64 ((product - amount.toNat) / 10 * 9) = (product - amount.toNat) / 10 * 9 :=
    Nat.mod_eq_of_lt (by omega)
  rw [h1]
  have h2 : wrap64 (amount.toNat + (product - amount.toNat) / 10 * 9) =
      amount.toNat + (product - amount.toNat) / 10 * 9 := Nat.mod_eq_of_lt (by omega)
  rw [h2]
  exact ⟨rfl, rfl, rfl, by omega⟩

/-- C24: in an unstake on a state at or above the pool minimum (well-typed: the amount an
`int64_t`, the combined pool a `uint64_t`), with `srp_to_claim` at most the SRP count, the
SRP count is positive and `amount + staking_reward ≤ srp_to_claim * rate ≤ combined`, so
once the reward assertion has passed the assertion on the combined pool holds: an abort at
that assertion occurs only with `srp_to_claim` above the SRP count, and a successful
unstake satisfies both inequalities. -/
theorem unstakefio_pool_assert_holds (cfg : Config) (ch : Chain) (g : global_staking_state)
    (rows : List account_staking_info) (fio_address : String) (amount max_fee : Int)
    (tpid : String) (actor : Nat) (ha : amount < 2 ^ 63)
    (hpool : g.combined_token_pool < 2 ^ 64)
    (hmin : cfg.COMBINEDTOKENPOOLMINIMUM ≤ g.combined_token_pool) :
    (∀ srp rate, 0 < amount → srp ≤ g.global_srp_count →
      (if g.combined_token_pool ≥ cfg.COMBINEDTOKENPOOLMINIMUM then
          udiv64 g.combined_token_pool g.global_srp_count
        else pure 1) = Except.ok rate →
      toU64 amount ≤ wrap64 (srp * rate) →
      0 < g.global_srp_count ∧
      amount.toNat + (srp * rate - amount.toNat) / 10 * 9 ≤ srp * rate ∧
      srp * rate ≤ g.combined_token_pool ∧
      wrap64 (toU64 amount + wrap64 (sub64 (wrap64 (srp * rate)) (toU64 amount) / 10 * 9)) ≤
        g.combined_token_pool) ∧
    (unstakefio cfg ch g rows fio_address amount max_fee tpid actor =
        Except.error (Abort.eosio_assert
          "unstakefio, combined token pool must be greater or equal to amount plus stakingrewardamount. ") →
      ∃ row srp, findByAccount rows actor = some row ∧
        srpstoclaimOf row.total_srp amount row.total_staked_fio = Except.ok srp ∧
        g.global_srp_count < srp) ∧
    (∀ out, unstakefio cfg ch g rows fio_address amount max_fee tpid actor = Except.ok out →
      amount.toNat + out.stakingrewardamount ≤ out.srpstoclaim * out.rateofexchange ∧
      out.srpstoclaim * out.rateofexchange ≤ g.combined_token_pool) := by
  have hkey : ∀ srp rate, 0 < amount → srp ≤ g.global_srp_count →
      (if g.combined_token_pool ≥ cfg.COMBINEDTOKENPOOLMINIMUM then
          udiv64 g.combined_token_pool g.global_srp_count
        else pure 1) = Except.ok rate →
      toU64 amount ≤ wrap64 (srp * rate) →
      0 < g.global_srp_count ∧
      amount.toNat + (srp * rate - amount.toNat) / 10 * 9 ≤ srp * rate ∧
      srp * rate ≤ g.combined_token_pool ∧
      wrap64 (toU64 amount + wrap64 (sub64 (wrap64 (srp * rate)) (toU64 amount) / 10 * 9)) ≤
        g.combined_token_pool := by
    intro srp rate h0 hle hrate hge
    obtain ⟨hg0, -, hp⟩ := claim_value_le_pool _ g srp rate hmin hle hrate
    obtain ⟨-, -, hsum, hle2⟩ := locked_sum_le amount (srp * rate) g.combined_token_pool h0 ha
      hpool hp hge
    refine ⟨hg0, hle2, hp, ?_⟩
    rw [hsum]
    omega
  refine ⟨hkey, ?_, ?_⟩
  · intro herr
    obtain ⟨h0, hcase⟩ := unstakefio_error_assert _ _ _ _ _ _ _ _ _ _ herr
    rcases hcase with ⟨-, hm⟩ | ⟨row, srp, rate, hrow, -, hsrp, hrate, hcase⟩
    · exact absurd hm (by decide)
    refine ⟨row, srp, hrow, hsrp, ?_⟩
    rcases hcase with ⟨-, hm⟩ | ⟨hge, ⟨-, hm⟩ | ⟨-, ⟨hlt, -⟩ | ⟨-, hm⟩ | ⟨-, hm⟩⟩⟩
    · exact absurd hm (by decide)
    · exact absurd hm (by decide)
    · by_contra hnot
      obtain ⟨-, -, -, hfin⟩ := hkey srp rate h0 (by omega) hrate hge
      omega
    · exact absurd hm (by decide)
    · exact absurd hm (by decide)
  · intro out hout
    obtain ⟨hUn, hpos, hge, hprod, htot, hstk, -⟩ :=
      unstakefio_reward _ _ _ _ _ _ _ _ _ _ hout ha hpool
    obtain ⟨row, paidActions, -, -, -, -, -, hrate, -, -, -, -, -, -, -, hgl, -⟩ :=
      unstakefio_inv _ _ _ _ _ _ _ _ _ _ hout
    obtain ⟨-, -, hp⟩ := claim_value_le_pool _ g _ _ hmin hgl hrate
    refine ⟨?_, hp⟩
    rw [hstk, htot]
    omega

set_option maxRecDepth 20000 in
/-- The unstake of 500,000 from the funded state: 500,000 SRPs at rate `2 * 10 ^ 9` are
worth `10 ^ 15`, which covers the amount plus the staking reward and is at most the combined
pool of `2 * 10 ^ 15`. -/
theorem unstakefio_pool_assert_holds_witness :
    ∃ out, unstakefio exampleConfig exampleChain exampleFunded [exampleRow] "" 500000
        3000000000 "" 100 = Except.ok out ∧
      out.srpstoclaim * out.rateofexchange = 1000000000000000 ∧
      500000 + out.stakingrewardamount ≤ out.srpstoclaim * out.rateofexchange ∧
      out.srpstoclaim * out.rateofexchange ≤ 2000000000000000 := by
  have hrun : ∃ out, unstakefio exampleConfig exampleChain exampleFunded [exampleRow] ""
      500000 3000000000 "" 100 = Except.ok out ∧
      out.srpstoclaim * out.rateofexchange = 1000000000000000 := ⟨_, rfl, rfl⟩
  obtain ⟨out, hout, hprod⟩ := hrun
  obtain ⟨-, -, hok⟩ := unstakefio_pool_assert_holds exampleConfig exampleChain exampleFunded
    [exampleRow] "" 500000 3000000000 "" 100 (by decide) (by decide) (by decide)
  exact ⟨out, hout, hprod, (hok out hout).1, (hok out hout).2⟩

/-! ## The pool counters as sums over the account table -/

theorem sumSrp_split (pre post : List account_staking_info) (r : account_staking_info) :
    sumSrp (pre ++ r :: post) = sumSrp pre + r.total_srp + sumSrp post := by
  unfold sumSrp
  rw [List.map_append, List.sum_append, List.map_cons, List.sum_cons, Nat.add_assoc]

theorem sumStaked_split (pre post : List account_staking_info) (r : account_staking_info) :
    sumStaked (pre ++ r :: post) = sumStaked pre + r.total_staked_fio + sumStaked post := by
  unfold sumStaked
  rw [List.map_append, List.sum_append, List.map_cons, List.sum_cons, Nat.add_assoc]

theorem sumSrp_append_one (rows : List account_staking_info) (r : account_staking_info) :
    sumSrp (rows ++ [r]) = sumSrp rows + r.total_srp := by
  rw [sumSrp_split]
  simp [sumSrp]

theorem sumStaked_append_one (rows : List account_staking_info) (r : account_staking_info) :
    sumStaked (rows ++ [r]) = sumStaked rows + r.total_staked_fio := by
  rw [sumStaked_split]
  simp [sumStaked]

/-- The modification of the caller's row replaces that row and no other. -/
theorem modifyByAccount_split (actor : Nat) (f : account_staking_info → account_staking_info)
    (rows : List account_staking_info) (r : account_staking_info)
    (h : findByAccount rows actor = some r) :
    ∃ pre post, rows = pre ++ r :: post ∧
      modifyByAccount actor f rows = pre ++ f r :: post ∧
      ∀ x ∈ pre, x.account ≠ actor := by
  induction rows with
  | nil => simp [findByAccount] at h
  | cons x rest ih =>
    by_cases hx : x.account = actor
    · have hb : (x.account == actor) = true := by simp [hx]
      have hfind : findByAccount (x :: rest) actor = some x := by
        simp [findByAccount, List.find?, hb]
      rw [hfind] at h
      have hxr : x = r := Option.some.inj h
      subst hxr
      refine ⟨[], rest, rfl, ?_, by simp⟩
      simp [modifyByAccount, hx]
    · have hb : (x.account == actor) = false := by simp [hx]
      have hfind : findByAccount (x :: rest) actor = findByAccount rest actor := by
        simp [findByAccount, List.find?, hb]
      rw [hfind] at h
      obtain ⟨pre, post, h1, h2, h3⟩ := ih h
      refine ⟨x :: pre, post, by rw [h1]; rfl, ?_, ?_⟩
      · simp [modifyByAccount, hx, h2]
      · intro y hy
        rcases List.mem_cons.1 hy with rfl | hy
        · exact hx
        · exact h3 y hy

/-- C23, as the code has it: the SRP count is the sum of the rows' SRPs and the staked pool
the sum of the rows' staked tokens in the empty initial state, and from a state where both
hold (counters inside the 64-bit range) both hold again after a successful stake with
`staked_token_pool + amount` and `global_srp_count + award` below `2 ^ 64`, which adds one
row for the caller or replaces the caller's row, after a successful unstake, which replaces
the caller's row, and after `incgrewards` and `recorddaily`, which leave the table and
both counters alone. -/
theorem aggregates_preserved (cfg : Config) (ch : Chain) (g : global_staking_state)
    (rows : List account_staking_info) (fio_address : String) (amount max_fee : Int)
    (tpid : String) (actor : Nat)
    (hsrp : sumSrp rows = g.global_srp_count) (hst : sumStaked rows = g.staked_token_pool)
    (hfit : g.fits) (ha : amount < 2 ^ 63) :
    (sumSrp [] = zeroState.global_srp_count ∧ sumStaked [] = zeroState.staked_token_pool) ∧
    (∀ out, stakefio cfg ch g rows fio_address amount max_fee tpid actor = Except.ok out →
      (g.staked_token_pool : Int) + amount < 2 ^ 64 →
      g.global_srp_count + out.srptoaward < 2 ^ 64 →
      sumSrp out.accountstaking = out.gstaking.global_srp_count ∧
      sumStaked out.accountstaking = out.gstaking.staked_token_pool ∧
      ∃ pre old post new, rows = pre ++ old ++ post ∧
        out.accountstaking = pre ++ [new] ++ post ∧ new.account = actor ∧
        (old = [] ∨ ∃ r, old = [r] ∧ r.account = actor)) ∧
    (∀ out, unstakefio cfg ch g rows fio_address amount max_fee tpid actor = Except.ok out →
      sumSrp out.accountstaking = out.gstaking.global_srp_count ∧
      sumStaked out.accountstaking = out.gstaking.staked_token_pool ∧
      ∃ pre r post new, rows = pre ++ [r] ++ post ∧
        out.accountstaking = pre ++ [new] ++ post ∧ new.account = actor ∧
        r.account = actor) ∧
    (∀ g1, incgrewards cfg ch g amount = Except.ok g1 →
      sumSrp rows = g1.global_srp_count ∧ sumStaked rows = g1.staked_token_pool) ∧
    (∀ g1, recorddaily cfg ch g amount = Except.ok g1 →
      sumSrp rows = g1.global_srp_count ∧ sumStaked rows = g1.staked_token_pool) := by
  obtain ⟨hf1, -, -, hf4, -, -⟩ := id hfit
  refine ⟨⟨rfl, rfl⟩, ?_, ?_, ?_, ?_⟩
  · intro out hout hs hq
    obtain ⟨hpos, -, -, -, -, hgs, hrows⟩ := stakefio_inv _ _ _ _ _ _ _ _ _ _ hout
    have hU : ((toU64 amount : Nat) : Int) = amount :=
      toU64_of_range amount (le_of_lt hpos) (by omega)
    have hg1 : out.gstaking.global_srp_count = g.global_srp_count + out.srptoaward := by
      rw [hgs]
      exact Nat.mod_eq_of_lt hq
    have hg2 : out.gstaking.staked_token_pool = g.staked_token_pool + toU64 amount := by
      rw [hgs]
      exact Nat.mod_eq_of_lt (by omega)
    rw [hg1, hg2]
    cases hfind : findByAccount rows actor with
    | none =>
      rw [hfind] at hrows
      rw [hrows, sumSrp_append_one, sumStaked_append_one, hsrp, hst]
      exact ⟨rfl, rfl, rows, [], [],
        (⟨available_primary_key rows, actor, out.srptoaward, toU64 amount⟩ :
          account_staking_info), by simp, by simp, rfl, Or.inl rfl⟩
    | some r =>
      rw [hfind] at hrows
      obtain ⟨pre, post, hsplit, hmod, -⟩ := modifyByAccount_split actor (fun a => { a with
        total_staked_fio := wrap64 (a.total_staked_fio + toU64 amount)
        total_srp := wrap64 (a.total_srp + out.srptoaward) }) rows r hfind
      have hacc := findByAccount_account rows actor r hfind
      rw [hsplit, sumSrp_split] at hsrp
      rw [hsplit, sumStaked_split] at hst
      have hw1 : wrap64 (r.total_srp + out.srptoaward) = r.total_srp + out.srptoaward :=
        Nat.mod_eq_of_lt (by omega)
      have hw2 : wrap64 (r.total_staked_fio + toU64 amount) =
          r.total_staked_fio + toU64 amount := Nat.mod_eq_of_lt (by omega)
      rw [hrows, hmod, sumSrp_split, sumStaked_split]
      simp only [hw1, hw2]
      refine ⟨by omega, by omega, pre, [r], post,
        (⟨r.id, r.account, r.total_srp + out.srptoaward, r.total_staked_fio + toU64 amount⟩ :
          account_staking_info), by rw [hsplit]; simp, by simp, hacc, Or.inr ⟨r, rfl, hacc⟩⟩
  · intro out hout
    obtain ⟨-, hsp, hgl, hstk, hq, -⟩ := unstakefio_global _ _ _ _ _ _ _ _ _ _ hout ha hfit
    obtain ⟨hUn, -⟩ := unstakefio_reward _ _ _ _ _ _ _ _ _ _ hout ha hfit.2.1
    obtain ⟨r, paidActions, -, -, hfind, hstaked, -, -, -, -, -, -, hsrple, -, -, -, htable,
      -⟩ := unstakefio_inv _ _ _ _ _ _ _ _ _ _ hout
    obtain ⟨pre, post, hsplit, hmod, -⟩ := modifyByAccount_split actor (fun a => { a with
      total_staked_fio := sub64 a.total_staked_fio (toU64 amount)
      total_srp := sub64 a.total_srp out.srpstoclaim }) rows r hfind
    have hacc := findByAccount_account rows actor r hfind
    rw [hsplit, sumSrp_split] at hsrp
    rw [hsplit, sumStaked_split] at hst
    rw [hUn] at hstaked hmod
    have hs1 : sub64 r.total_srp out.srpstoclaim = r.total_srp - out.srpstoclaim :=
      sub64_of_le _ _ (by omega) hsrple
    have hs2 : sub64 r.total_staked_fio amount.toNat = r.total_staked_fio - amount.toNat :=
      sub64_of_le _ _ (by omega) hstaked
    rw [hUn] at htable
    rw [htable, hmod, sumSrp_split, sumStaked_split, hstk, hq]
    simp only [hs1, hs2]
    refine ⟨by omega, by omega, pre, r, post,
      (⟨r.id, r.account, r.total_srp - out.srpstoclaim, r.total_staked_fio - amount.toNat⟩ :
        account_staking_info), by rw [hsplit]; simp, by simp, hacc, hacc⟩
  · intro g1 hrun
    have hg1 := incgrewards_inv _ _ _ _ _ hrun
    rw [hg1]
    exact ⟨hsrp, hst⟩
  · intro g1 hrun
    obtain ⟨h1, h2, -⟩ := recorddaily_inv _ _ _ _ _ hrun
    rw [h1, h2]
    exact ⟨hsrp, hst⟩

set_option maxRecDepth 20000 in
/-- The unstake of 500,000 from the funded state, whose single row holds all 1,000,000 SRPs
and all 1,000,000 staked tokens: afterwards the row and the two counters are at 500,000. -/
theorem aggregates_preserved_witness :
    ∃ out, unstakefio exampleConfig exampleChain exampleFunded [exampleRow] "" 500000
        3000000000 "" 100 = Except.ok out ∧
      sumSrp [exampleRow] = exampleFunded.global_srp_count ∧
      sumStaked [exampleRow] = exampleFunded.staked_token_pool ∧
      sumSrp out.accountstaking = out.gstaking.global_srp_count ∧
      sumStaked out.accountstaking = out.gstaking.staked_token_pool ∧
      out.gstaking.global_srp_count = 500000 ∧ out.gstaking.staked_token_pool = 500000 := by
  have hrun : ∃ out, unstakefio exampleConfig exampleChain exampleFunded [exampleRow] ""
      500000 3000000000 "" 100 = Except.ok out ∧
      out.gstaking.global_srp_count = 500000 ∧ out.gstaking.staked_token_pool = 500000 :=
    ⟨_, rfl, rfl, rfl⟩
  obtain ⟨out, hout, h1, h2⟩ := hrun
  have hthm := aggregates_preserved exampleConfig exampleChain exampleFunded [exampleRow] ""
    500000 3000000000 "" 100 rfl rfl (by unfold global_staking_state.fits; decide)
    (by decide)
  obtain ⟨hs, ht, -⟩ := hthm.2.2.1 out hout
  exact ⟨out, hout, rfl, rfl, hs, ht, h1, h2⟩

/-! ## The SRPs to claim never exceed the row, in the exact range of a double -/

theorem nearestEven_scale (m c q : Nat) (hq : 0 < q) :
    nearestEven (m * q) (c * q) = nearestEven m c := by
  unfold nearestEven
  simp only [Nat.mul_div_mul_right m c hq, Nat.mul_mod_mul_right]
  have e1 : (2 * (m % c * q) < c * q) ↔ (2 * (m % c) < c) := by
    rw [← Nat.mul_assoc]
    exact Nat.mul_lt_mul_right hq
  have e2 : (c * q < 2 * (m % c * q)) ↔ (c < 2 * (m % c)) := by
    rw [← Nat.mul_assoc]
    exact Nat.mul_lt_mul_right hq
  simp only [e1, e2]

theorem roundUnits_scale (m q : Nat) (hq : 0 < q) : roundUnits (m * q) q = roundUnits m 1 := by
  unfold roundUnits
  simp only [Nat.mul_div_cancel m hq, Nat.div_one]
  rw [Nat.mul_comm q (pow2 _), Nat.mul_comm m q, Nat.mul_comm q m]
  rw [Nat.mul_comm (pow2 _) q, Nat.mul_comm q (pow2 _), nearestEven_scale m _ q hq, Nat.one_mul]

theorem roundUnits_pos (t : Nat) (ht : 0 < t) : 0 < roundUnits (t * Dbl.K) 1 := by
  have hK := K_ge
  have hp : 2 ^ 52 * 1 ≤ t * Dbl.K := by
    calc 2 ^ 52 * 1 ≤ 2 ^ 110 := by norm_num
      _ ≤ Dbl.K := hK
      _ ≤ t * Dbl.K := Nat.le_mul_of_pos_left _ ht
  obtain ⟨-, h2⟩ := roundUnits_rel (t * Dbl.K) 1 (by norm_num) hp
  have hpos : 0 < t * Dbl.K := Nat.mul_pos ht K_pos
  by_contra h0
  have hz : roundUnits (t * Dbl.K) 1 = 0 := by omega
  rw [hz] at h2
  generalize t * Dbl.K = p at h2 hpos
  omega

/-- The SRPs to claim for the whole staked amount: the quotient is exactly `1.0` and the
product is exact while the SRPs of the row are below `2 ^ 53`. -/
theorem srpstoclaimOf_whole (s t : Nat) (ht : 0 < t) (hs : s < 2 ^ 53) :
    srpstoclaimOf s (t : Int) t = Except.ok s := by
  have hK := K_pos
  have hKge := K_ge
  have hov := overflowUnits_ge
  have hU := roundUnits_pos t ht
  have hof : Dbl.ofInt (t : Int) = ⟨((roundUnits (t * Dbl.K) 1 : Nat) : Int)⟩ := by
    unfold Dbl.ofInt
    have hneg : ¬ ((t : Int) < 0) := by omega
    rw [if_neg hneg, Int.natAbs_ofNat]
  have hone : roundUnits (1 * Dbl.K) 1 = 1 * Dbl.K := roundUnits_exact 1 (by norm_num)
  have hKov : Dbl.K < Dbl.overflowUnits := by
    have : Dbl.K < 2 ^ 74 * Dbl.K := by
      have h74 : (1 : Nat) < 2 ^ 74 := by norm_num
      calc Dbl.K = 1 * Dbl.K := (Nat.one_mul _).symm
        _ < 2 ^ 74 * Dbl.K := Nat.mul_lt_mul_of_pos_right h74 hK
    omega
  have h1 : Dbl.div (Dbl.ofInt (t : Int)) (Dbl.ofNat t) = some ⟨((Dbl.K : Nat) : Int)⟩ := by
    have hofn : Dbl.ofNat t = ⟨((roundUnits (t * Dbl.K) 1 : Nat) : Int)⟩ := hof
    rw [hofn, hof]
    refine div_units _ _ _ hU ?_ hKov
    rw [Nat.mul_comm, roundUnits_scale Dbl.K _ hU]
    have := hone
    rw [Nat.one_mul] at this
    exact this
  have hsov : s * Dbl.K < Dbl.overflowUnits := by
    have : s * Dbl.K < 2 ^ 74 * Dbl.K :=
      Nat.mul_lt_mul_of_pos_right (lt_of_lt_of_le hs (by norm_num)) hK
    omega
  have h2 : Dbl.mul (Dbl.ofNat s) ⟨((Dbl.K : Nat) : Int)⟩ = some ⟨((s * Dbl.K : Nat) : Int)⟩ := by
    rw [ofNat_units s hs]
    refine mul_units _ _ _ ?_ hsov
    rw [roundUnits_scale (s * Dbl.K) _ hK]
    exact roundUnits_exact s hs
  have h3 : Dbl.toUInt64 ⟨((s * Dbl.K : Nat) : Int)⟩ = some (s * Dbl.K / Dbl.K) :=
    toUInt64_units _ (by rw [Nat.mul_div_cancel s hK]; omega)
  have h4 := srpstoclaimOf_of s (t : Int) t _ _ _ h1 h2 h3
  rw [Nat.mul_div_cancel s hK] at h4
  exact h4

/-- C29, as the code has it: for an account row with `total_staked_fio > 0` and fewer than
`2 ^ 53` SRPs, an unstake of the whole position has `srpstoclaim = total_srp`, and when it
succeeds the row is left with `total_staked_fio = 0` and `total_srp = 0`; the row stays in
the table, which keeps its length. -/
theorem unstakefio_whole_position (cfg : Config) (ch : Chain) (g : global_staking_state)
    (rows : List account_staking_info) (fio_address : String) (amount max_fee : Int)
    (tpid : String) (actor : Nat) (row : account_staking_info)
    (hrow : findByAccount rows actor = some row)
    (hamt : amount = (row.total_staked_fio : Int)) (ha : amount < 2 ^ 63)
    (hpos : 0 < row.total_staked_fio) (hs : row.total_srp < 2 ^ 53) :
    srpstoclaimOf row.total_srp amount row.total_staked_fio = Except.ok row.total_srp ∧
    ∀ out, unstakefio cfg ch g rows fio_address amount max_fee tpid actor = Except.ok out →
      out.srpstoclaim = row.total_srp ∧
      findByAccount out.accountstaking actor =
        some { row with total_staked_fio := 0, total_srp := 0 } ∧
      out.accountstaking.length = rows.length := by
  have hclaim : srpstoclaimOf row.total_srp amount row.total_staked_fio =
      Except.ok row.total_srp := by
    rw [hamt]
    exact srpstoclaimOf_whole _ _ hpos hs
  refine ⟨hclaim, ?_⟩
  intro out hout
  obtain ⟨row1, paidActions, h0, -, hrow1, -, hsrp, -, -, -, -, -, -, -, -, -,
    htable, -⟩ := unstakefio_inv _ _ _ _ _ _ _ _ _ _ hout
  rw [hrow] at hrow1
  have hr : row1 = row := (Option.some.inj hrow1).symm
  subst hr
  rw [hclaim] at hsrp
  have hsrpeq : out.srpstoclaim = row1.total_srp := (Except.ok.inj hsrp).symm
  have hU : ((toU64 amount : Nat) : Int) = amount :=
    toU64_of_range amount (le_of_lt h0) (by omega)
  have hUn : toU64 amount = row1.total_staked_fio := by omega
  rw [hUn, hsrpeq] at htable
  have hlt : row1.total_staked_fio < 2 ^ 64 := by omega
  obtain ⟨pre, post, hsplit, hmod, -⟩ := modifyByAccount_split actor (fun a => { a with
      total_staked_fio := sub64 a.total_staked_fio row1.total_staked_fio
      total_srp := sub64 a.total_srp row1.total_srp }) rows row1 hrow
  have key := findByAccount_modify actor (fun a => { a with
      total_staked_fio := sub64 a.total_staked_fio row1.total_staked_fio
      total_srp := sub64 a.total_srp row1.total_srp }) (fun _ => rfl) rows row1 hrow
  refine ⟨hsrpeq, ?_, ?_⟩
  · rw [htable, key]
    simp only [sub64_of_le _ _ hlt (le_refl _),
      sub64_of_le _ _ (show row1.total_srp < 2 ^ 64 by omega) (le_refl _), Nat.sub_self]
  · rw [htable, hmod]
    conv_rhs => rw [hsplit]
    simp only [List.length_append, List.length_cons]

set_option maxRecDepth 20000 in
/-- The statement `unstakefio_whole_position` at the funded example state, for the example
row unstaking all its 1000000 units. -/
theorem unstakefio_whole_position_witness :
    srpstoclaimOf exampleRow.total_srp 1000000 exampleRow.total_staked_fio =
      Except.ok exampleRow.total_srp ∧
    ∀ out, unstakefio exampleConfig exampleChainWhale exampleFunded [exampleRow] "alice@fio"
        1000000 0 "" 100 = Except.ok out →
      out.srpstoclaim = exampleRow.total_srp ∧
      findByAccount out.accountstaking 100 =
        some { exampleRow with total_staked_fio := 0, total_srp := 0 } ∧
      out.accountstaking.length = [exampleRow].length :=
  unstakefio_whole_position exampleConfig exampleChainWhale exampleFunded [exampleRow]
    "alice@fio" 1000000 0 "" 100 exampleRow (by decide) (by decide) (by decide) (by decide)
    (by decide)

set_option maxRecDepth 20000 in
/-- C29 fails on the code: an account stakes 9007199254740993 units (`2 ^ 53 + 1`) on the
empty contract, the same amount of rewards is reported, and the account unstakes all its
tokens; the SRPs to claim come out in double precision as 9007199254740992, the unstake
succeeds, and the row is left with one SRP and no staked tokens. -/
theorem whole_position_leaves_srp :
    ∃ out1 g2 out3,
      stakefio exampleConfig exampleChainWhale zeroState [] "alice@fio"
        9007199254740993 0 "" 100 = Except.ok out1 ∧
      out1.accountstaking = [⟨0, 100, 9007199254740993, 9007199254740993⟩] ∧
      incgrewards exampleConfig exampleChainOpen out1.gstaking 9007199254740993 =
        Except.ok g2 ∧
      unstakefio exampleConfig exampleChainWhale g2 out1.accountstaking "alice@fio"
        9007199254740993 0 "" 100 = Except.ok out3 ∧
      out3.srpstoclaim = 9007199254740992 ∧
      out3.accountstaking = [⟨0, 100, 1, 0⟩] :=
  ⟨_, _, _, rfl, rfl, rfl, rfl, rfl, rfl⟩
/-! ## The loop over the existing periods -/

/-- What one successful round of the loop does. -/
theorem mergeBody_ok (insertperiod : Nat) (q : Dbl) (i : Nat) (period : lockperiods)
    (st st1 : MergeLoop) (h : mergeBody insertperiod q i period st = Except.ok st1) :
    ∃ scaled newpercent total,
      finite (Dbl.mul period.percent q) = Except.ok scaled ∧
      truncate3 scaled = Except.ok newpercent ∧
      finite (Dbl.add st.totalnewpercent newpercent) = Except.ok total ∧
      st1 = {
        newperiods := st.newperiods ++ [{ duration := period.duration, percent := newpercent }]
        insertintoexisting :=
          if period.duration = (insertperiod : Int) then true else st.insertintoexisting
        lastperiodduration := toU32 period.duration
        insertindex :=
          if period.duration > (insertperiod : Int) then (i : Int) else st.insertindex
        totalnewpercent := total } := by
  unfold mergeBody at h
  obtain ⟨scaled, h1, h⟩ := (bind_ok_iff _ _ _).1 h
  obtain ⟨newpercent, h2, h⟩ := (bind_ok_iff _ _ _).1 h
  obtain ⟨total, h3, h⟩ := (bind_ok_iff _ _ _).1 h
  exact ⟨scaled, newpercent, total, h1, h2, h3, ((pure_ok _ _).1 h).symm⟩

/-- The invariant of the loop on the insert index: it is `-1` or an index already visited,
and it is set as soon as the last duration seen reaches the insert period without being
equal to any duration seen. -/
theorem mergeLoop_index (insertperiod : Nat) (q : Dbl) (periods : List lockperiods) :
    ∀ (i : Nat) (st st1 : MergeLoop),
      mergeLoop insertperiod q i periods st = Except.ok st1 →
      (∀ p ∈ periods, 0 ≤ p.duration) →
      -1 ≤ st.insertindex → st.insertindex < (i : Int) →
      (st.insertintoexisting = false → insertperiod ≤ st.lastperiodduration →
        0 ≤ st.insertindex) →
      st1.newperiods.length = st.newperiods.length + periods.length ∧
      -1 ≤ st1.insertindex ∧ st1.insertindex < ((i + periods.length : Nat) : Int) ∧
      (st1.insertintoexisting = false → insertperiod ≤ st1.lastperiodduration →
        0 ≤ st1.insertindex) := by
  delta mergeLoop
  dsimp only
  induction periods with
  | nil =>
    intro i st st1 h _ ha hb hc
    have e : st = st1 := Except.ok.inj h
    subst e
    exact ⟨by simp, ha, by simpa using hb, hc⟩
  | cons period rest ih =>
    intro i st st1 h hdur ha hb hc
    dsimp only at h
    revert h
    cases hbody : mergeBody insertperiod q i period st with
    | error e0 =>
      intro h
      exact Except.noConfusion h
    | ok st2 =>
      intro h
      obtain ⟨scaled, newpercent, total, -, -, -, hst2⟩ := mergeBody_ok _ _ _ _ _ _ hbody
      have hd0 : 0 ≤ period.duration := hdur period (List.mem_cons_self _ _)
      have hu : ((toU32 period.duration : Nat) : Int) ≤ period.duration := by
        unfold toU32
        rw [Int.toNat_of_nonneg (Int.emod_nonneg _ (by norm_num))]
        have e32 : (2 : Int) ^ 32 = 4294967296 := by norm_num
        rw [e32]
        omega
      have h2a : -1 ≤ st2.insertindex := by
        rw [hst2]
        dsimp only
        split_ifs <;> omega
      have h2b : st2.insertindex < ((i + 1 : Nat) : Int) := by
        rw [hst2]
        dsimp only
        split_ifs <;> omega
      have h2c : st2.insertintoexisting = false → insertperiod ≤ st2.lastperiodduration →
          0 ≤ st2.insertindex := by
        rw [hst2]
        dsimp only
        generalize toU32 period.duration = u at hu
        intro hex hle
        by_cases heq : period.duration = (insertperiod : Int)
        · rw [if_pos heq] at hex
          exact Bool.noConfusion hex
        · by_cases hgt : period.duration > (insertperiod : Int)
          · rw [if_pos hgt]
            omega
          · exfalso
            omega
      obtain ⟨r1, r2, r3, r4⟩ := ih (i + 1) st2 st1 h
        (fun p hp => hdur p (List.mem_cons_of_mem _ hp)) h2a h2b h2c
      refine ⟨?_, r2, ?_, r4⟩
      · rw [r1, hst2]
        simp only [List.length_append, List.length_cons, List.length_nil]
        omega
      · simp only [List.length_cons]
        have e : i + 1 + rest.length = i + (rest.length + 1) := by
          rw [Nat.add_assoc, Nat.add_comm 1]
        rw [← e]
        exact r3

theorem finite_error_what (o : Option Dbl) (e : Abort) (h : finite o = Except.error e) :
    e = Abort.undefined "double result is not finite" := by
  unfold finite at h
  cases o with
  | none => exact (Except.error.inj h).symm
  | some d => exact Except.noConfusion h

theorem truncate3_error_what (x : Dbl) (e : Abort) (h : truncate3 x = Except.error e) :
    e = Abort.undefined "double result is not finite" ∨
      e = Abort.undefined "double to int conversion out of range" := by
  unfold truncate3 at h
  rcases (bind_error_iff _ _ _).1 h with h1 | ⟨y, -, h⟩
  · exact Or.inl (finite_error_what _ _ h1)
  rcases (bind_error_iff _ _ _).1 h with h1 | ⟨i, -, h⟩
  · exact Or.inr ((lookup_error _ _ _).1 h1).2.symm
  exact Or.inl (finite_error_what _ _ h)

theorem mergeBody_error_what (insertperiod : Nat) (q : Dbl) (i : Nat) (period : lockperiods)
    (st : MergeLoop) (e : Abort)
    (h : mergeBody insertperiod q i period st = Except.error e) :
    e = Abort.undefined "double result is not finite" ∨
      e = Abort.undefined "double to int conversion out of range" := by
  unfold mergeBody at h
  rcases (bind_error_iff _ _ _).1 h with h1 | ⟨y, -, h⟩
  · exact Or.inl (finite_error_what _ _ h1)
  rcases (bind_error_iff _ _ _).1 h with h1 | ⟨z, -, h⟩
  · exact truncate3_error_what _ _ h1
  rcases (bind_error_iff _ _ _).1 h with h1 | ⟨t, -, h⟩
  · exact Or.inl (finite_error_what _ _ h1)
  exact ((pure_error _ _).1 h).elim

theorem mergeLoop_error_what (insertperiod : Nat) (q : Dbl) (periods : List lockperiods) :
    ∀ (i : Nat) (st : MergeLoop) (e : Abort),
      mergeLoop insertperiod q i periods st = Except.error e →
      e = Abort.undefined "double result is not finite" ∨
        e = Abort.undefined "double to int conversion out of range" := by
  delta mergeLoop
  dsimp only
  induction periods with
  | nil =>
    intro i st e h
    exact Except.noConfusion h
  | cons period rest ih =>
    intro i st e h
    dsimp only at h
    revert h
    cases hb : mergeBody insertperiod q i period st with
    | error e0 =>
      intro h
      have h1 : e0 = e := Except.error.inj h
      subst h1
      exact mergeBody_error_what _ _ _ _ _ _ hb
    | ok st1 =>
      intro h
      exact ih (i + 1) st1 e h

theorem mergeInto_error_what (st : MergeLoop) (j : Int) (e : Abort)
    (h : mergeInto st j = Except.error e) :
    e = Abort.undefined "newperiods[insertindex - 1] is out of range" ∨
      e = Abort.undefined "double result is not finite" ∨
      e = Abort.undefined "double to int conversion out of range" := by
  unfold mergeInto at h
  split at h
  · exact Or.inl (Except.error.inj h).symm
  · rcases (bind_error_iff _ _ _).1 h with h1 | ⟨y, -, h⟩
    · exact Or.inr (Or.inl (finite_error_what _ _ h1))
    rcases (bind_error_iff _ _ _).1 h with h1 | ⟨z, -, h⟩
    · exact Or.inr (Or.inl (finite_error_what _ _ h1))
    rcases (bind_error_iff _ _ _).1 h with h1 | ⟨t, -, h⟩
    · exact Or.inr (truncate3_error_what _ _ h1)
    exact ((pure_error _ _).1 h).elim

/-- The insertion of the new period stops only in the arithmetic when the index is inside
the vector. -/
theorem mergeInsert_error_what (st : MergeLoop) (insertperiod : Nat) (insertindex : Int)
    (e : Abort) (hin : 0 ≤ insertindex ∧ insertindex ≤ (st.newperiods.length : Int))
    (h : mergeInsert st insertperiod insertindex = Except.error e) :
    e = Abort.undefined "double result is not finite" ∨
      e = Abort.undefined "double to int conversion out of range" := by
  unfold mergeInsert at h
  rcases (bind_error_iff _ _ _).1 h with h1 | ⟨y, -, h⟩
  · exact Or.inl (finite_error_what _ _ h1)
  rcases (bind_error_iff _ _ _).1 h with h1 | ⟨z, -, h⟩
  · exact truncate3_error_what _ _ h1
  rw [if_pos hin] at h
  exact ((pure_error _ _).1 h).elim

/-- C26, as the code has it: for a period list with no negative duration (sorted or not,
empty or not) and an insert period above zero, when the loop finds no period of that
duration, the insert index computed after it is at least 0 and at most the number of
existing periods, which is the length of the new vector, and it is not `-1`; so
`mergePeriods` never inserts outside the vector. -/
theorem mergePeriods_insertindex_in_bounds (present_time : Nat) (lockiter : locked_tokens_info)
    (stakingrewardamount : Nat) (amount : Int)
    (hip : 0 < insertperiodOf present_time lockiter.timestamp)
    (hdur : ∀ p ∈ lockiter.periods, 0 ≤ p.duration) :
    (∀ q st, mergeLoop (insertperiodOf present_time lockiter.timestamp) q 0 lockiter.periods
        { newperiods := [], insertintoexisting := false, lastperiodduration := 0,
          insertindex := -1, totalnewpercent := Dbl.ofNat 0 } = Except.ok st →
      st.insertintoexisting = false →
      st.newperiods.length = lockiter.periods.length ∧
      0 ≤ (if insertperiodOf present_time lockiter.timestamp > st.lastperiodduration then
            (lockiter.periods.length : Int) else st.insertindex) ∧
      (if insertperiodOf present_time lockiter.timestamp > st.lastperiodduration then
            (lockiter.periods.length : Int) else st.insertindex) ≤
          (lockiter.periods.length : Int) ∧
      (if insertperiodOf present_time lockiter.timestamp > st.lastperiodduration then
            (lockiter.periods.length : Int) else st.insertindex) ≠ -1) ∧
    mergePeriods present_time lockiter stakingrewardamount amount ≠
      Except.error (Abort.undefined "newperiods.begin() + insertindex is out of range") := by
  have hkey : ∀ q st, mergeLoop (insertperiodOf present_time lockiter.timestamp) q 0
        lockiter.periods
        { newperiods := [], insertintoexisting := false, lastperiodduration := 0,
          insertindex := -1, totalnewpercent := Dbl.ofNat 0 } = Except.ok st →
      st.insertintoexisting = false →
      st.newperiods.length = lockiter.periods.length ∧
      0 ≤ (if insertperiodOf present_time lockiter.timestamp > st.lastperiodduration then
            (lockiter.periods.length : Int) else st.insertindex) ∧
      (if insertperiodOf present_time lockiter.timestamp > st.lastperiodduration then
            (lockiter.periods.length : Int) else st.insertindex) ≤
          (lockiter.periods.length : Int) := by
    intro q st hloop hex
    obtain ⟨r1, r2, r3, r4⟩ := mergeLoop_index _ q lockiter.periods 0 _ st hloop hdur
      (le_refl _) (by norm_num) (fun _ hle => absurd hle (by
        show ¬ (insertperiodOf present_time lockiter.timestamp ≤ 0)
        omega))
    simp only [List.length_nil, Nat.zero_add] at r1 r3
    refine ⟨r1, ?_, ?_⟩
    · split_ifs with hgt
      · omega
      · exact r4 hex (by omega)
    · split_ifs with hgt
      · omega
      · omega
  refine ⟨fun q st hloop hex => ?_, ?_⟩
  · obtain ⟨k1, k2, k3⟩ := hkey q st hloop hex
    exact ⟨k1, k2, k3, by omega⟩
  · intro h
    unfold mergePeriods at h
    rcases (bind_error_iff _ _ _).1 h with h1 | ⟨q, -, h⟩
    · exact absurd (finite_error_what _ _ h1) (by decide)
    rcases (bind_error_iff _ _ _).1 h with h1 | ⟨st, hloop, h⟩
    · rcases mergeLoop_error_what _ _ _ _ _ _ h1 with h2 | h2
      · exact absurd h2 (by decide)
      · exact absurd h2 (by decide)
    cases hex : st.insertintoexisting with
    | true =>
      simp only [hex, if_true] at h
      rcases mergeInto_error_what _ _ _ h with h2 | h2 | h2
      · exact absurd h2 (by decide)
      · exact absurd h2 (by decide)
      · exact absurd h2 (by decide)
    | false =>
      simp only [hex, Bool.false_eq_true, if_false] at h
      obtain ⟨k1, k2, k3⟩ := hkey q st hloop hex
      have hfin := fun hin => mergeInsert_error_what _ _ _ _ hin h
      rw [k1] at hfin
      rcases hfin (And.intro k2 k3) with h2 | h2
      · exact absurd h2 (by decide)
      · exact absurd h2 (by decide)

set_option maxRecDepth 20000 in
/-- The statement `mergePeriods_insertindex_in_bounds` at the lock with two periods later
than seven days, merged in the second of its creation. -/
theorem mergePeriods_insertindex_in_bounds_witness :
    (∀ q st, mergeLoop (insertperiodOf 0 lockTwoLate.timestamp) q 0 lockTwoLate.periods
        { newperiods := [], insertintoexisting := false, lastperiodduration := 0,
          insertindex := -1, totalnewpercent := Dbl.ofNat 0 } = Except.ok st →
      st.insertintoexisting = false →
      st.newperiods.length = lockTwoLate.periods.length ∧
      0 ≤ (if insertperiodOf 0 lockTwoLate.timestamp > st.lastperiodduration then
            (lockTwoLate.periods.length : Int) else st.insertindex) ∧
      (if insertperiodOf 0 lockTwoLate.timestamp > st.lastperiodduration then
            (lockTwoLate.periods.length : Int) else st.insertindex) ≤
          (lockTwoLate.periods.length : Int) ∧
      (if insertperiodOf 0 lockTwoLate.timestamp > st.lastperiodduration then
            (lockTwoLate.periods.length : Int) else st.insertindex) ≠ -1) ∧
    mergePeriods 0 lockTwoLate 0 50 ≠
      Except.error (Abort.undefined "newperiods.begin() + insertindex is out of range") :=
  mergePeriods_insertindex_in_bounds 0 lockTwoLate 0 50 (by decide)
    (fun p hp => by
      have h : p.duration = 700000 ∨ p.duration = 800000 := by
        simp only [lockTwoLate, List.mem_cons, List.mem_singleton, List.mem_nil_iff,
          or_false] at hp
        rcases hp with hp | hp
        · exact Or.inl (by rw [hp])
        · exact Or.inr (by rw [hp])
      omega)

set_option maxRecDepth 20000 in
/-- C26 fails on the code for a list with a negative duration: with the single period of
duration `-1` the loop leaves `lastperiodduration` at 4294967295 and the insert index at
`-1`, and `mergePeriods` inserts outside the vector. -/
theorem mergePeriods_insertindex_negative_duration :
    insertperiodOf 0 lockNegative.timestamp = 604800 ∧
    ∃ q st, finite (Dbl.div (Dbl.ofInt 100) (Dbl.ofNat 150)) = Except.ok q ∧
      mergeLoop 604800 q 0 lockNegative.periods
        { newperiods := [], insertintoexisting := false, lastperiodduration := 0,
          insertindex := -1, totalnewpercent := Dbl.ofNat 0 } = Except.ok st ∧
      st.insertintoexisting = false ∧ st.lastperiodduration = 4294967295 ∧
      (if 604800 > st.lastperiodduration then (lockNegative.periods.length : Int)
        else st.insertindex) = -1 ∧
      mergePeriods 0 lockNegative 0 50 =
        Except.error (Abort.undefined "newperiods.begin() + insertindex is out of range") :=
  ⟨rfl, _, _, rfl, rfl, rfl, rfl, rfl, rfl⟩
/-! ## The request contract: which requests `rejectfndreq` accepts -/

/-- A request without a status record is never rejected successfully: the status check
reads through the end iterator. -/
theorem rejectfndreq_pending (cfg : ObtConfig) (ch : ObtChain) (contexts : List fioreqctxt)
    (statuses : List fioreqsts) (trxts : List fiotrxt_info)
    (fio_request_id : String) (max_fee : Int) (actor tpid : String)
    (hpending : findStatus statuses (toU64 (cfg.atoi fio_request_id)) = none)
    (out : RequestOutcome) :
    rejectfndreq cfg ch contexts statuses trxts fio_request_id max_fee actor tpid ≠
      Except.ok out := by
  intro h
  simp only [rejectfndreq, bind_ok_iff, hpending, lookup_none, reduceCtorEq, false_and,
    exists_false, and_false, exists_const] at h

set_option maxRecDepth 20000 in
/-- C30 on the code: for the pending request 7 (it has a context and no status record)
and otherwise valid inputs, `rejectfndreq` reads the status through the end iterator,
which is undefined behaviour, and appends nothing, where `cancelfndreq` on the same tables
finds the request pending and appends its record; no pending request is ever rejected
successfully; the request 8, which has a record with a status other than 0, is refused
with "Only pending requests can be rejected.". -/
theorem rejectfndreq_reads_missing_status :
    findContext exampleContexts 7 = some ⟨7, 1, 2, "FIOalice", "FIObob"⟩ ∧
    findStatus exampleStatuses 7 = none ∧
    rejectfndreq exampleObtConfig exampleObtChain exampleContexts exampleStatuses [] "7" 0
        "alice" "" =
      Except.error (Abort.undefined "fioreqstss_iter->status reads through the end iterator") ∧
    cancelfndreq exampleObtConfig exampleObtChain exampleContexts exampleStatuses [] "7" 0
        "bob" "" =
      Except.ok {
        statuses := exampleStatuses ++ [⟨1, 7, 3, "", 1000000000⟩]
        trxts := []
        actions := [Action.decrcounter "bob@fio" 1, Action.incram 200 512,
          Action.send_response 0]
        fee_amount := 0 } ∧
    rejectfndreq exampleObtConfig exampleObtChain exampleContexts exampleStatuses [] "8" 0
        "alice" "" =
      Except.error (Abort.fio_400 "fio_request_id" "Only pending requests can be rejected.") ∧
    (∀ cfg ch contexts statuses trxts fio_request_id max_fee actor tpid out,
      findStatus statuses (toU64 (cfg.atoi fio_request_id)) = none →
      rejectfndreq cfg ch contexts statuses trxts fio_request_id max_fee actor tpid ≠
        Except.ok out) :=
  ⟨rfl, rfl, rfl, rfl, rfl,
    fun cfg ch contexts statuses trxts fio_request_id max_fee actor tpid out hp =>
      rejectfndreq_pending cfg ch contexts statuses trxts fio_request_id max_fee actor tpid hp
        out⟩
/-! ## The rescaled percents of the merge loop -/

theorem K_ge_wide : 2 ^ 200 ≤ Dbl.K := by
  rw [K_eq]
  exact Nat.pow_le_pow_right (by norm_num) (by rw [scaleBits_eq]; norm_num)

theorem roundUnits_scale_both (m c q : Nat) (hq : 0 < q) :
    roundUnits (m * q) (c * q) = roundUnits m c := by
  unfold roundUnits
  simp only [Nat.mul_div_mul_right m c hq]
  rw [Nat.mul_right_comm c q, nearestEven_scale m _ q hq]

/-- Rounding an integer number of units: never more than a relative `2 ^ (-53)` above. -/
theorem roundUnits_one_le (p : Nat) : 2 ^ 53 * roundUnits p 1 ≤ (2 ^ 53 + 1) * p := by
  by_cases hp : 2 ^ 52 * 1 ≤ p
  · have h := (roundUnits_rel p 1 (by norm_num) hp).1
    rw [Nat.mul_one] at h
    exact h
  · have hlt : p < 2 ^ 52 := by omega
    have hk : ilog2 (p / 1) + 1 - 53 = 0 := by
      rw [Nat.div_one]
      rcases Nat.eq_zero_or_pos p with h0 | hpos
      · subst h0
        rw [ilog2_zero]
      · have := ilog2_lt_of_lt p 52 hpos hlt
        omega
    have hr : roundUnits p 1 = p := by
      unfold roundUnits
      simp only [hk]
      have e : pow2 0 = 1 := by decide
      rw [e, Nat.mul_one, Nat.mul_one]
      unfold nearestEven
      simp [Nat.mod_one]
    rw [hr]
    omega

theorem toInt_units (u : Nat) (h : u / Dbl.K < 2 ^ 31) :
    Dbl.toInt ⟨(u : Int)⟩ = some ((u / Dbl.K : Nat) : Int) := by
  unfold Dbl.toInt Dbl.trunc
  simp only [Int.natAbs_ofNat]
  have hn : ¬ ((u : Int) < 0) := by omega
  rw [if_neg hn]
  have h1 : (-(2 ^ 31) : Int) ≤ ((u / Dbl.K : Nat) : Int) := by
    have : (0 : Int) ≤ ((u / Dbl.K : Nat) : Int) := Int.ofNat_nonneg _
    omega
  have h2 : ((u / Dbl.K : Nat) : Int) < 2 ^ 31 := by exact_mod_cast h
  rw [if_pos ⟨h1, h2⟩]

/-- The share of the old lock in the new total, `(double) old / (double) total`. -/
theorem share_units (a t : Nat) (ha : 0 < a) (hat : a ≤ t) (ht : t < 2 ^ 53) :
    ∃ s : Nat, Dbl.div (Dbl.ofInt (a : Int)) (Dbl.ofNat t) = some ⟨(s : Int)⟩ ∧
      2 ^ 53 * (s * t) ≤ (2 ^ 53 + 1) * (a * Dbl.K) ∧
      (2 ^ 53 - 1) * (a * Dbl.K) ≤ 2 ^ 53 * (s * t) ∧
      2 ^ 53 * s ≤ (2 ^ 53 + 1) * Dbl.K ∧ Dbl.K ≤ 2 ^ 54 * s := by
  have hK := K_pos
  have hKge := K_ge
  have htpos : 0 < t := lt_of_lt_of_le ha hat
  have hq1 : 0 < t * Dbl.K := Nat.mul_pos htpos hK
  have hp1 : 2 ^ 52 * (t * Dbl.K) ≤ a * Dbl.K * Dbl.K := by
    have h1 : 2 ^ 52 * t ≤ a * Dbl.K := by
      calc 2 ^ 52 * t ≤ 2 ^ 52 * 2 ^ 53 := Nat.mul_le_mul_left _ (le_of_lt ht)
        _ ≤ 2 ^ 110 := by norm_num
        _ ≤ Dbl.K := hKge
        _ ≤ a * Dbl.K := Nat.le_mul_of_pos_left _ ha
    calc 2 ^ 52 * (t * Dbl.K) = (2 ^ 52 * t) * Dbl.K := by ring
      _ ≤ (a * Dbl.K) * Dbl.K := Nat.mul_le_mul_right _ h1
  obtain ⟨r1a, r1b⟩ := roundUnits_rel _ _ hq1 hp1
  generalize hu1 : roundUnits (a * Dbl.K * Dbl.K) (t * Dbl.K) = s at r1a r1b
  have e1a : 2 ^ 53 * (s * t) ≤ (2 ^ 53 + 1) * (a * Dbl.K) := by
    have : (2 ^ 53 * (s * t)) * Dbl.K ≤ ((2 ^ 53 + 1) * (a * Dbl.K)) * Dbl.K := by
      calc (2 ^ 53 * (s * t)) * Dbl.K = 2 ^ 53 * (s * (t * Dbl.K)) := by ring
        _ ≤ (2 ^ 53 + 1) * (a * Dbl.K * Dbl.K) := r1a
        _ = ((2 ^ 53 + 1) * (a * Dbl.K)) * Dbl.K := by ring
    exact Nat.le_of_mul_le_mul_right this hK
  have e1b : (2 ^ 53 - 1) * (a * Dbl.K) ≤ 2 ^ 53 * (s * t) := by
    have : ((2 ^ 53 - 1) * (a * Dbl.K)) * Dbl.K ≤ (2 ^ 53 * (s * t)) * Dbl.K := by
      calc ((2 ^ 53 - 1) * (a * Dbl.K)) * Dbl.K = (2 ^ 53 - 1) * (a * Dbl.K * Dbl.K) := by ring
        _ ≤ 2 ^ 53 * (s * (t * Dbl.K)) := r1b
        _ = (2 ^ 53 * (s * t)) * Dbl.K := by ring
    exact Nat.le_of_mul_le_mul_right this hK
  have hsle : 2 ^ 53 * s ≤ (2 ^ 53 + 1) * Dbl.K := by
    have h1 : 2 ^ 53 * (s * t) ≤ (2 ^ 53 + 1) * (t * Dbl.K) :=
      le_trans e1a (Nat.mul_le_mul_left _ (Nat.mul_le_mul_right _ hat))
    have h2 : (2 ^ 53 * s) * t ≤ ((2 ^ 53 + 1) * Dbl.K) * t := by
      calc (2 ^ 53 * s) * t = 2 ^ 53 * (s * t) := by ring
        _ ≤ (2 ^ 53 + 1) * (t * Dbl.K) := h1
        _ = ((2 ^ 53 + 1) * Dbl.K) * t := by ring
    exact Nat.le_of_mul_le_mul_right h2 htpos
  have hsge : Dbl.K ≤ 2 ^ 54 * s := by
    -- (2^53 - 1) K ≤ (2^53 - 1) a K ≤ 2^53 s t ≤ 2^53 s 2^53
    have h1 : (2 ^ 53 - 1) * Dbl.K ≤ (2 ^ 53 - 1) * (a * Dbl.K) :=
      Nat.mul_le_mul_left _ (Nat.le_mul_of_pos_left _ ha)
    have h2 : 2 ^ 53 * (s * t) ≤ 2 ^ 53 * (s * 2 ^ 53) :=
      Nat.mul_le_mul_left _ (Nat.mul_le_mul_left _ (le_of_lt ht))
    have h3 : 2 ^ 53 * (s * 2 ^ 53) = 2 ^ 106 * s := by ring
    generalize s * t = X at e1b h2
    generalize a * Dbl.K = Y at e1b h1
    omega
  have hovf := overflowUnits_ge
  refine ⟨s, ?_, e1a, e1b, hsle, hsge⟩
  have hofa : Dbl.ofInt (a : Int) = ⟨((a * Dbl.K : Nat) : Int)⟩ := ofNat_units a (by omega)
  rw [hofa, ofNat_units t ht]
  exact div_units _ _ _ (by omega) hu1 (by omega)

theorem truncate3_of (x y : Dbl) (i : Int) (d : Dbl)
    (h1 : Dbl.mul x (Dbl.ofNat 1000) = some y) (h2 : Dbl.toInt y = some i)
    (h3 : Dbl.div (Dbl.ofInt i) (Dbl.ofNat 1000) = some d) :
    truncate3 x = Except.ok d := by
  unfold truncate3
  simp only [h1, h2, h3, finite, ok_bind, lookup_some]

/-- One percent of the loop: the product with the share, its truncation at three decimal
places, and how far the resulting count of thousandths is from the exact product. -/
theorem scale_percent (u s a t : Nat) (ht : 0 < t)
    (e1a : 2 ^ 53 * (s * t) ≤ (2 ^ 53 + 1) * (a * Dbl.K))
    (e1b : (2 ^ 53 - 1) * (a * Dbl.K) ≤ 2 ^ 53 * (s * t))
    (hsle : 2 ^ 53 * s ≤ (2 ^ 53 + 1) * Dbl.K) (hsge : Dbl.K ≤ 2 ^ 54 * s)
    (hu1 : Dbl.K ≤ 2 ^ 20 * u) (hu2 : u ≤ 2 ^ 20 * Dbl.K) :
    ∃ x k r : Nat,
      Dbl.mul ⟨(u : Int)⟩ ⟨(s : Int)⟩ = some ⟨(x : Int)⟩ ∧
      truncate3 ⟨(x : Int)⟩ = Except.ok ⟨(r : Int)⟩ ∧
      milli k = ⟨(r : Int)⟩ ∧ r ≤ 2 ^ 22 * Dbl.K ∧
      (2 ^ 53) ^ 3 * (k * (Dbl.K * t)) ≤ (2 ^ 53 + 1) ^ 3 * (1000 * (u * a)) ∧
      (2 ^ 53 - 1) ^ 3 * (1000 * (u * a)) < (2 ^ 53) ^ 3 * ((k + 1) * (Dbl.K * t)) := by
  have hK := K_pos
  have hKge := K_ge_wide
  have hovf := overflowUnits_ge
  -- the product with the share
  have hus : 2 ^ 52 * Dbl.K ≤ u * s := by
    have h1 : Dbl.K * Dbl.K ≤ (2 ^ 20 * u) * (2 ^ 54 * s) := Nat.mul_le_mul hu1 hsge
    have h2 : (2 ^ 20 * u) * (2 ^ 54 * s) = 2 ^ 74 * (u * s) := by ring
    have h3 : 2 ^ 200 * Dbl.K ≤ Dbl.K * Dbl.K := Nat.mul_le_mul_right _ hKge
    rw [h2] at h1
    generalize u * s = X at h1 ⊢
    generalize Dbl.K * Dbl.K = KK at h1 h3
    omega
  obtain ⟨r2a, r2b⟩ := roundUnits_rel _ _ hK hus
  generalize hx : roundUnits (u * s) Dbl.K = x at r2a r2b
  have hxle : 2 ^ 53 * x ≤ (2 ^ 53 + 1) * (2 ^ 20 * s) := by
    have h1 : u * s ≤ (2 ^ 20 * Dbl.K) * s := Nat.mul_le_mul_right _ hu2
    have h2 : (2 ^ 53 * x) * Dbl.K ≤ ((2 ^ 53 + 1) * (2 ^ 20 * s)) * Dbl.K := by
      calc (2 ^ 53 * x) * Dbl.K = 2 ^ 53 * (x * Dbl.K) := by ring
        _ ≤ (2 ^ 53 + 1) * (u * s) := r2a
        _ ≤ (2 ^ 53 + 1) * ((2 ^ 20 * Dbl.K) * s) := Nat.mul_le_mul_left _ h1
        _ = ((2 ^ 53 + 1) * (2 ^ 20 * s)) * Dbl.K := by ring
    exact Nat.le_of_mul_le_mul_right h2 hK
  have hxge : (2 ^ 53 - 1) * s ≤ 2 ^ 73 * x := by
    have h1 : Dbl.K * s ≤ (2 ^ 20 * u) * s := Nat.mul_le_mul_right _ hu1
    have h2 : ((2 ^ 53 - 1) * s) * Dbl.K ≤ (2 ^ 73 * x) * Dbl.K := by
      calc ((2 ^ 53 - 1) * s) * Dbl.K = (2 ^ 53 - 1) * (Dbl.K * s) := by ring
        _ ≤ (2 ^ 53 - 1) * ((2 ^ 20 * u) * s) := Nat.mul_le_mul_left _ h1
        _ = 2 ^ 20 * ((2 ^ 53 - 1) * (u * s)) := by ring
        _ ≤ 2 ^ 20 * (2 ^ 53 * (x * Dbl.K)) := Nat.mul_le_mul_left _ r2b
        _ = (2 ^ 73 * x) * Dbl.K := by ring
    exact Nat.le_of_mul_le_mul_right h2 hK
  have hxov : x < Dbl.overflowUnits := by omega
  have hmul : Dbl.mul ⟨(u : Int)⟩ ⟨(s : Int)⟩ = some ⟨(x : Int)⟩ := mul_units _ _ _ hx hxov
  -- times 1000
  have hx1000 : 2 ^ 52 * 1 ≤ x * 1000 := by omega
  obtain ⟨r3a, r3b⟩ := roundUnits_rel _ _ (by norm_num) hx1000
  generalize hy : roundUnits (x * 1000) 1 = y at r3a r3b
  rw [Nat.mul_one] at r3a r3b
  have hy2 : roundUnits (x * (1000 * Dbl.K)) Dbl.K = y := by
    rw [← Nat.mul_assoc, roundUnits_scale _ _ hK]
    exact hy
  have hyov : y < Dbl.overflowUnits := by omega
  have hmul2 : Dbl.mul ⟨(x : Int)⟩ (Dbl.ofNat 1000) = some ⟨(y : Int)⟩ := by
    rw [ofNat_units 1000 (by norm_num)]
    exact mul_units _ _ _ hy2 hyov
  -- the integer part
  have hk1 : y / Dbl.K * Dbl.K ≤ y := Nat.div_mul_le_self _ _
  have hk2 : y < (y / Dbl.K + 1) * Dbl.K := by
    have := Nat.div_add_mod y Dbl.K
    have hm := Nat.mod_lt y hK
    calc y = Dbl.K * (y / Dbl.K) + y % Dbl.K := this.symm
      _ < Dbl.K * (y / Dbl.K) + Dbl.K := Nat.add_lt_add_left hm _
      _ = (y / Dbl.K + 1) * Dbl.K := by ring
  have hkle : y / Dbl.K ≤ 1048576000 := by
    by_contra hcon
    have h1 : 1048576001 * Dbl.K ≤ y / Dbl.K * Dbl.K :=
      Nat.mul_le_mul_right _ (by omega)
    generalize y / Dbl.K * Dbl.K = kK at hk1 h1
    omega
  have htoint : Dbl.toInt ⟨(y : Int)⟩ = some ((y / Dbl.K : Nat) : Int) :=
    toInt_units y (by omega)
  generalize y / Dbl.K = k at hk1 hk2 hkle htoint
  -- back to thousandths
  have hkK : k * Dbl.K ≤ 1048576000 * Dbl.K := Nat.mul_le_mul_right _ hkle
  have hr : ∃ r, roundUnits (k * Dbl.K) 1000 = r ∧ r ≤ 2 ^ 22 * Dbl.K := by
    rcases Nat.eq_zero_or_pos k with h0 | hpos
    · subst h0
      refine ⟨0, ?_, Nat.zero_le _⟩
      rw [Nat.zero_mul, roundUnits_zero]
    · have hp : 2 ^ 52 * 1000 ≤ k * Dbl.K := by
        have : Dbl.K ≤ k * Dbl.K := Nat.le_mul_of_pos_left _ hpos
        omega
      obtain ⟨r4a, -⟩ := roundUnits_rel _ _ (by norm_num) hp
      generalize roundUnits (k * Dbl.K) 1000 = r at r4a ⊢
      refine ⟨r, rfl, ?_⟩
      generalize k * Dbl.K = kK at r4a hkK
      omega
  obtain ⟨r, hr1, hr2⟩ := hr
  have hdiv : Dbl.div (Dbl.ofInt ((k : Nat) : Int)) (Dbl.ofNat 1000) = some ⟨(r : Int)⟩ := by
    have hofk : Dbl.ofInt ((k : Nat) : Int) = ⟨((k * Dbl.K : Nat) : Int)⟩ :=
      ofNat_units k (by omega)
    rw [hofk, ofNat_units 1000 (by norm_num)]
    refine div_units _ _ _ (by omega) ?_ (by omega)
    rw [roundUnits_scale_both _ _ _ hK]
    exact hr1
  have htrunc : truncate3 ⟨(x : Int)⟩ = Except.ok ⟨(r : Int)⟩ :=
    truncate3_of _ _ _ _ hmul2 htoint hdiv
  have hmilli : milli k = ⟨(r : Int)⟩ := by
    unfold milli
    have e : Dbl.ofNat k = Dbl.ofInt ((k : Nat) : Int) := rfl
    rw [e, hdiv]
    rfl
  refine ⟨x, k, r, hmul, htrunc, hmilli, hr2, ?_, ?_⟩
  · have hgoal : ((2 ^ 53) ^ 3 * (k * (Dbl.K * t))) * Dbl.K ≤
        ((2 ^ 53 + 1) ^ 3 * (1000 * (u * a))) * Dbl.K := by
      calc ((2 ^ 53) ^ 3 * (k * (Dbl.K * t))) * Dbl.K
          = ((2 ^ 53) ^ 3 * (Dbl.K * t)) * (k * Dbl.K) := by ring
        _ ≤ ((2 ^ 53) ^ 3 * (Dbl.K * t)) * y := Nat.mul_le_mul_left _ hk1
        _ = ((2 ^ 53) ^ 2 * (Dbl.K * t)) * (2 ^ 53 * y) := by ring
        _ ≤ ((2 ^ 53) ^ 2 * (Dbl.K * t)) * ((2 ^ 53 + 1) * (x * 1000)) :=
            Nat.mul_le_mul_left _ r3a
        _ = (2 ^ 53 * (2 ^ 53 + 1) * 1000 * t) * (2 ^ 53 * (x * Dbl.K)) := by ring
        _ ≤ (2 ^ 53 * (2 ^ 53 + 1) * 1000 * t) * ((2 ^ 53 + 1) * (u * s)) :=
            Nat.mul_le_mul_left _ r2a
        _ = ((2 ^ 53 + 1) ^ 2 * 1000 * u) * (2 ^ 53 * (s * t)) := by ring
        _ ≤ ((2 ^ 53 + 1) ^ 2 * 1000 * u) * ((2 ^ 53 + 1) * (a * Dbl.K)) :=
            Nat.mul_le_mul_left _ e1a
        _ = ((2 ^ 53 + 1) ^ 3 * (1000 * (u * a))) * Dbl.K := by ring
    exact Nat.le_of_mul_le_mul_right hgoal hK
  · have hpos : 0 < (2 ^ 53) ^ 3 * (Dbl.K * t) :=
      Nat.mul_pos (by norm_num) (Nat.mul_pos hK ht)
    have hgoal : ((2 ^ 53 - 1) ^ 3 * (1000 * (u * a))) * Dbl.K <
        ((2 ^ 53) ^ 3 * ((k + 1) * (Dbl.K * t))) * Dbl.K := by
      calc ((2 ^ 53 - 1) ^ 3 * (1000 * (u * a))) * Dbl.K
          = ((2 ^ 53 - 1) ^ 2 * 1000 * u) * ((2 ^ 53 - 1) * (a * Dbl.K)) := by ring
        _ ≤ ((2 ^ 53 - 1) ^ 2 * 1000 * u) * (2 ^ 53 * (s * t)) :=
            Nat.mul_le_mul_left _ e1b
        _ = (2 ^ 53 * (2 ^ 53 - 1) * 1000 * t) * ((2 ^ 53 - 1) * (u * s)) := by ring
        _ ≤ (2 ^ 53 * (2 ^ 53 - 1) * 1000 * t) * (2 ^ 53 * (x * Dbl.K)) :=
            Nat.mul_le_mul_left _ r2b
        _ = ((2 ^ 53) ^ 2 * (Dbl.K * t)) * ((2 ^ 53 - 1) * (x * 1000)) := by ring
        _ ≤ ((2 ^ 53) ^ 2 * (Dbl.K * t)) * (2 ^ 53 * y) := Nat.mul_le_mul_left _ r3b
        _ = ((2 ^ 53) ^ 3 * (Dbl.K * t)) * y := by ring
        _ < ((2 ^ 53) ^ 3 * (Dbl.K * t)) * ((k + 1) * Dbl.K) :=
            Nat.mul_lt_mul_of_pos_left hk2 hpos
        _ = ((2 ^ 53) ^ 3 * ((k + 1) * (Dbl.K * t))) * Dbl.K := by ring
    exact Nat.lt_of_mul_lt_mul_right hgoal

theorem add_units (a b r : Nat) (hr : roundUnits (a + b) 1 = r)
    (hov : r < Dbl.overflowUnits) :
    Dbl.add ⟨(a : Int)⟩ ⟨(b : Int)⟩ = some ⟨(r : Int)⟩ := by
  unfold Dbl.add Dbl.round
  have e : (a : Int) + (b : Int) = ((a + b : Nat) : Int) := by push_cast; rfl
  simp only [e, Int.natAbs_ofNat]
  have hn : decide (((a + b : Nat) : Int) < 0) = false := decide_eq_false (by omega)
  rw [if_neg (by omega), hr, hn, if_neg (by omega)]
  rfl

/-- One round of the loop, from the results of its three arithmetic steps. -/
theorem mergeBody_of (insertperiod : Nat) (q : Dbl) (i : Nat) (period : lockperiods)
    (st : MergeLoop) (scaled newpercent total : Dbl)
    (h1 : Dbl.mul period.percent q = some scaled)
    (h2 : truncate3 scaled = Except.ok newpercent)
    (h3 : Dbl.add st.totalnewpercent newpercent = some total) :
    mergeBody insertperiod q i period st = Except.ok {
      newperiods := st.newperiods ++ [{ duration := period.duration, percent := newpercent }]
      insertintoexisting :=
        if period.duration = (insertperiod : Int) then true else st.insertintoexisting
      lastperiodduration := toU32 period.duration
      insertindex :=
        if period.duration > (insertperiod : Int) then (i : Int) else st.insertindex
      totalnewpercent := total } := by
  unfold mergeBody
  simp only [h1, h2, h3, finite, ok_bind]
  rfl

/-- The loop over a list of percents between `2 ^ (-20)` and `2 ^ 20` runs to its end, and
every new period carries the duration of the old one and its rescaled percent. -/
theorem mergeLoop_run (insertperiod s a t : Nat) (ht : 0 < t)
    (e1a : 2 ^ 53 * (s * t) ≤ (2 ^ 53 + 1) * (a * Dbl.K))
    (e1b : (2 ^ 53 - 1) * (a * Dbl.K) ≤ 2 ^ 53 * (s * t))
    (hsle : 2 ^ 53 * s ≤ (2 ^ 53 + 1) * Dbl.K) (hsge : Dbl.K ≤ 2 ^ 54 * s)
    (periods : List lockperiods) :
    ∀ (i : Nat) (st : MergeLoop) (S : Nat),
      st.totalnewpercent = ⟨(S : Int)⟩ → S ≤ 2 * i * (2 ^ 22 * Dbl.K) →
      i + periods.length < 2 ^ 32 →
      (∀ p ∈ periods, (Dbl.K : Int) ≤ 2 ^ 20 * p.percent.units ∧
        p.percent.units ≤ 2 ^ 20 * (Dbl.K : Int)) →
      ∃ st1 news, mergeLoop insertperiod ⟨(s : Int)⟩ i periods st = Except.ok st1 ∧
        st1.newperiods = st.newperiods ++ news ∧
        List.Forall₂ (fun p np =>
          np.duration = p.duration ∧
          (∃ scaled, Dbl.mul p.percent ⟨(s : Int)⟩ = some scaled ∧
            truncate3 scaled = Except.ok np.percent) ∧
          ∃ k : Nat, np.percent = milli k ∧
            (2 ^ 53) ^ 3 * (k * (Dbl.K * t)) ≤
              (2 ^ 53 + 1) ^ 3 * (1000 * (p.percent.units.toNat * a)) ∧
            (2 ^ 53 - 1) ^ 3 * (1000 * (p.percent.units.toNat * a)) <
              (2 ^ 53) ^ 3 * ((k + 1) * (Dbl.K * t))) periods news := by
  delta mergeLoop
  dsimp only
  induction periods with
  | nil =>
    intro i st S _ _ _ _
    exact ⟨st, [], rfl, by simp, List.Forall₂.nil⟩
  | cons period rest ih =>
    intro i st S hS hSle hlen hpct
    dsimp only
    have hK := K_pos
    have hovf := overflowUnits_ge
    obtain ⟨hp1, hp2⟩ := hpct period (List.mem_cons_self _ _)
    have hu0 : 0 ≤ period.percent.units := by
      have : (0 : Int) ≤ (Dbl.K : Int) := Int.ofNat_nonneg _
      omega
    obtain ⟨u, hu⟩ : ∃ u : Nat, period.percent.units = (u : Int) :=
      ⟨period.percent.units.toNat, (Int.toNat_of_nonneg hu0).symm⟩
    have hpu : period.percent = ⟨(u : Int)⟩ := by
      rw [← hu]
    have hu1 : Dbl.K ≤ 2 ^ 20 * u := by
      rw [hu] at hp1
      exact_mod_cast hp1
    have hu2 : u ≤ 2 ^ 20 * Dbl.K := by
      rw [hu] at hp2
      exact_mod_cast hp2
    obtain ⟨x, k, r, hmul, htrunc, hmilli, hr2, b1, b2⟩ :=
      scale_percent u s a t ht e1a e1b hsle hsge hu1 hu2
    -- the running sum
    have hsum := roundUnits_one_le (S + r)
    generalize hT : roundUnits (S + r) 1 = T at hsum
    have hlen1 : i + 1 ≤ 2 ^ 32 := by
      simp only [List.length_cons] at hlen
      omega
    have hiK : i * (2 ^ 22 * Dbl.K) ≤ 2 ^ 32 * (2 ^ 22 * Dbl.K) :=
      Nat.mul_le_mul_right _ (by omega)
    have hTle : T ≤ 2 * (i + 1) * (2 ^ 22 * Dbl.K) := by
      have e1 : 2 * i * (2 ^ 22 * Dbl.K) = 2 * (i * (2 ^ 22 * Dbl.K)) := by ring
      have e2 : 2 * (i + 1) * (2 ^ 22 * Dbl.K) =
          2 * (i * (2 ^ 22 * Dbl.K)) + 2 * (2 ^ 22 * Dbl.K) := by ring
      rw [e1] at hSle
      rw [e2]
      generalize i * (2 ^ 22 * Dbl.K) = iX at hSle hiK
      omega
    have hTov : T < Dbl.overflowUnits := by
      have e2 : 2 * (i + 1) * (2 ^ 22 * Dbl.K) =
          2 * (i * (2 ^ 22 * Dbl.K)) + 2 * (2 ^ 22 * Dbl.K) := by ring
      rw [e2] at hTle
      generalize i * (2 ^ 22 * Dbl.K) = iX at hTle hiK
      omega
    have hadd : Dbl.add st.totalnewpercent (milli k) = some ⟨(T : Int)⟩ := by
      rw [hS, hmilli]
      exact add_units _ _ _ hT hTov
    have hR1 : Dbl.mul period.percent ⟨(s : Int)⟩ = some ⟨(x : Int)⟩ := by
      rw [hpu]
      exact hmul
    have hR2 : truncate3 ⟨(x : Int)⟩ = Except.ok (milli k) := by
      rw [hmilli]
      exact htrunc
    have hbody := mergeBody_of insertperiod ⟨(s : Int)⟩ i period st ⟨(x : Int)⟩ (milli k)
      ⟨(T : Int)⟩ hR1 hR2 hadd
    rw [hbody]
    dsimp only
    obtain ⟨st1, news, hrun, hnew, hall⟩ := ih (i + 1)
      { newperiods := st.newperiods ++ [{ duration := period.duration, percent := milli k }]
        insertintoexisting :=
          if period.duration = (insertperiod : Int) then true else st.insertintoexisting
        lastperiodduration := toU32 period.duration
        insertindex :=
          if period.duration > (insertperiod : Int) then (i : Int) else st.insertindex
        totalnewpercent := ⟨(T : Int)⟩ } T rfl hTle
      (by simp only [List.length_cons] at hlen; omega)
      (fun p hp => hpct p (List.mem_cons_of_mem _ hp))
    refine ⟨st1, { duration := period.duration, percent := milli k } :: news, hrun, ?_, ?_⟩
    · rw [hnew]
      simp only [List.append_assoc, List.singleton_append]
    · refine List.Forall₂.cons ?_ hall
      dsimp only
      rw [hu, Int.toNat_ofNat]
      exact ⟨rfl, ⟨⟨(x : Int)⟩, hR1, hR2⟩, k, rfl, b1, b2⟩

/-- C21, as the code has it: in a merge into an existing schedule with
`old = lock_amount > 0`, `added > 0`, `old + added < 2 ^ 53`, fewer than `2 ^ 32` periods
and every percent between `2 ^ (-20)` and `2 ^ 20`, the share and the loop are computed
without an undefined step, and every pre-existing period keeps its duration and gets the
percent `truncate3 (percent * share)` in double precision: the double nearest to
`k / 1000` for an integer `k` that is the floor of `1000 * percent * old / (old + added)`
up to the three roundings, a relative `2 ^ (-53)` each. -/
theorem mergeLoop_percent_double_precision (present_time : Nat)
    (lockiter : locked_tokens_info) (stakingrewardamount : Nat) (amount : Int)
    (old total : Nat)
    (hold : lockiter.lock_amount = (old : Int)) (hpos : 0 < old)
    (htotal : wrap64 (wrap64 (toU64 lockiter.lock_amount + stakingrewardamount) +
      toU64 amount) = total)
    (hadd : old < total) (hfit : total < 2 ^ 53)
    (hlen : lockiter.periods.length < 2 ^ 32)
    (hpct : ∀ p ∈ lockiter.periods, (Dbl.K : Int) ≤ 2 ^ 20 * p.percent.units ∧
      p.percent.units ≤ 2 ^ 20 * (Dbl.K : Int)) :
    ∃ share st,
      finite (Dbl.div (Dbl.ofInt lockiter.lock_amount)
        (Dbl.ofNat (wrap64 (wrap64 (toU64 lockiter.lock_amount + stakingrewardamount) +
          toU64 amount)))) = Except.ok share ∧
      mergeLoop (insertperiodOf present_time lockiter.timestamp) share 0 lockiter.periods
        { newperiods := [], insertintoexisting := false, lastperiodduration := 0,
          insertindex := -1, totalnewpercent := Dbl.ofNat 0 } = Except.ok st ∧
      List.Forall₂ (fun p np =>
        np.duration = p.duration ∧
        (∃ scaled, Dbl.mul p.percent share = some scaled ∧
          truncate3 scaled = Except.ok np.percent) ∧
        ∃ k : Nat, np.percent = milli k ∧
          (2 ^ 53) ^ 3 * (k * (Dbl.K * total)) ≤
            (2 ^ 53 + 1) ^ 3 * (1000 * (p.percent.units.toNat * old)) ∧
          (2 ^ 53 - 1) ^ 3 * (1000 * (p.percent.units.toNat * old)) <
            (2 ^ 53) ^ 3 * ((k + 1) * (Dbl.K * total))) lockiter.periods st.newperiods := by
  obtain ⟨s, hdiv, e1a, e1b, hsle, hsge⟩ := share_units old total hpos (le_of_lt hadd) hfit
  have hzero : Dbl.ofNat 0 = ⟨((0 : Nat) : Int)⟩ := by
    rw [ofNat_units 0 (by norm_num), Nat.zero_mul]
  obtain ⟨st, news, hrun, hnew, hall⟩ := mergeLoop_run
    (insertperiodOf present_time lockiter.timestamp) s old total (by omega) e1a e1b hsle hsge
    lockiter.periods 0
    { newperiods := [], insertintoexisting := false, lastperiodduration := 0,
      insertindex := -1, totalnewpercent := Dbl.ofNat 0 } 0 hzero (Nat.zero_le _)
    (by omega) hpct
  have hnew1 : st.newperiods = news := by
    rw [hnew]
    rfl
  refine ⟨⟨(s : Int)⟩, st, ?_, hrun, ?_⟩
  · rw [htotal, hold, hdiv]
    rfl
  · rw [hnew1]
    exact hall

set_option maxRecDepth 20000 in
/-- The statement `mergeLoop_percent_double_precision` at the lock of 100 units with one
period of 100 percent, into which 50 units are merged. -/
theorem mergeLoop_percent_double_precision_witness :
    ∃ share st,
      finite (Dbl.div (Dbl.ofInt lockSingle.lock_amount)
        (Dbl.ofNat (wrap64 (wrap64 (toU64 lockSingle.lock_amount + 0) + toU64 50)))) =
          Except.ok share ∧
      mergeLoop (insertperiodOf 98 lockSingle.timestamp) share 0 lockSingle.periods
        { newperiods := [], insertintoexisting := false, lastperiodduration := 0,
          insertindex := -1, totalnewpercent := Dbl.ofNat 0 } = Except.ok st ∧
      List.Forall₂ (fun p np =>
        np.duration = p.duration ∧
        (∃ scaled, Dbl.mul p.percent share = some scaled ∧
          truncate3 scaled = Except.ok np.percent) ∧
        ∃ k : Nat, np.percent = milli k ∧
          (2 ^ 53) ^ 3 * (k * (Dbl.K * 150)) ≤
            (2 ^ 53 + 1) ^ 3 * (1000 * (p.percent.units.toNat * 100)) ∧
          (2 ^ 53 - 1) ^ 3 * (1000 * (p.percent.units.toNat * 100)) <
            (2 ^ 53) ^ 3 * ((k + 1) * (Dbl.K * 150))) lockSingle.periods st.newperiods :=
  mergeLoop_percent_double_precision 98 lockSingle 0 50 100 150 rfl (by decide) (by decide)
    (by decide) (by decide) (by decide)
    (fun p hp => by
      have h : p.percent = Dbl.ofNat 100 := by
        simp only [lockSingle, List.mem_singleton] at hp
        rw [hp]
      rw [h, ofNat_units 100 (by norm_num)]
      have hK : (0 : Int) ≤ (Dbl.K : Int) := Int.ofNat_nonneg _
      constructor
      · show (Dbl.K : Int) ≤ 2 ^ 20 * ((100 * Dbl.K : Nat) : Int)
        push_cast
        omega
      · show ((100 * Dbl.K : Nat) : Int) ≤ 2 ^ 20 * (Dbl.K : Int)
        push_cast
        omega)

set_option maxRecDepth 20000 in
/-- C21 fails on the code in both directions.  Merging 71 units into a lock of 29 units
with one period of 100 percent gives that period 28.999 percent, a full 0.001 below the
exact product 29 (the final list is 28.999 and 71.001).  Merging 1,000,000 units into a
lock of 99,998,999,999 units gives it 99.999 percent, which is more than the exact
product `100 * 99998999999 / 99999999999`. -/
theorem mergeLoop_percent_not_floor :
    (∃ share st,
      finite (Dbl.div (Dbl.ofInt 29) (Dbl.ofNat 100)) = Except.ok share ∧
      mergeLoop (insertperiodOf 98 lockTwentyNine.timestamp) share 0 lockTwentyNine.periods
        { newperiods := [], insertintoexisting := false, lastperiodduration := 0,
          insertindex := -1, totalnewpercent := Dbl.ofNat 0 } = Except.ok st ∧
      st.newperiods = [⟨604800, milli 28999⟩]) ∧
    mergePeriods 98 lockTwentyNine 0 71 =
      Except.ok [⟨604800, milli 28999⟩, ⟨604898, milli 71001⟩] ∧
    (28999 + 1) * (29 + 71) = 1000 * (100 * 29) ∧
    (milli 28999).units * 1000 ≤ 28999 * Dbl.K ∧
    (∃ share st,
      finite (Dbl.div (Dbl.ofInt 99998999999) (Dbl.ofNat 99999999999)) = Except.ok share ∧
      mergeLoop (insertperiodOf 98 lockNearWhole.timestamp) share 0 lockNearWhole.periods
        { newperiods := [], insertintoexisting := false, lastperiodduration := 0,
          insertindex := -1, totalnewpercent := Dbl.ofNat 0 } = Except.ok st ∧
      st.newperiods = [⟨604800, milli 99999⟩]) ∧
    mergePeriods 98 lockNearWhole 0 1000000 =
      Except.ok [⟨604800, milli 99999⟩, ⟨604898, milli 1⟩] ∧
    1000 * (100 * 99998999999) < 99999 * (99998999999 + 1000000) ∧
    100 * Dbl.K * 99998999999 < (milli 99999).units * (99998999999 + 1000000) :=
  ⟨⟨_, _, rfl, rfl, rfl⟩, rfl, by decide, by decide, ⟨_, _, rfl, rfl, rfl⟩, rfl, by decide,
    by decide⟩
/-! ## Counters at the top of the 64-bit range -/

set_option maxRecDepth 20000 in
/-- The state `brimState` is reached with positive amounts only: a stake of 1 SUF and two
rewards of `2 ^ 63 - 1` SUF. -/
theorem brim_reachable : Reachable exampleConfig brimState brimRows := by
  have h1 : ∃ out, stakefio exampleConfig exampleChainOpen zeroState [] "alice@fio" 1 0 ""
      100 = Except.ok out ∧ out.gstaking = ⟨1, 1, 0, 1, 0, 0⟩ ∧
      out.accountstaking = brimRows := ⟨_, rfl, rfl, rfl⟩
  obtain ⟨out, hout, hg, hrows⟩ := h1
  have r1 := Reachable.stake exampleChainOpen zeroState [] "alice@fio" 1 0 "" 100 out
    Reachable.init hout
  rw [hg, hrows] at r1
  have h2 : incgrewards exampleConfig exampleChainOpen ⟨1, 1, 0, 1, 0, 0⟩
      9223372036854775807 =
      Except.ok ⟨1, 9223372036854775808, 9223372036854775807, 1, 9223372036854775807, 0⟩ :=
    rfl
  have r2 := Reachable.rewards exampleChainOpen _ _ _ _ r1 h2
  have h3 : incgrewards exampleConfig exampleChainOpen
      ⟨1, 9223372036854775808, 9223372036854775807, 1, 9223372036854775807, 0⟩
      9223372036854775807 = Except.ok brimState := rfl
  exact Reachable.rewards exampleChainOpen _ _ _ _ r2 h3

set_option maxRecDepth 20000 in
/-- The state `fullState` is reached by two stakes of `2 ^ 63 - 1` SUF of account `100`. -/
theorem full_reachable : Reachable exampleConfig fullState fullRows := by
  have h1 : ∃ out, stakefio exampleConfig exampleChainRich zeroState [] "alice@fio"
      9223372036854775807 0 "" 100 = Except.ok out ∧
      out.gstaking = ⟨9223372036854775807, 9223372036854775807, 0, 9223372036854775807, 0, 0⟩ ∧
      out.accountstaking = [⟨0, 100, 9223372036854775807, 9223372036854775807⟩] :=
    ⟨_, rfl, rfl, rfl⟩
  obtain ⟨out, hout, hg, hrows⟩ := h1
  have r1 := Reachable.stake exampleChainRich zeroState [] "alice@fio" 9223372036854775807 0
    "" 100 out Reachable.init hout
  rw [hg, hrows] at r1
  have h2 : ∃ out, stakefio exampleConfig exampleChainRich
      ⟨9223372036854775807, 9223372036854775807, 0, 9223372036854775807, 0, 0⟩
      [⟨0, 100, 9223372036854775807, 9223372036854775807⟩] "alice@fio"
      9223372036854775807 0 "" 100 = Except.ok out ∧
      out.gstaking = fullState ∧ out.accountstaking = fullRows := ⟨_, rfl, rfl, rfl⟩
  obtain ⟨out2, hout2, hg2, hrows2⟩ := h2
  have r2 := Reachable.stake exampleChainRich _ _ "alice@fio" 9223372036854775807 0 "" 100
    out2 r1 hout2
  rw [hg2, hrows2] at r2
  exact r2

set_option maxRecDepth 20000 in
/-- C1 fails on the code when a counter passes `2 ^ 64`: in the reachable state with a
combined pool of `2 ^ 64 - 1` a stake of 10 succeeds and leaves the combined pool at 9, not
at the pool of before plus 10; the staked pool and the row do go up by 10. -/
theorem stake_wraps_combined_pool :
    Reachable exampleConfig brimState brimRows ∧
    brimState.combined_token_pool = 18446744073709551615 ∧
    ∃ out, stakefio exampleConfig exampleChainOpen brimState brimRows "alice@fio" 10 0 ""
        100 = Except.ok out ∧
      out.gstaking.combined_token_pool = 9 ∧
      (out.gstaking.combined_token_pool : Int) ≠ (brimState.combined_token_pool : Int) + 10 ∧
      out.gstaking.staked_token_pool = 11 ∧
      out.accountstaking = [⟨0, 100, 1, 11⟩] :=
  ⟨brim_reachable, rfl, _, rfl, rfl, by decide, rfl, rfl⟩

set_option maxRecDepth 20000 in
/-- C16 fails on the code when the combined pool passes `2 ^ 64`: in the reachable state
with a combined pool of `2 ^ 64 - 1` a stake of 7 succeeds and leaves the combined pool at
6, below its value of before. -/
theorem stake_lowers_combined_pool :
    Reachable exampleConfig brimState brimRows ∧
    ∃ out, stakefio exampleConfig exampleChainOpen brimState brimRows "alice@fio" 7 0 ""
        100 = Except.ok out ∧
      out.gstaking.combined_token_pool = 6 ∧
      out.gstaking.combined_token_pool < brimState.combined_token_pool :=
  ⟨brim_reachable, _, rfl, rfl, by decide⟩

set_option maxRecDepth 20000 in
/-- C27 fails on the code when the combined pool passes `2 ^ 64`: the reachable state with
a combined pool of `2 ^ 64 - 1` and one SRP is above the pool minimum and has the rate
`2 ^ 64 - 1`; a stake of 100 succeeds at that rate, leaves a combined pool of 99 and one
SRP, and the rate of the state it leaves is 1. -/
theorem stake_lowers_rate :
    Reachable exampleConfig brimState brimRows ∧
    exampleConfig.COMBINEDTOKENPOOLMINIMUM ≤ brimState.combined_token_pool ∧
    0 < brimState.global_srp_count ∧
    ∃ out, stakefio exampleConfig exampleChainOpen brimState brimRows "alice@fio" 100 0 ""
        100 = Except.ok out ∧
      out.rateofexchange = 18446744073709551615 ∧
      out.gstaking.combined_token_pool = 99 ∧ out.gstaking.global_srp_count = 1 ∧
      ExchangeRateOracle exampleConfig.COMBINEDTOKENPOOLMINIMUM out.gstaking = 1 ∧
      ExchangeRateOracle exampleConfig.COMBINEDTOKENPOOLMINIMUM out.gstaking <
        out.rateofexchange :=
  ⟨brim_reachable, by decide, by decide, _, rfl, rfl, rfl, rfl, rfl, by decide⟩

set_option maxRecDepth 20000 in
/-- C20 fails on the code when the combined pool passes `2 ^ 64`: in the reachable state
with a combined pool of `2 ^ 64 - 1` and daily rewards of `2 ^ 64 - 2`, `recorddaily(0)`
leaves the combined pool at `2 ^ 64 - 3`, two below its value of before and not the pool
of before plus the daily rewards. -/
theorem recorddaily_wraps_combined_pool :
    Reachable exampleConfig brimState brimRows ∧
    brimState.combined_token_pool = 18446744073709551615 ∧
    brimState.daily_staking_rewards = 18446744073709551614 ∧
    ∃ g1, recorddaily exampleConfig exampleChainOpen brimState 0 = Except.ok g1 ∧
      g1.combined_token_pool = 18446744073709551613 ∧
      g1.combined_token_pool ≠
        brimState.combined_token_pool + brimState.daily_staking_rewards ∧
      g1.combined_token_pool < brimState.combined_token_pool :=
  ⟨brim_reachable, rfl, rfl, _, rfl, rfl, by decide, by decide⟩

set_option maxRecDepth 20000 in
/-- C23 fails on the code when a counter passes `2 ^ 64`: in the reachable state where one
row holds `2 ^ 64 - 2` SRPs and staked tokens, equal to the two counters, a second account
stakes 2 SUF; the stake succeeds and adds its row, the rows then sum to `2 ^ 64` and both
counters are 0. -/
theorem stake_breaks_aggregates :
    Reachable exampleConfig fullState fullRows ∧
    sumSrp fullRows = fullState.global_srp_count ∧
    sumStaked fullRows = fullState.staked_token_pool ∧
    ∃ out, stakefio exampleConfig exampleChainRich fullState fullRows "bob@fio" 2 0 "" 200 =
        Except.ok out ∧
      out.accountstaking = fullRows ++ [⟨1, 200, 2, 2⟩] ∧
      out.gstaking.global_srp_count = 0 ∧ out.gstaking.staked_token_pool = 0 ∧
      sumSrp out.accountstaking = 18446744073709551616 ∧
      sumStaked out.accountstaking = 18446744073709551616 ∧
      sumSrp out.accountstaking ≠ out.gstaking.global_srp_count ∧
      sumStaked out.accountstaking ≠ out.gstaking.staked_token_pool :=
  ⟨full_reachable, rfl, rfl, _, rfl, rfl, rfl, rfl, rfl, rfl, by decide, by decide⟩

end FioStaking
